import Mathlib

/-!
The configuration replication engine of xray-panel.

A shallow embedding of the slave side (`internal/xray/manager.go`,
`internal/xray/instance.go`, `internal/xray/version.go`, `internal/xray/stats.go`,
`internal/comm/client.go` and the handlers of `cmd/slave/main.go`) and of the coordinator
side (`internal/model/database.go`, `internal/comm/websocket.go`, `internal/comm/sync.go`
and the heartbeat monitor of `cmd/master/main.go`), followed by the properties proved
about them.

Conventions of the embedding.

* A Go `map[string]interface{}` that came out of `json.Unmarshal` is an association list
  `Content` of keys and JSON values; `content[k]` is `List.lookup k content`.
* A Go method that mutates its receiver and returns `(bool, error)` or `error` becomes a
  function from the old state to the new state paired with an `Except Err _`.
* A Go slice or map is a `List` (`nil` and the empty slice are both `[]`), a Go pointer
  to a struct is an `Option`.
* Outcomes the code cannot decide by itself (whether the proxy process starts, whether
  the version file can be written) are read from an explicit `Env`; what the
  counter-query CLI prints is handed to the sampler as a function of the counter name.
* The `int64` arithmetic of the sampler wraps modulo `2 ^ 64` (`wrap64`), the totals of
  the store are checked against `BIGINT`, and a time is an integer.
-/

namespace XrayPanel

/-! ## JSON values -/

/-- JSON value as `encoding/json` stores it in an `interface{}`. A number is kept as the
decimal `mantissa * 10 ^ (-scale)`; every float64 has such an expansion. -/
inductive Value where
  | null
  | bool (b : Bool)
  | num (mantissa : Int) (scale : Nat)
  | str (s : String)
  | arr (items : List Value)
  | obj (fields : List (String × Value))

/-- Go `map[string]interface{}` holding a decoded JSON object. -/
abbrev Content := List (String × Value)

/-- Integral JSON number. -/
def Value.int (n : Int) : Value := Value.num n 0

/-- Go `int64(f)` for a float64 `f` given as `mantissa * 10 ^ (-scale)`: the fractional
part is dropped (rounding toward zero). This is the conversion for a float64 within the
int64 range; outside that range Go leaves the result to the implementation (amd64 gives
`-2 ^ 63`), and a number of the wire that is no float64 is rounded by the decoder first.
Both are excluded by `exactInteger`. -/
def toInt64 (mantissa : Int) (scale : Nat) : Int :=
  Int.tdiv mantissa ((10 : Int) ^ scale)

/-- A JSON number that is an integer of magnitude at most `2 ^ 53`. `encoding/json`
decodes such a number into a float64 without rounding and `int64(...)` converts that
float64 without loss, so that `toInt64` is what the code computes. -/
def exactInteger (mantissa : Int) (scale : Nat) : Bool :=
  decide (mantissa % (10 : Int) ^ scale = 0) &&
    (decide (-(2 : Int) ^ 53 ≤ toInt64 mantissa scale) &&
      decide (toInt64 mantissa scale ≤ (2 : Int) ^ 53))

/-- Type assertion `v.(string)` on an optional map entry: `(value, ok)`. -/
def asString : Option Value → Option String
  | some (Value.str s) => some s
  | _ => none

/-! ### Decoding a JSON value into a typed struct field

`mapToInbound` and its siblings marshal the map and unmarshal the text into a struct.
Field by field this is: an absent key or a `null` leaves the zero value, a value of the
field's type is stored, any other value makes `json.Unmarshal` return an error. Keys are
read as the struct tags spell them; a key that differs from a field name only in letter
case, which `encoding/json` would accept as well, counts as an unknown key here. -/

/-- Field of Go type `string`. -/
def decodeString : Option Value → Option String
  | none => some ""
  | some Value.null => some ""
  | some (Value.str s) => some s
  | some _ => none

/-- Field of Go type `int` (64 bit): the number has to be integral and in range. -/
def decodeInt : Option Value → Option Int
  | none => some 0
  | some Value.null => some 0
  | some (Value.num m k) =>
    if m % (10 : Int) ^ k = 0 then
      let n := m / (10 : Int) ^ k
      if -(2 : Int) ^ 63 ≤ n ∧ n < (2 : Int) ^ 63 then some n else none
    else none
  | some _ => none

/-- Field of Go type `map[string]interface{}`. -/
def decodeMap : Option Value → Option Content
  | none => some []
  | some Value.null => some []
  | some (Value.obj kvs) => some kvs
  | some _ => none

/-- Elements of a `[]string`: a `null` element stays the empty string. -/
def decodeStrings : List Value → Option (List String)
  | [] => some []
  | Value.str s :: rest => (decodeStrings rest).map (fun ss => s :: ss)
  | Value.null :: rest => (decodeStrings rest).map (fun ss => "" :: ss)
  | _ :: _ => none

/-- Field of Go type `[]string`. -/
def decodeStringList : Option Value → Option (List String)
  | none => some []
  | some Value.null => some []
  | some (Value.arr items) => decodeStrings items
  | some _ => none

/-! ## Configuration structures (`config.go`) -/

/-- Go struct `LogConfig`. -/
structure LogConfig where
  Loglevel : String

/-- Go struct `API`. -/
structure API where
  Tag : String
  Services : List String

/-- Go struct `SystemPolicy`. -/
structure SystemPolicy where
  StatsInboundUplink : Bool
  StatsInboundDownlink : Bool

/-- Go struct `Policy`. -/
structure Policy where
  Levels : Content
  System : Option SystemPolicy

/-- Go struct `Inbound`. -/
structure Inbound where
  Tag : String
  Port : Int
  Protocol : String
  Listen : String
  Settings : Content
  StreamSettings : Content

/-- Go struct `Outbound`. -/
structure Outbound where
  Tag : String
  Protocol : String
  Settings : Content
  StreamSettings : Content
  ProxySettings : Content
  Mux : Content

/-- Go struct `RoutingRule`; its field `Type` is spelled `Type_` here. -/
structure RoutingRule where
  Type_ : String
  Domain : List String
  IP : List String
  Port : String
  Network : String
  Source : List String
  User : List String
  InboundTag : List String
  Protocol : List String
  Attrs : String
  OutboundTag : String
  BalancerTag : String

/-- Go struct `Balancer`. -/
structure Balancer where
  Tag : String
  Selector : List String
  Strategy : String

/-- Go struct `RoutingConfig`; `emptyRouting` is `&RoutingConfig{}`. -/
structure RoutingConfig where
  DomainStrategy : String
  DomainMatcher : String
  Rules : List RoutingRule
  Balancers : List Balancer

/-- Go struct `Config`. `Stats` is a pointer to an empty struct. -/
structure Config where
  Log : Option LogConfig
  API : Option API
  Stats : Option Unit
  Policy : Option Policy
  Inbounds : List Inbound
  Outbounds : List Outbound
  Routing : Option RoutingConfig

/-- Go value `RoutingConfig{}`. -/
def emptyRouting : RoutingConfig :=
  { DomainStrategy := "", DomainMatcher := "", Rules := [], Balancers := [] }

/-- Go value `Config{}`: what `LoadInitialConfig` holds after reading `{}`. -/
def emptyConfig : Config :=
  { Log := none, API := none, Stats := none, Policy := none,
    Inbounds := [], Outbounds := [], Routing := none }

/-- Routing rules of a configuration (`nil` routing has none). -/
def Config.rules (c : Config) : List RoutingRule :=
  match c.Routing with
  | none => []
  | some r => r.Rules

/-- Balancers of a configuration (`nil` routing has none). -/
def Config.balancers (c : Config) : List Balancer :=
  match c.Routing with
  | none => []
  | some r => r.Balancers

/-! ## Errors -/

/-- The errors returned by the embedded functions, one constructor per `fmt.Errorf`. -/
inductive Err where
  | notInitialised
  | missingTag
  | unknownAction (action : String)
  | unsupportedType (configType : String)
  | decodeFailed (kind : String)
  | notFound (kind : String) (key : String)
  | noRouting
  | parseFailed
  | notLoaded
  | startFailed
  | saveFailed
  | invalidVersion
  | invalidAction
  | invalidContent
  | notConnected
  | sendTimeout
  | connectionClosed
  | queueFull
  | noRows
  | notOnline (slaveID : Int)
  | foreignKeyViolation
  | valueTooLong
  | outOfRange
  deriving DecidableEq

/-- Text of an error as `%v` prints it. The detail that `encoding/json` or the operating
system appends after a wrapped error is left out. -/
def Err.text : Err → String
  | Err.notInitialised => "配置未初始化"
  | Err.missingTag => "配置缺少 tag 字段"
  | Err.unknownAction action => "未知的操作类型: " ++ action
  | Err.unsupportedType configType => "不支持的配置类型: " ++ configType
  | Err.decodeFailed kind =>
    if kind = "Routing" then "转换 Routing 规则失败" else "转换 " ++ kind ++ " 配置失败"
  | Err.notFound kind key =>
    if kind = "Routing" then "路由规则不存在: " ++ key else kind ++ " " ++ key ++ " 不存在"
  | Err.noRouting => "路由配置不存在"
  | Err.parseFailed => "解析配置失败"
  | Err.notLoaded => "实例未初始化，请先加载配置"
  | Err.startFailed => "启动实例失败"
  | Err.saveFailed => "写入临时文件失败"
  | Err.invalidVersion => "无效的版本号"
  | Err.invalidAction => "无效的操作类型"
  | Err.invalidContent => "无效的配置内容"
  | Err.notConnected => "未连接到服务器"
  | Err.sendTimeout => "发送消息超时"
  | Err.connectionClosed => "连接已关闭"
  | Err.queueFull => "消息队列已满"
  | Err.noRows => "sql: no rows in result set"
  | Err.notOnline slaveID => "Slave " ++ toString slaveID ++ " 不在线"
  | Err.foreignKeyViolation => "pq: insert or update on table violates foreign key constraint"
  | Err.valueTooLong => "pq: value too long for type character varying(255)"
  | Err.outOfRange => "pq: bigint out of range"

/-! ## The proxy instance (`instance.go`) -/

/-- What the operating system decides for one handled message: whether writing the
temporary config file and spawning the proxy process succeed (`startOk`) and whether
the version file can be written and renamed (`saveOk`). -/
structure Env where
  startOk : Bool
  saveOk : Bool

/-- Go struct `Instance`. `config` holds the configuration last stored by
`LoadConfigFromJSON` (`none` while `len(i.config) == 0`); `isRunning` stands for
`i.isRunning && i.cmd != nil && i.cmd.Process != nil`, which the code sets and clears
together. -/
structure Instance where
  config : Option Config
  isRunning : Bool
  apiPort : Int

/-- Go `NewInstance` and `NewInstanceWithPath`: nothing loaded, not running, API port 10085. -/
def NewInstance : Instance :=
  { config := none, isRunning := false, apiPort := 10085 }

/-- Go `(*Instance).IsRunning`. -/
def Instance.IsRunning (i : Instance) : Bool := i.isRunning

/-- Go `(*Instance).Stop`: kills the process when one runs; never returns an error. -/
def Instance.Stop (i : Instance) : Instance × Except Err Unit :=
  if !i.isRunning then (i, Except.ok ())
  else ({ i with isRunning := false }, Except.ok ())

/-- Go `(*Instance).LoadConfigFromJSON`. The argument is what `json.Unmarshal` makes of
the bytes: `none` when they do not parse. The stored bytes are the re-serialised
configuration, kept here as the configuration itself. -/
def Instance.LoadConfigFromJSON (i : Instance) (jsonConfig : Option Config) :
    Instance × Except Err Unit :=
  match jsonConfig with
  | none => (i, Except.error Err.parseFailed)
  | some config =>
    let config := if config.Stats.isNone then { config with Stats := some () } else config
    let config :=
      if config.API.isNone then
        { config with API := some { Tag := "api", Services := ["StatsService", "HandlerService"] } }
      else config
    let statsOn : SystemPolicy := { StatsInboundUplink := true, StatsInboundDownlink := true }
    let config :=
      match config.Policy with
      | none => { config with Policy := some { Levels := [], System := some statsOn } }
      | some policy =>
        match policy.System with
        | none => { config with Policy := some { policy with System := some statsOn } }
        | some system =>
          let system := { system with StatsInboundUplink := true, StatsInboundDownlink := true }
          { config with Policy := some { policy with System := some system } }
    let apiExists := config.Inbounds.any (fun inbound => inbound.Tag == "api")
    let config :=
      if !apiExists then
        let apiInbound : Inbound :=
          { Tag := "api", Listen := "127.0.0.1", Port := i.apiPort, Protocol := "dokodemo-door",
            Settings := [("address", Value.str "127.0.0.1")], StreamSettings := [] }
        { config with Inbounds := config.Inbounds ++ [apiInbound] }
      else config
    let routing := match config.Routing with
      | none => emptyRouting
      | some r => r
    let apiRuleExists := routing.Rules.any (fun rule => rule.OutboundTag == "api")
    let routing :=
      if !apiRuleExists then
        let apiRule : RoutingRule :=
          { Type_ := "field", Domain := [], IP := [], Port := "", Network := "", Source := [],
            User := [], InboundTag := ["api"], Protocol := [], Attrs := "",
            OutboundTag := "api", BalancerTag := "" }
        { routing with Rules := [apiRule] ++ routing.Rules }
      else routing
    let config := { config with Routing := some routing }
    ({ i with config := some config }, Except.ok ())

/-- Go `(*Instance).Start`: needs a loaded configuration, stops a running process first,
then writes the config file and spawns the process; both of the latter are `env.startOk`. -/
def Instance.Start (env : Env) (i : Instance) : Instance × Except Err Unit :=
  if i.config.isNone then (i, Except.error Err.notLoaded)
  else
    let i := if i.isRunning then (i.Stop).1 else i
    if env.startOk then ({ i with isRunning := true }, Except.ok ())
    else (i, Except.error Err.startFailed)

/-! ## The manager (`manager.go`) -/

/-- Go struct `Manager`: the proxy instance and the current configuration (`none` until
`LoadInitialConfig` has run). -/
structure Manager where
  instance_ : Instance
  currentConfig : Option Config

/-- Go `NewManager`. -/
def NewManager (inst : Instance) : Manager :=
  { instance_ := inst, currentConfig := none }

/-- Go `(*Manager).LoadInitialConfig`, on the parsed bytes. -/
def Manager.LoadInitialConfig (m : Manager) (jsonConfig : Option Config) :
    Manager × Except Err Unit :=
  match jsonConfig with
  | none => (m, Except.error Err.parseFailed)
  | some config => ({ m with currentConfig := some config }, Except.ok ())

/-- Go `(*Manager).detectConfigType`. -/
def detectConfigType (content : Content) : String :=
  if (content.lookup "port").isSome then "inbound"
  else if (content.lookup "outboundTag").isSome then "routing"
  else if (content.lookup "selector").isSome then "balancer"
  else if (content.lookup "protocol").isSome then "outbound"
  else "unknown"

/-- Go `(*Manager).mapToInbound`: the JSON round trip into an `Inbound`. -/
def mapToInbound (data : Content) : Option Inbound := do
  let tag ← decodeString (data.lookup "tag")
  let port ← decodeInt (data.lookup "port")
  let protocol ← decodeString (data.lookup "protocol")
  let listen ← decodeString (data.lookup "listen")
  let settings ← decodeMap (data.lookup "settings")
  let streamSettings ← decodeMap (data.lookup "streamSettings")
  pure { Tag := tag, Port := port, Protocol := protocol, Listen := listen,
         Settings := settings, StreamSettings := streamSettings }

/-- Go `(*Manager).mapToOutbound`. -/
def mapToOutbound (data : Content) : Option Outbound := do
  let tag ← decodeString (data.lookup "tag")
  let protocol ← decodeString (data.lookup "protocol")
  let settings ← decodeMap (data.lookup "settings")
  let streamSettings ← decodeMap (data.lookup "streamSettings")
  let proxySettings ← decodeMap (data.lookup "proxySettings")
  let mux ← decodeMap (data.lookup "mux")
  pure { Tag := tag, Protocol := protocol, Settings := settings,
         StreamSettings := streamSettings, ProxySettings := proxySettings, Mux := mux }

/-- Go `(*Manager).mapToRoutingRule`. -/
def mapToRoutingRule (data : Content) : Option RoutingRule := do
  let type_ ← decodeString (data.lookup "type")
  let domain ← decodeStringList (data.lookup "domain")
  let ip ← decodeStringList (data.lookup "ip")
  let port ← decodeString (data.lookup "port")
  let network ← decodeString (data.lookup "network")
  let source ← decodeStringList (data.lookup "source")
  let user ← decodeStringList (data.lookup "user")
  let inboundTag ← decodeStringList (data.lookup "inboundTag")
  let protocol ← decodeStringList (data.lookup "protocol")
  let attrs ← decodeString (data.lookup "attrs")
  let outboundTag ← decodeString (data.lookup "outboundTag")
  let balancerTag ← decodeString (data.lookup "balancerTag")
  pure { Type_ := type_, Domain := domain, IP := ip, Port := port, Network := network,
         Source := source, User := user, InboundTag := inboundTag, Protocol := protocol,
         Attrs := attrs, OutboundTag := outboundTag, BalancerTag := balancerTag }

/-- Go `(*Manager).mapToBalancer`. -/
def mapToBalancer (data : Content) : Option Balancer := do
  let tag ← decodeString (data.lookup "tag")
  let selector ← decodeStringList (data.lookup "selector")
  let strategy ← decodeString (data.lookup "strategy")
  pure { Tag := tag, Selector := selector, Strategy := strategy }

/-- Index of the first element satisfying `p`: the `for i, x := range xs` loops that
return at the first match. -/
def firstIndex {α : Type} (p : α → Bool) : List α → Option Nat
  | [] => none
  | x :: xs => if p x then some 0 else (firstIndex p xs).map (fun i => i + 1)

/-- Go `append(xs[:i], xs[i+1:]...)`. -/
def removeAt {α : Type} (xs : List α) (i : Nat) : List α :=
  xs.take i ++ xs.drop (i + 1)

/-- Go `(*Manager).addInbound`. -/
def addInbound (cfg : Config) (tag : String) (content : Content) :
    Config × Except Err Bool :=
  if cfg.Inbounds.any (fun inbound => inbound.Tag == tag) then (cfg, Except.ok false)
  else
    match mapToInbound content with
    | none => (cfg, Except.error (Err.decodeFailed "Inbound"))
    | some inbound => ({ cfg with Inbounds := cfg.Inbounds ++ [inbound] }, Except.ok true)

/-- Go `(*Manager).updateInbound`. -/
def updateInbound (cfg : Config) (tag : String) (content : Content) :
    Config × Except Err Bool :=
  match firstIndex (fun inbound => inbound.Tag == tag) cfg.Inbounds with
  | some i =>
    match mapToInbound content with
    | none => (cfg, Except.error (Err.decodeFailed "Inbound"))
    | some updated => ({ cfg with Inbounds := cfg.Inbounds.set i updated }, Except.ok true)
  | none => (cfg, Except.error (Err.notFound "Inbound" tag))

/-- Go `(*Manager).deleteInbound`. -/
def deleteInbound (cfg : Config) (tag : String) : Config × Except Err Bool :=
  match firstIndex (fun inbound => inbound.Tag == tag) cfg.Inbounds with
  | some i => ({ cfg with Inbounds := removeAt cfg.Inbounds i }, Except.ok true)
  | none => (cfg, Except.error (Err.notFound "Inbound" tag))

/-- Go `(*Manager).addOutbound`. -/
def addOutbound (cfg : Config) (tag : String) (content : Content) :
    Config × Except Err Bool :=
  if cfg.Outbounds.any (fun outbound => outbound.Tag == tag) then (cfg, Except.ok false)
  else
    match mapToOutbound content with
    | none => (cfg, Except.error (Err.decodeFailed "Outbound"))
    | some outbound => ({ cfg with Outbounds := cfg.Outbounds ++ [outbound] }, Except.ok true)

/-- Go `(*Manager).updateOutbound`. -/
def updateOutbound (cfg : Config) (tag : String) (content : Content) :
    Config × Except Err Bool :=
  match firstIndex (fun outbound => outbound.Tag == tag) cfg.Outbounds with
  | some i =>
    match mapToOutbound content with
    | none => (cfg, Except.error (Err.decodeFailed "Outbound"))
    | some updated => ({ cfg with Outbounds := cfg.Outbounds.set i updated }, Except.ok true)
  | none => (cfg, Except.error (Err.notFound "Outbound" tag))

/-- Go `(*Manager).deleteOutbound`. -/
def deleteOutbound (cfg : Config) (tag : String) : Config × Except Err Bool :=
  match firstIndex (fun outbound => outbound.Tag == tag) cfg.Outbounds with
  | some i => ({ cfg with Outbounds := removeAt cfg.Outbounds i }, Except.ok true)
  | none => (cfg, Except.error (Err.notFound "Outbound" tag))

/-- Go `(*Manager).addRoutingRule`: a `nil` routing section is created first; there is
no search for an existing rule. -/
def addRoutingRule (cfg : Config) (content : Content) : Config × Except Err Bool :=
  let routing := match cfg.Routing with
    | none => emptyRouting
    | some r => r
  let cfg := { cfg with Routing := some routing }
  match mapToRoutingRule content with
  | none => (cfg, Except.error (Err.decodeFailed "Routing"))
  | some rule =>
    ({ cfg with Routing := some { routing with Rules := routing.Rules ++ [rule] } },
      Except.ok true)

/-- Go `(*Manager).updateRoutingRule`: the key is `content["outboundTag"].(string)`, the
empty string when that is not a string; the `tag` argument is not used. -/
def updateRoutingRule (cfg : Config) (_tag : String) (content : Content) :
    Config × Except Err Bool :=
  match cfg.Routing with
  | none => (cfg, Except.error Err.noRouting)
  | some routing =>
    let outboundTag := (asString (content.lookup "outboundTag")).getD ""
    match firstIndex (fun rule => rule.OutboundTag == outboundTag) routing.Rules with
    | some i =>
      match mapToRoutingRule content with
      | none => (cfg, Except.error (Err.decodeFailed "Routing"))
      | some updated =>
        ({ cfg with Routing := some { routing with Rules := routing.Rules.set i updated } },
          Except.ok true)
    | none => (cfg, Except.error (Err.notFound "Routing" outboundTag))

/-- Go `(*Manager).deleteRoutingRule`: rules are searched for `OutboundTag == tag`. -/
def deleteRoutingRule (cfg : Config) (tag : String) : Config × Except Err Bool :=
  match cfg.Routing with
  | none => (cfg, Except.error Err.noRouting)
  | some routing =>
    match firstIndex (fun rule => rule.OutboundTag == tag) routing.Rules with
    | some i =>
      ({ cfg with Routing := some { routing with Rules := removeAt routing.Rules i } },
        Except.ok true)
    | none => (cfg, Except.error (Err.notFound "Routing" tag))

/-- Go `(*Manager).addBalancer`: a `nil` routing section is created first. -/
def addBalancer (cfg : Config) (tag : String) (content : Content) :
    Config × Except Err Bool :=
  let routing := match cfg.Routing with
    | none => emptyRouting
    | some r => r
  let cfg := { cfg with Routing := some routing }
  if routing.Balancers.any (fun balancer => balancer.Tag == tag) then (cfg, Except.ok false)
  else
    match mapToBalancer content with
    | none => (cfg, Except.error (Err.decodeFailed "Balancer"))
    | some balancer =>
      ({ cfg with Routing := some { routing with Balancers := routing.Balancers ++ [balancer] } },
        Except.ok true)

/-- Go `(*Manager).updateBalancer`. -/
def updateBalancer (cfg : Config) (tag : String) (content : Content) :
    Config × Except Err Bool :=
  match cfg.Routing with
  | none => (cfg, Except.error Err.noRouting)
  | some routing =>
    match firstIndex (fun balancer => balancer.Tag == tag) routing.Balancers with
    | some i =>
      match mapToBalancer content with
      | none => (cfg, Except.error (Err.decodeFailed "Balancer"))
      | some updated =>
        ({ cfg with
            Routing := some { routing with Balancers := routing.Balancers.set i updated } },
          Except.ok true)
    | none => (cfg, Except.error (Err.notFound "Balancer" tag))

/-- Go `(*Manager).deleteBalancer`. -/
def deleteBalancer (cfg : Config) (tag : String) : Config × Except Err Bool :=
  match cfg.Routing with
  | none => (cfg, Except.error Err.noRouting)
  | some routing =>
    match firstIndex (fun balancer => balancer.Tag == tag) routing.Balancers with
    | some i =>
      ({ cfg with Routing := some { routing with Balancers := removeAt routing.Balancers i } },
        Except.ok true)
    | none => (cfg, Except.error (Err.notFound "Balancer" tag))

/-- Go `(*Manager).addConfig`. -/
def addConfig (cfg : Config) (configType tag : String) (content : Content) :
    Config × Except Err Bool :=
  if configType = "inbound" then addInbound cfg tag content
  else if configType = "outbound" then addOutbound cfg tag content
  else if configType = "routing" then addRoutingRule cfg content
  else if configType = "balancer" then addBalancer cfg tag content
  else (cfg, Except.error (Err.unsupportedType configType))

/-- Go `(*Manager).updateConfig`. -/
def updateConfig (cfg : Config) (configType tag : String) (content : Content) :
    Config × Except Err Bool :=
  if configType = "inbound" then updateInbound cfg tag content
  else if configType = "outbound" then updateOutbound cfg tag content
  else if configType = "routing" then updateRoutingRule cfg tag content
  else if configType = "balancer" then updateBalancer cfg tag content
  else (cfg, Except.error (Err.unsupportedType configType))

/-- Go `(*Manager).deleteConfig`. -/
def deleteConfig (cfg : Config) (configType tag : String) : Config × Except Err Bool :=
  if configType = "inbound" then deleteInbound cfg tag
  else if configType = "outbound" then deleteOutbound cfg tag
  else if configType = "routing" then deleteRoutingRule cfg tag
  else if configType = "balancer" then deleteBalancer cfg tag
  else (cfg, Except.error (Err.unsupportedType configType))

/-- Go `(*Manager).reloadConfig`: serialise the current configuration, stop the instance
when it runs, load the serialised configuration into it and start it. Reading back what
`json.MarshalIndent` wrote gives the configuration again (`Config{}` for `nil`). -/
def reloadConfig (env : Env) (m : Manager) : Manager × Except Err Unit :=
  let configJSON : Option Config := some (m.currentConfig.getD emptyConfig)
  let stopped : Instance × Except Err Unit :=
    if m.instance_.IsRunning then m.instance_.Stop else (m.instance_, Except.ok ())
  match stopped.2 with
  | Except.error e => ({ m with instance_ := stopped.1 }, Except.error e)
  | Except.ok _ =>
    let loaded := stopped.1.LoadConfigFromJSON configJSON
    match loaded.2 with
    | Except.error e => ({ m with instance_ := loaded.1 }, Except.error e)
    | Except.ok _ =>
      let started := loaded.1.Start env
      match started.2 with
      | Except.error e => ({ m with instance_ := started.1 }, Except.error e)
      | Except.ok _ => ({ m with instance_ := started.1 }, Except.ok ())

/-- Go `(*Manager).ApplyConfigDiff`. -/
def ApplyConfigDiff (env : Env) (m : Manager) (action : String) (content : Content) :
    Manager × Except Err Unit :=
  match m.currentConfig with
  | none => (m, Except.error Err.notInitialised)
  | some cfg =>
    match asString (content.lookup "tag") with
    | none => (m, Except.error Err.missingTag)
    | some tag =>
      let configType := detectConfigType content
      let applied : Option (Config × Except Err Bool) :=
        if action = "ADD" then some (addConfig cfg configType tag content)
        else if action = "UPDATE" then some (updateConfig cfg configType tag content)
        else if action = "DEL" ∨ action = "DELETE" then some (deleteConfig cfg configType tag)
        else none
      match applied with
      | none => (m, Except.error (Err.unknownAction action))
      | some (cfg, Except.error err) => ({ m with currentConfig := some cfg }, Except.error err)
      | some (cfg, Except.ok modified) =>
        if modified then reloadConfig env { m with currentConfig := some cfg }
        else ({ m with currentConfig := some cfg }, Except.ok ())

/-! ## The version store (`version.go`) -/

/-- Go struct `VersionStore`: the version in memory and the version the file holds
(`none` while the file does not exist). -/
structure VersionStore where
  version : Int
  file : Option Int

/-- Go `(*VersionStore).Save`: write the temporary file and rename it over the version
file; `env.saveOk` says whether both succeed. -/
def VersionStore.Save (env : Env) (vs : VersionStore) : VersionStore × Except Err Unit :=
  if env.saveOk then ({ vs with file := some vs.version }, Except.ok ())
  else (vs, Except.error Err.saveFailed)

/-- Go `(*VersionStore).GetVersion`. -/
def VersionStore.GetVersion (vs : VersionStore) : Int := vs.version

/-- Go `(*VersionStore).UpdateVersion`. -/
def VersionStore.UpdateVersion (env : Env) (vs : VersionStore) (newVersion : Int) :
    VersionStore × Except Err Unit :=
  if newVersion > vs.version then
    VersionStore.Save env { vs with version := newVersion }
  else (vs, Except.ok ())

/-! ## The slave client and the `config_diff` handler (`client.go`, `cmd/slave/main.go`) -/

/-- Go struct `Message`, without its timestamp. -/
structure Message where
  Type_ : String
  Data : Content

/-- Go struct `SlaveClient`: the connected flag and the messages waiting in the `send`
channel, oldest first. -/
structure SlaveClient where
  isConnected : Bool
  send : List Message

/-- Capacity of the `send` channel made by `NewSlaveClient`. -/
def sendCapacity : Nat := 256

/-- Go `(*SlaveClient).SendMessage`: refused when not connected; the message is put on
the channel when it has room; otherwise the five-second timer fires (the write pump is
taken not to drain the channel meanwhile). -/
def SlaveClient.SendMessage (sc : SlaveClient) (msgType : String) (data : Content) :
    SlaveClient × Except Err Unit :=
  if !sc.isConnected then (sc, Except.error Err.notConnected)
  else if sc.send.length < sendCapacity then
    ({ sc with send := sc.send ++ [{ Type_ := msgType, Data := data }] }, Except.ok ())
  else (sc, Except.error Err.sendTimeout)

/-- Go `(*SlaveClient).SendAck`. -/
def SlaveClient.SendAck (sc : SlaveClient) (version : Int) (status message : String) :
    SlaveClient × Except Err Unit :=
  sc.SendMessage "ack"
    [("version", Value.int version), ("status", Value.str status),
     ("message", Value.str message)]

/-- The state the `config_diff` handler closes over: manager (with the proxy instance),
version store and client. -/
structure Slave where
  manager : Manager
  versionStore : VersionStore
  client : SlaveClient

/-- The handler `setupMessageHandlers` registers for `config_diff`, applied to the
message's `Data`. -/
def handleConfigDiff (env : Env) (s : Slave) (data : Content) : Slave × Except Err Unit :=
  match data.lookup "version" with
  | some (Value.num mantissa scale) =>
    let version := toInt64 mantissa scale
    match asString (data.lookup "action") with
    | none => (s, Except.error Err.invalidAction)
    | some action =>
      match data.lookup "content" with
      | some (Value.obj content) =>
        let applied := ApplyConfigDiff env s.manager action content
        match applied.2 with
        | Except.error err =>
          let sent := s.client.SendAck version "error" ("应用配置失败: " ++ err.text)
          ({ s with manager := applied.1, client := sent.1 }, Except.error err)
        | Except.ok _ =>
          let updated := s.versionStore.UpdateVersion env version
          match updated.2 with
          | Except.error err =>
            ({ s with manager := applied.1, versionStore := updated.1 }, Except.error err)
          | Except.ok _ =>
            let xrayStatus := if applied.1.instance_.IsRunning then "running" else "stopped"
            let sent1 := s.client.SendMessage "xray_status" [("status", Value.str xrayStatus)]
            let sent2 := sent1.1.SendAck version "success" "配置已成功应用"
            ({ manager := applied.1, versionStore := updated.1, client := sent2.1 },
              Except.ok ())
      | _ => (s, Except.error Err.invalidContent)
  | _ => (s, Except.error Err.invalidVersion)

/-- An environment in which the proxy starts and the version file can be written. -/
def okEnv : Env := { startOk := true, saveOk := true }

/-- A manager right after `LoadInitialConfig` read the configuration `{}`. -/
def freshManager : Manager := { instance_ := NewInstance, currentConfig := some emptyConfig }

/-- Scenario S1, v1: the inbound `in1`. -/
def s1Inbound : Content :=
  [("tag", Value.str "in1"), ("port", Value.int 10808), ("protocol", Value.str "socks")]

/-- Scenario S1, v2: the outbound `out1`. -/
def s1Outbound : Content := [("tag", Value.str "out1"), ("protocol", Value.str "freedom")]

/-! ## Definitions used in the statements -/

/-- The configuration `cfg` with balancer `e` appended to the balancers of its
routing part (a fresh `RoutingConfig{}` when `cfg` has none); every other field as in
`cfg`. -/
def addedBalancer (cfg : Config) (e : Balancer) : Config :=
  let routing := cfg.Routing.getD emptyRouting
  { cfg with Routing := some { routing with Balancers := cfg.balancers ++ [e] } }

/-- Position `i` holds the first element of `xs` that satisfies `p`: the element at `i`
satisfies `p` and none before it does. -/
def isFirstAt {α : Type} (p : α → Bool) (xs : List α) (i : Nat) : Bool :=
  (xs[i]?.map p == some true) && (xs.take i).all (fun y => !p y)

/-- The routing rule `{outboundTag: "out1"}`. -/
def ruleOut1 : RoutingRule :=
  { Type_ := "", Domain := [], IP := [], Port := "", Network := "", Source := [], User := [],
    InboundTag := [], Protocol := [], Attrs := "", OutboundTag := "out1", BalancerTag := "" }

/-- A manager whose configuration holds the single routing rule `ruleOut1`. -/
def managerWithRule : Manager :=
  { instance_ := NewInstance,
    currentConfig := some { emptyConfig with
      Routing := some { emptyRouting with Rules := [ruleOut1] } } }

/-- A routing payload keyed by `outboundTag` alone: `{outboundTag: "out1", balancerTag: "b1"}`. -/
def routingNoTag : Content :=
  [("outboundTag", Value.str "out1"), ("balancerTag", Value.str "b1")]

/-- The same payload as the coordinator records it, with `tag` set to `rule-out1`. -/
def routingTagged : Content :=
  [("balancerTag", Value.str "b1"), ("outboundTag", Value.str "out1"),
   ("tag", Value.str "rule-out1")]

/-- The inbound `in1` of scenario S1 as `mapToInbound` decodes it. -/
def inboundIn1 : Inbound :=
  { Tag := "in1", Port := 10808, Protocol := "socks", Listen := "", Settings := [],
    StreamSettings := [] }

/-- A manager whose configuration holds the single inbound `in1`. -/
def managerWithIn1 : Manager :=
  { instance_ := NewInstance, currentConfig := some { emptyConfig with Inbounds := [inboundIn1] } }

/-- The payload the coordinator records for deleting the inbound `in1`: `{tag: "in1"}`. -/
def deleteIn1 : Content := [("tag", Value.str "in1")]

/-- The routing payload of scenario S3, v4: `{outboundTag: "out1"}`. -/
def routingBare : Content := [("outboundTag", Value.str "out1")]

/-- The payload `routingTagged` with another tag. -/
def routingRetagged : Content :=
  [("balancerTag", Value.str "b1"), ("outboundTag", Value.str "out1"),
   ("tag", Value.str "anything")]

/-- Tags are pairwise distinct within the inbounds, within the outbounds and within the
balancers of a configuration. -/
def tagsDistinct (cfg : Config) : Prop :=
  (cfg.Inbounds.map (fun x => x.Tag)).Nodup ∧ (cfg.Outbounds.map (fun x => x.Tag)).Nodup ∧
    (cfg.balancers.map (fun x => x.Tag)).Nodup

instance (cfg : Config) : Decidable (tagsDistinct cfg) := by
  unfold tagsDistinct
  infer_instance

/-- Version a `config_diff` message carries, as the handler reads it: `int64` of the
number under `version`. -/
def diffVersion (data : Content) : Option Int :=
  match data.lookup "version" with
  | some (Value.num mantissa scale) => some (toInt64 mantissa scale)
  | _ => none

/-- Message `config_diff{version, action, content}` as the coordinator sends it. -/
def configDiff (version : Int) (action : String) (content : Content) : Content :=
  [("version", Value.int version), ("action", Value.str action), ("content", Value.obj content)]

/-- A connected slave with version 0, the empty configuration and nothing queued. -/
def freshSlave : Slave :=
  { manager := freshManager,
    versionStore := { version := 0, file := some 0 },
    client := { isConnected := true, send := [] } }

/-- An environment in which the proxy starts but the version file cannot be written. -/
def diskFullEnv : Env := { startOk := true, saveOk := false }

/-! ## The coordinator's store (`internal/model/database.go`)

The three tables are lists of rows. A statement fails only where SQL itself makes it
fail (no row for `QueryRow`, a violated constraint of the schema); the connection to the
database is taken to work. Timestamps are left out. -/

namespace model

/-- Go struct `Slave`, a row of table `slaves`. -/
structure Slave where
  ID : Int
  Name : String
  IP : String
  CurrentVersion : Int
  Status : String
  XrayStatus : String

/-- Go struct `ConfigDiff`, a row of table `config_diffs`. `Content` holds what
`json.Unmarshal` reads from the stored text into a `map[string]interface{}`: `none`
when the text is not a JSON object. The text `null`, which `json.Unmarshal` accepts
without an error and which no handler stores, has no counterpart of its own here. -/
structure ConfigDiff where
  ID : Int
  SlaveID : Int
  Version : Int
  Type_ : String
  Action : String
  Content : Option Content

/-- Go struct `TrafficStats`, a row of table `traffic_stats`. -/
structure TrafficStats where
  SlaveID : Int
  InboundTag : String
  TotalUplink : Int
  TotalDownlink : Int

/-- Go struct `DB`: the contents of the three tables. -/
structure DB where
  slaves : List Slave
  config_diffs : List ConfigDiff
  traffic_stats : List TrafficStats

/-- Go `SlaveStatusOnline`. -/
def SlaveStatusOnline : String := "online"

/-- Go `SlaveStatusOffline`. -/
def SlaveStatusOffline : String := "offline"

/-- A value fits the SQL type `BIGINT`. -/
def inBigint (n : Int) : Bool := decide (-(2 : Int) ^ 63 ≤ n) && decide (n < (2 : Int) ^ 63)

/-- Go `(*DB).GetSlaveByID`: the row with that id, `sql.ErrNoRows` when there is none. -/
def DB.GetSlaveByID (db : DB) (id : Int) : Except Err Slave :=
  match db.slaves.find? (fun s => s.ID == id) with
  | some slave => Except.ok slave
  | none => Except.error Err.noRows

/-- Go `(*DB).UpdateSlaveVersion`: `UPDATE slaves SET current_version = $1 WHERE id = $3`. -/
def DB.UpdateSlaveVersion (db : DB) (id : Int) (version : Int) : DB × Except Err Unit :=
  let rows := db.slaves.map
    (fun s => if s.ID == id then { s with CurrentVersion := version } else s)
  ({ db with slaves := rows }, Except.ok ())

/-- Go `(*DB).UpdateSlaveStatus`: `UPDATE slaves SET status = $1 WHERE id = $4`. -/
def DB.UpdateSlaveStatus (db : DB) (id : Int) (status : String) : DB × Except Err Unit :=
  let rows := db.slaves.map (fun s => if s.ID == id then { s with Status := status } else s)
  ({ db with slaves := rows }, Except.ok ())

/-- Insert a row into a list of rows that is ascending in `Version`, after the rows with
the same or a lower version. -/
def insertByVersion (d : ConfigDiff) : List ConfigDiff → List ConfigDiff
  | [] => [d]
  | x :: xs => if d.Version < x.Version then d :: x :: xs else x :: insertByVersion d xs

/-- SQL `ORDER BY version ASC`. -/
def orderByVersion : List ConfigDiff → List ConfigDiff
  | [] => []
  | x :: xs => insertByVersion x (orderByVersion xs)

/-- Go `(*DB).GetConfigDiffs`:
`SELECT ... WHERE slave_id = $1 AND version > $2 ORDER BY version ASC`. -/
def DB.GetConfigDiffs (db : DB) (slaveID fromVersion : Int) : Except Err (List ConfigDiff) :=
  Except.ok (orderByVersion
    (db.config_diffs.filter (fun d => d.SlaveID == slaveID && decide (d.Version > fromVersion))))

/-- SQL `MAX` over a column: `none` (NULL) for no rows. -/
def maxOf : List Int → Option Int
  | [] => none
  | x :: xs =>
    match maxOf xs with
    | none => some x
    | some m => some (max x m)

/-- Go `(*DB).GetLatestVersion`:
`SELECT COALESCE(MAX(version), 0) FROM config_diffs WHERE slave_id = $1`. -/
def DB.GetLatestVersion (db : DB) (slaveID : Int) : Except Err Int :=
  Except.ok ((maxOf ((db.config_diffs.filter (fun d => d.SlaveID == slaveID)).map
    (fun d => d.Version))).getD 0)

/-- The `INSERT ... ON CONFLICT (slave_id, inbound_tag) DO UPDATE` of `UpdateTrafficStats`
on the rows of `traffic_stats`: the row with that key gets the deltas added, and a new
row with the deltas as totals is appended when there is none. A total outside `BIGINT`
makes the statement fail. -/
def upsertTraffic (slaveID : Int) (inboundTag : String) (deltaUplink deltaDownlink : Int) :
    List TrafficStats → Option (List TrafficStats)
  | [] =>
    if inBigint deltaUplink && inBigint deltaDownlink then
      some [{ SlaveID := slaveID, InboundTag := inboundTag, TotalUplink := deltaUplink,
              TotalDownlink := deltaDownlink }]
    else none
  | row :: rows =>
    if row.SlaveID == slaveID && row.InboundTag == inboundTag then
      if inBigint (row.TotalUplink + deltaUplink) && inBigint (row.TotalDownlink + deltaDownlink)
      then
        some ({ row with TotalUplink := row.TotalUplink + deltaUplink,
                         TotalDownlink := row.TotalDownlink + deltaDownlink } :: rows)
      else none
    else (upsertTraffic slaveID inboundTag deltaUplink deltaDownlink rows).map
      (fun rest => row :: rest)

/-- Go `(*DB).UpdateTrafficStats`. The schema refuses a tag longer than 255 characters
(`VARCHAR(255)`), a `slave_id` without a row in `slaves` (foreign key) and totals
outside `BIGINT`. A tag with a NUL character, which no text column can hold, is not
told apart here. -/
def DB.UpdateTrafficStats (db : DB) (slaveID : Int) (inboundTag : String)
    (deltaUplink deltaDownlink : Int) : DB × Except Err Unit :=
  if inboundTag.length > 255 then (db, Except.error Err.valueTooLong)
  else if !db.slaves.any (fun s => s.ID == slaveID) then
    (db, Except.error Err.foreignKeyViolation)
  else
    match upsertTraffic slaveID inboundTag deltaUplink deltaDownlink db.traffic_stats with
    | some rows => ({ db with traffic_stats := rows }, Except.ok ())
    | none => (db, Except.error Err.outOfRange)

/-- Go `(*DB).GetTrafficStats` restricted to one tag: the totals stored for
`(slaveID, inboundTag)`, if any. -/
def DB.trafficOf (db : DB) (slaveID : Int) (inboundTag : String) : Option (Int × Int) :=
  (db.traffic_stats.find? (fun r => r.SlaveID == slaveID && r.InboundTag == inboundTag)).map
    (fun r => (r.TotalUplink, r.TotalDownlink))

end model

/-! ## The coordinator's sessions and sync protocol (`websocket.go`, `sync.go`) -/

/-- Go struct `Client`: a coordinator-side session. `Send` holds the messages waiting in
the channel, oldest first; `LastSeen` is a time, counted from Go's zero time. -/
structure Client where
  ID : String
  SlaveID : Int
  Send : List Message
  LastSeen : Int
  isClosed : Bool

/-- Go `(*Client).SendMessage`: refused on a closed session; otherwise the message is
put on the channel unless that is full (capacity 256, no waiting). -/
def Client.SendMessage (c : Client) (msgType : String) (data : Content) :
    Client × Except Err Unit :=
  if c.isClosed then (c, Except.error Err.connectionClosed)
  else if c.Send.length < sendCapacity then
    ({ c with Send := c.Send ++ [{ Type_ := msgType, Data := data }] }, Except.ok ())
  else (c, Except.error Err.queueFull)

/-- Go struct `Hub`: the registered sessions. The order of the list stands for the order
in which Go happens to iterate over the map. -/
structure Hub where
  clients : List Client

/-- Go `(*Hub).GetClientBySlaveID`: the first session met for that node. -/
def Hub.GetClientBySlaveID (hub : Hub) (slaveID : Int) : Option Client :=
  hub.clients.find? (fun c => c.SlaveID == slaveID)

/-- The hub after the session registered under `c.ID` has changed to `c`: sessions are
pointers in Go, so what a function does to a session it looked up shows in the hub. -/
def Hub.store (hub : Hub) (c : Client) : Hub :=
  { clients := hub.clients.map (fun x => if x.ID == c.ID then c else x) }

/-- Go `(*SyncManager).sendError`. -/
def sendError (client : Client) (message : String) : Client :=
  (client.SendMessage "error" [("error", Value.str message)]).1

/-- The loop over `diffs` in `handleSyncRequest` and in `TriggerSync`: a diff whose
content does not parse is skipped, every other one is sent as a `config_diff`; the first
send that fails ends the loop with its error. -/
def sendDiffs (client : Client) : List model.ConfigDiff → Client × Except Err Unit
  | [] => (client, Except.ok ())
  | diff :: rest =>
    match diff.Content with
    | none => sendDiffs client rest
    | some content =>
      let sent := client.SendMessage "config_diff"
        [("version", Value.int diff.Version), ("action", Value.str diff.Action),
         ("content", Value.obj content)]
      match sent.2 with
      | Except.error err => (sent.1, Except.error err)
      | Except.ok _ => sendDiffs sent.1 rest

/-- Go `(*SyncManager).handleSyncRequest`, on the store, the session and the message's
`Data`. -/
def handleSyncRequest (db : model.DB) (client : Client) (data : Content) :
    model.DB × Client :=
  match data.lookup "local_version" with
  | some (Value.num mantissa scale) =>
    let localVer := toInt64 mantissa scale
    match db.GetSlaveByID client.SlaveID with
    | Except.error err => (db, sendError client ("获取 Slave 信息失败: " ++ err.text))
    | Except.ok _ =>
      match db.GetLatestVersion client.SlaveID with
      | Except.error err => (db, sendError client ("获取最新版本失败: " ++ err.text))
      | Except.ok latestVersion =>
        if localVer ≥ latestVersion then
          (db, (client.SendMessage "ack"
            [("status", Value.str "up_to_date"), ("version", Value.int latestVersion),
             ("message", Value.str "配置已是最新")]).1)
        else
          match db.GetConfigDiffs client.SlaveID localVer with
          | Except.error err => (db, sendError client ("获取配置增量失败: " ++ err.text))
          | Except.ok diffs =>
            let streamed := sendDiffs client diffs
            match streamed.2 with
            | Except.error _ => (db, streamed.1)
            | Except.ok _ =>
              let acked := streamed.1.SendMessage "ack"
                [("status", Value.str "sync_complete"), ("version", Value.int latestVersion),
                 ("diffs_applied", Value.int diffs.length),
                 ("message", Value.str ("成功同步 " ++ toString diffs.length ++ " 个配置增量"))]
              let db := (db.UpdateSlaveVersion client.SlaveID latestVersion).1
              let db := (db.UpdateSlaveStatus client.SlaveID model.SlaveStatusOnline).1
              (db, acked.1)
  | _ => (db, sendError client "无效的 local_version 字段")

/-- Go `(*SyncManager).handleAck`. -/
def handleAck (db : model.DB) (client : Client) (data : Content) : model.DB :=
  match data.lookup "version" with
  | some (Value.num mantissa scale) =>
    (db.UpdateSlaveVersion client.SlaveID (toInt64 mantissa scale)).1
  | _ => db

/-- Go `(*SyncManager).TriggerSync`. -/
def TriggerSync (db : model.DB) (hub : Hub) (slaveID : Int) : Hub × Except Err Unit :=
  match hub.GetClientBySlaveID slaveID with
  | none => (hub, Except.error (Err.notOnline slaveID))
  | some client =>
    match db.GetSlaveByID slaveID with
    | Except.error err => (hub, Except.error err)
    | Except.ok slave =>
      match db.GetConfigDiffs slaveID slave.CurrentVersion with
      | Except.error err => (hub, Except.error err)
      | Except.ok diffs =>
        if diffs.length = 0 then
          (hub.store (client.SendMessage "ack"
            [("status", Value.str "up_to_date"), ("version", Value.int slave.CurrentVersion),
             ("message", Value.str "配置已是最新")]).1, Except.ok ())
        else
          let pushed := sendDiffs client diffs
          match pushed.2 with
          | Except.error err => (hub.store pushed.1, Except.error err)
          | Except.ok _ => (hub.store pushed.1, Except.ok ())

/-- Go `int64(x)` after `x, _ := v.(float64)`: zero when the entry is no number, and
`toInt64` of a number (which is the code's value for an `exactInteger`). -/
def asInt64 : Option Value → Int
  | some (Value.num mantissa scale) => toInt64 mantissa scale
  | _ => 0

/-- The loop over the entries of `traffic` in `handleTrafficReport`: an entry that is an
object is added to the store, a failed update is only logged. -/
def addTraffic (db : model.DB) (slaveID : Int) : Content → model.DB
  | [] => db
  | (inboundTag, Value.obj dataMap) :: rest =>
    addTraffic
      (db.UpdateTrafficStats slaveID inboundTag (asInt64 (dataMap.lookup "uplink"))
        (asInt64 (dataMap.lookup "downlink"))).1
      slaveID rest
  | (_, _) :: rest => addTraffic db slaveID rest

/-- Go `(*SyncManager).handleTrafficReport`. -/
def handleTrafficReport (db : model.DB) (client : Client) (data : Content) :
    model.DB × Client :=
  match data.lookup "traffic" with
  | some (Value.obj trafficData) =>
    let db := addTraffic db client.SlaveID trafficData
    let acked := client.SendMessage "ack"
      [("status", Value.str "traffic_received"),
       ("message", Value.str
         ("已接收 " ++ toString trafficData.length ++ " 个 inbound 的流量数据"))]
    (db, acked.1)
  | _ => (db, client)

/-- Keys of the list a diff of kind `configType` works on: the tags of the inbounds, of
the outbounds or of the balancers, the outbound tags of the routing rules. -/
def targetKeys (cfg : Config) (configType : String) : List String :=
  if configType = "inbound" then cfg.Inbounds.map (fun x => x.Tag)
  else if configType = "outbound" then cfg.Outbounds.map (fun x => x.Tag)
  else if configType = "routing" then cfg.rules.map (fun x => x.OutboundTag)
  else if configType = "balancer" then cfg.balancers.map (fun x => x.Tag)
  else []

/-- The projector fed a sequence of diffs, each an action with its content and the
environment its reload meets; a diff that fails is passed over, as the slave does. -/
def applyDiffs (m : Manager) : List (Env × String × Content) → Manager
  | [] => m
  | (env, action, content) :: rest => applyDiffs (ApplyConfigDiff env m action content).1 rest

/-- The ack that answers a node which has nothing to fetch. -/
def upToDateAck (version : Int) : Message :=
  { Type_ := "ack",
    Data := [("status", Value.str "up_to_date"), ("version", Value.int version),
             ("message", Value.str "配置已是最新")] }

/-- The registry row of node `n1` (id 1) with applied-version `version` and a status. -/
def nodeN1 (version : Int) (status : String) : model.Slave :=
  { ID := 1, Name := "n1", IP := "", CurrentVersion := version, Status := status,
    XrayStatus := "unknown" }

/-- The store of scenario S1: node `n1` with the diffs v1 (ADD inbound `in1`) and v2
(ADD outbound `out1`), no traffic rows; the registry holds `version` and `status`. -/
def s1Store (version : Int) (status : String) : model.DB :=
  { slaves := [nodeN1 version status],
    config_diffs :=
      [{ ID := 1, SlaveID := 1, Version := 1, Type_ := "inbound", Action := "ADD",
         Content := some s1Inbound },
       { ID := 2, SlaveID := 1, Version := 2, Type_ := "outbound", Action := "ADD",
         Content := some s1Outbound }],
    traffic_stats := [] }

/-- An open session of node `n1` with nothing queued. -/
def sessionN1 : Client :=
  { ID := "session-1", SlaveID := 1, Send := [], LastSeen := 0, isClosed := false }

/-- Payload `sync_request{local_version}`. -/
def syncRequest (localVersion : Int) : Content := [("local_version", Value.int localVersion)]

/-- A hub in which the session `sessionN1` of node `n1` is the only one registered. -/
def hubN1 : Hub := { clients := [sessionN1] }

/-- Payload of an ack as the slave sends it. -/
def ackPayload (version : Int) (status : String) : Content :=
  [("version", Value.int version), ("status", Value.str status), ("message", Value.str "")]

/-- The coordinator handling a sequence of ack messages of one session, in order. -/
def handleAcks (db : model.DB) (client : Client) : List Content → model.DB
  | [] => db
  | data :: rest => handleAcks (handleAck db client data) client rest

/-- A sequence of `UpdateVersion` calls, each with the environment it meets. -/
def updateAll (vs : VersionStore) : List (Env × Int) → VersionStore
  | [] => vs
  | (env, v) :: rest => updateAll (vs.UpdateVersion env v).1 rest

/-- Totals held for `(slaveID, inboundTag)` in a list of traffic rows, if any. -/
def totalsIn (rows : List model.TrafficStats) (slaveID : Int) (inboundTag : String) :
    Option (Int × Int) :=
  (rows.find? (fun r => r.SlaveID == slaveID && r.InboundTag == inboundTag)).map
    (fun r => (r.TotalUplink, r.TotalDownlink))

/-- Payload `traffic_report{traffic: {tag: {uplink, downlink}}}` with integer deltas. -/
def trafficReport (tag : String) (uplink downlink : Int) : Content :=
  [("traffic", Value.obj
    [(tag, Value.obj [("uplink", Value.int uplink), ("downlink", Value.int downlink)])])]

/-- Go `int64` arithmetic: the result of `+` and `-` wraps around modulo `2 ^ 64`. -/
def wrap64 (n : Int) : Int := (n + (2 : Int) ^ 63) % (2 : Int) ^ 64 - (2 : Int) ^ 63

/-- A value is in the range of Go's `int64`. -/
def inInt64 (n : Int) : Bool := decide (-(2 : Int) ^ 63 ≤ n) && decide (n < (2 : Int) ^ 63)

/-- Go map assignment `m[k] = v` on an association list: the entry of `k` is replaced,
a new entry is appended when there is none. -/
def setEntry {α : Type} (k : String) (v : α) : List (String × α) → List (String × α)
  | [] => [(k, v)]
  | (k2, v2) :: rest => if k2 = k then (k, v) :: rest else (k2, v2) :: setEntry k v rest

/-- Go `strings.Split(s, sep)` for a separator of one character. -/
def splitChar (sep : Char) : List Char → List (List Char)
  | [] => [[]]
  | c :: cs =>
    if c = sep then [] :: splitChar sep cs
    else
      match splitChar sep cs with
      | [] => [[c]]
      | part :: parts => (c :: part) :: parts

/-- Go `strings.Contains(s, substr)`. -/
def hasSub (substr : List Char) : List Char → Bool
  | [] => substr.isEmpty
  | c :: cs => substr.isPrefixOf (c :: cs) || hasSub substr cs

/-- Go `unicode.IsSpace`: the code points with the property White_Space. -/
def isSpace (c : Char) : Bool :=
  let n := c.toNat
  (9 ≤ n && n ≤ 13) || n == 32 || n == 133 || n == 160 || n == 5760 ||
    (8192 ≤ n && n ≤ 8202) || n == 8232 || n == 8233 || n == 8239 || n == 8287 || n == 12288

/-- Go `strings.TrimSpace`. -/
def TrimSpace (s : List Char) : List Char :=
  ((s.dropWhile isSpace).reverse.dropWhile isSpace).reverse

/-- The digit loop of `strconv.ParseUint` in base 10: the value of a run of decimal
digits, `none` at any other character. -/
def parseDigits (acc : Nat) : List Char → Option Nat
  | [] => some acc
  | c :: cs =>
    if 48 ≤ c.toNat ∧ c.toNat ≤ 57 then parseDigits (acc * 10 + (c.toNat - 48)) cs else none

/-- Go `strconv.ParseInt(s, 10, 64)`: `(value, nil)` is `some value`, an error is `none`.
An optional sign, then at least one decimal digit and nothing else; a value outside
`int64` is a range error. -/
def ParseInt (s : List Char) : Option Int :=
  match s with
  | [] => none
  | c :: cs =>
    let neg := c == '-'
    let body := if c == '+' || c == '-' then cs else c :: cs
    if body.isEmpty then none
    else
      match parseDigits 0 body with
      | none => none
      | some un =>
        if neg then (if un > 2 ^ 63 then none else some (-(un : Int)))
        else (if un ≥ 2 ^ 63 then none else some (un : Int))

/-- The loop over the lines of the output in `queryStats`. -/
def firstValue : List (List Char) → Int
  | [] => 0
  | line :: rest =>
    if hasSub (String.toList "value:") line then
      let parts := splitChar ':' line
      if parts.length = 2 then
        match ParseInt (TrimSpace (parts.getD 1 [])) with
        | some value => value
        | none => firstValue rest
      else firstValue rest
    else firstValue rest

/-- Name of the counter of a tag and direction, as `queryStats` formats it. -/
def statName (tag direction : String) : String :=
  "inbound>>>" ++ tag ++ ">>>traffic>>>" ++ direction

/-- Go `(*TrafficCollector).queryStats`. `cli pattern` is what running
`xray api statsquery -pattern=<pattern> -reset=false` gives: `none` when `cmd.Run`
returns an error, otherwise what the command wrote to stdout. -/
def queryStats (cli : String → Option String) (tag direction : String) : Int :=
  match cli (statName tag direction) with
  | none => 0
  | some output => firstValue (splitChar (Char.ofNat 10) output.toList)

/-- Go struct `TrafficSnapshot`. -/
structure TrafficSnapshot where
  InboundTag : String
  Uplink : Int
  Downlink : Int
  Timestamp : Int
  deriving DecidableEq

/-- Go struct `TrafficCollector`: the map of the last samples and the map of the deltas
aggregated since the last report. The instance it points to is handed to
`collectTraffic` in the state it has at that tick; `onReport` is the callback of
`cmd/slave/main.go`, `reportTraffic`. -/
structure TrafficCollector where
  lastSnapshot : List (String × TrafficSnapshot)
  aggregated : List (String × TrafficSnapshot)

/-- Go `NewTrafficCollector`. -/
def NewTrafficCollector : TrafficCollector := { lastSnapshot := [], aggregated := [] }

/-- Lines 114-132 of `collectTraffic`: the deltas of the samples of a tag against the
previous snapshot of that tag, if there is one. -/
def sampleDeltas (prevSnapshot : Option TrafficSnapshot) (uplink downlink : Int) : Int × Int :=
  match prevSnapshot with
  | some prev =>
    (if uplink ≥ prev.Uplink then wrap64 (uplink - prev.Uplink) else uplink,
     if downlink ≥ prev.Downlink then wrap64 (downlink - prev.Downlink) else downlink)
  | none => (uplink, downlink)

/-- Body of the loop over the inbound tags in `collectTraffic`. -/
def collectTag (cli : String → Option String) (now : Int) (tc : TrafficCollector)
    (tag : String) : TrafficCollector :=
  let uplink := queryStats cli tag "uplink"
  let downlink := queryStats cli tag "downlink"
  let deltas := sampleDeltas (tc.lastSnapshot.lookup tag) uplink downlink
  let snapshot : TrafficSnapshot :=
    { InboundTag := tag, Uplink := uplink, Downlink := downlink, Timestamp := now }
  let entry : TrafficSnapshot :=
    match tc.aggregated.lookup tag with
    | some e => e
    | none => { InboundTag := tag, Uplink := 0, Downlink := 0, Timestamp := now }
  let entry : TrafficSnapshot :=
    { entry with Uplink := wrap64 (entry.Uplink + deltas.1),
                 Downlink := wrap64 (entry.Downlink + deltas.2), Timestamp := now }
  { lastSnapshot := setEntry tag snapshot tc.lastSnapshot,
    aggregated := setEntry tag entry tc.aggregated }

/-- Go `(*TrafficCollector).collectTraffic` at time `now`: nothing when the proxy does
not run; otherwise every inbound tag of the configuration the instance holds is sampled. -/
def collectTraffic (inst : Instance) (cli : String → Option String) (now : Int)
    (tc : TrafficCollector) : TrafficCollector :=
  if !inst.IsRunning then tc
  else
    let inboundTags : List String :=
      match inst.config with
      | some config => config.Inbounds.map (fun inbound => inbound.Tag)
      | none => []
    inboundTags.foldl (collectTag cli now) tc

/-- The callback `main` hands to `trafficCollector.Start`: one `traffic_report` with an
entry per tag of `stats`; a failed send is only logged. -/
def reportTraffic (sc : SlaveClient) (stats : List (String × TrafficSnapshot)) : SlaveClient :=
  let trafficData : Content := stats.map (fun e =>
    (e.1, Value.obj [("uplink", Value.int e.2.Uplink), ("downlink", Value.int e.2.Downlink)]))
  if trafficData.length > 0 then
    (sc.SendMessage "traffic_report" [("traffic", Value.obj trafficData)]).1
  else sc

/-- Go `(*TrafficCollector).reportAggregated` at time `now`, with `reportTraffic` as
`onReport`: a non-empty aggregator is handed to the callback and then emptied. -/
def reportAggregated (now : Int) (tc : TrafficCollector) (sc : SlaveClient) :
    TrafficCollector × SlaveClient :=
  let aggregated := tc.aggregated.map (fun e => (e.1, { e.2 with Timestamp := now }))
  if aggregated.length > 0 then ({ tc with aggregated := [] }, reportTraffic sc aggregated)
  else (tc, sc)

/-! ## The heartbeat monitor (`cmd/master/main.go`, `websocket.go`)

Times are counted in nanoseconds from Go's zero `time.Time`, so that `IsZero` is
being `0` and a `time.Duration` is a difference of two times. -/

/-- Go `time.Second` as a `time.Duration`. -/
def second : Int := 1000000000

/-- The threshold `main` hands to `startHeartbeatMonitor`: `90*time.Second`. -/
def heartbeatTimeout : Int := 90 * second

/-- Go `(*Hub).Unregister` as `(*Hub).Run` serves it: a session that is registered is
removed from the map and its node is marked offline (the goroutine started for that is
taken to run at once); nothing happens for a session that is not registered. -/
def Hub.Unregister (db : model.DB) (hub : Hub) (client : Client) : model.DB × Hub :=
  if hub.clients.any (fun c => c.ID == client.ID) then
    ((db.UpdateSlaveStatus client.SlaveID model.SlaveStatusOffline).1,
      { clients := hub.clients.filter (fun c => !(c.ID == client.ID)) })
  else (db, hub)

/-- What the heartbeat scan does with one session of the snapshot. -/
def scanClient (timeout now : Int) (state : model.DB × Hub) (client : Client) :
    model.DB × Hub :=
  let lastSeen := client.LastSeen
  if lastSeen ≠ 0 ∧ now - lastSeen > timeout then
    let db := (state.1.UpdateSlaveStatus client.SlaveID model.SlaveStatusOffline).1
    Hub.Unregister db state.2 client
  else state

/-- One pass of the loop of `startHeartbeatMonitor`, at time `now`: the sessions
`GetAllClients` returns are looked at one after the other. -/
def heartbeatScan (timeout now : Int) (db : model.DB) (hub : Hub) : model.DB × Hub :=
  hub.clients.foldl (scanClient timeout now) (db, hub)

/-! ## Definitions used in the statements about the sampler, the bootstrap and the scan -/

/-- The delta the handler reads under a key of an entry is not negative: the key is
missing or holds no number (the delta is then 0), or it holds a non-negative integer
that float64 carries exactly (at most `2 ^ 53`). -/
def nonNegativeDelta : Option Value → Bool
  | some (Value.num mantissa scale) =>
    exactInteger mantissa scale && decide (0 ≤ toInt64 mantissa scale)
  | _ => true

/-- Every entry of a `traffic_report` payload carries deltas that are not negative, as
`nonNegativeDelta` says it. -/
def nonNegativeDeltas (data : Content) : Bool :=
  match data.lookup "traffic" with
  | some (Value.obj trafficData) =>
    trafficData.all (fun e =>
      match e.2 with
      | Value.obj dataMap =>
        nonNegativeDelta (dataMap.lookup "uplink") &&
          nonNegativeDelta (dataMap.lookup "downlink")
      | _ => true)
  | _ => true

/-- The store of scenario S5 after both reports: node `n1` with the totals `(150, 200)`
for the tag `in1`. -/
def s5Store : model.DB :=
  { slaves := [nodeN1 2 "online"], config_diffs := [],
    traffic_stats :=
      [{ SlaveID := 1, InboundTag := "in1", TotalUplink := 150, TotalDownlink := 200 }] }

/-- The delta rule for one direction in the words of the specification: with a previous
sample `last` the delta is `now - last` when `now ≥ last` and `now` when `now < last`;
without one it is `now`. -/
def deltaRule (last : Option Int) (now : Int) : Int :=
  match last with
  | some l => if now ≥ l then now - l else now
  | none => now

/-- The tags `collectTraffic` samples for an instance: the inbound tags of the
configuration it holds when it runs, none when it does not run. -/
def sampledTags (inst : Instance) : List String :=
  if inst.IsRunning then
    match inst.config with
    | some config => config.Inbounds.map (fun inbound => inbound.Tag)
    | none => []
  else []

/-- The samples `(uplink, downlink)` the snapshot map holds for a tag. -/
def TrafficCollector.lastOf (tc : TrafficCollector) (tag : String) : Option (Int × Int) :=
  (tc.lastSnapshot.lookup tag).map (fun s => (s.Uplink, s.Downlink))

/-- The deltas `(uplink, downlink)` the aggregator holds for a tag, zeros without an entry. -/
def TrafficCollector.aggregatedOf (tc : TrafficCollector) (tag : String) : Int × Int :=
  match tc.aggregated.lookup tag with
  | some e => (e.Uplink, e.Downlink)
  | none => (0, 0)

/-- The component of a pair `(uplink, downlink)` for a direction. -/
def ofDirection (direction : String) (p : Int × Int) : Int :=
  if direction = "uplink" then p.1 else p.2

/-- A run of collect ticks, each with the state of the instance, the answers of the CLI
and the time of that tick. -/
def collectTicks (tc : TrafficCollector) :
    List (Instance × (String → Option String) × Int) → TrafficCollector
  | [] => tc
  | (inst, cli, now) :: rest => collectTicks (collectTraffic inst cli now tc) rest

/-- The deltas `sampleDeltas` computes for `tag` in the loop body, tick by tick, over a
run of collect ticks each of which samples the tag once. -/
def tickDeltas (tag : String) (tc : TrafficCollector) :
    List (Instance × (String → Option String) × Int) → List (Int × Int)
  | [] => []
  | (inst, cli, now) :: rest =>
    sampleDeltas (tc.lastSnapshot.lookup tag) (queryStats cli tag "uplink")
        (queryStats cli tag "downlink") ::
      tickDeltas tag (collectTraffic inst cli now tc) rest

/-- The line `queryStats` looks for, in the words of the specification: it contains
`value:`, splits on `:` into exactly two parts, and its trimmed second part parses as a
decimal `int64`, which is the value of the line. -/
def valueOfLine (line : List Char) : Option Int :=
  if hasSub (String.toList "value:") line = true ∧ (splitChar ':' line).length = 2 then
    ParseInt (TrimSpace ((splitChar ':' line).getD 1 []))
  else none

/-- A CLI that fails for every counter. -/
def failingCli : String → Option String := fun _ => none

/-- The answer of the CLI for a counter that stands at `n`, in protobuf text. -/
def statOutput (name : String) (n : Int) : String :=
  "stat: <\n  name: \"" ++ name ++ "\"\n  value: " ++ toString n ++ "\n>\n"

/-- The instance of a slave whose configuration holds the inbound `in1`, loaded and
started: it runs with the inbounds `in1` and `api`. -/
def runningIn1 : Instance :=
  ((NewInstance.LoadConfigFromJSON
    (some { emptyConfig with Inbounds := [inboundIn1] })).1.Start okEnv).1

/-- The inbound the bootstrap injects for API port `port`. -/
def apiInbound (port : Int) : Inbound :=
  { Tag := "api", Listen := "127.0.0.1", Port := port, Protocol := "dokodemo-door",
    Settings := [("address", Value.str "127.0.0.1")], StreamSettings := [] }

/-- The routing rule the bootstrap injects: inbound tag `api` to outbound tag `api`. -/
def apiRule : RoutingRule :=
  { Type_ := "field", Domain := [], IP := [], Port := "", Network := "", Source := [],
    User := [], InboundTag := ["api"], Protocol := [], Attrs := "",
    OutboundTag := "api", BalancerTag := "" }

/-- A configuration that already has an inbound tagged `api`, listening on
`0.0.0.0:9999`, and whose second routing rule has the outbound tag `api`. -/
def ownApiConfig : Config :=
  { emptyConfig with
    Inbounds := [{ Tag := "api", Port := 9999, Protocol := "socks", Listen := "0.0.0.0",
                   Settings := [], StreamSettings := [] }],
    Routing := some { emptyRouting with
      Rules := [ruleOut1, { ruleOut1 with OutboundTag := "api" }] } }

/-- The heartbeat scan unregisters this session: its last-seen time is set and lies
more than `timeout` before `now`. -/
def expired (timeout now : Int) (client : Client) : Bool :=
  decide (client.LastSeen ≠ 0) && decide (now - client.LastSeen > timeout)

/-- Two sessions of node `n1` at time `t0 + 100 s`: the old one was last seen at `t0`,
the new one ten seconds ago. -/
def twoSessions (t0 : Int) : Hub :=
  { clients :=
      [{ ID := "old", SlaveID := 1, Send := [], LastSeen := t0, isClosed := false },
       { ID := "new", SlaveID := 1, Send := [], LastSeen := t0 + 90 * second,
         isClosed := false }] }

/-- An environment in which the proxy does not start. -/
def noStartEnv : Env := { startOk := false, saveOk := true }

/-- Step 2 of `LoadConfigFromJSON`: a missing statistics block is added. -/
def ensureStats (config : Config) : Config :=
  if config.Stats.isNone then { config with Stats := some () } else config

/-- Step 3 of `LoadConfigFromJSON`: a missing API block is added. -/
def ensureAPI (config : Config) : Config :=
  if config.API.isNone then
    { config with API := some { Tag := "api", Services := ["StatsService", "HandlerService"] } }
  else config

/-- Step 4 of `LoadConfigFromJSON`: the policy has a system section with both inbound
counters on. -/
def ensurePolicy (config : Config) : Config :=
  let statsOn : SystemPolicy := { StatsInboundUplink := true, StatsInboundDownlink := true }
  match config.Policy with
  | none => { config with Policy := some { Levels := [], System := some statsOn } }
  | some policy =>
    match policy.System with
    | none => { config with Policy := some { policy with System := some statsOn } }
    | some _ => { config with Policy := some { policy with System := some statsOn } }

/-- Step 5 of `LoadConfigFromJSON`: the inbound `api` is appended unless an inbound
tagged `api` exists. -/
def ensureApiInbound (port : Int) (config : Config) : Config :=
  if !config.Inbounds.any (fun inbound => inbound.Tag == "api") then
    { config with Inbounds := config.Inbounds ++ [apiInbound port] }
  else config

/-- Step 6 of `LoadConfigFromJSON`: a routing section exists, and the rule `api` is put
in front of its rules unless a rule with the outbound tag `api` exists. -/
def ensureApiRule (config : Config) : Config :=
  let routing := match config.Routing with
    | none => emptyRouting
    | some r => r
  let routing :=
    if !routing.Rules.any (fun rule => rule.OutboundTag == "api") then
      { routing with Rules := [apiRule] ++ routing.Rules }
    else routing
  { config with Routing := some routing }

/-- The configuration `LoadConfigFromJSON` stores for a parsed configuration: the five
steps one after the other. -/
def bootstrap (port : Int) (config : Config) : Config :=
  ensureApiRule (ensureApiInbound port (ensurePolicy (ensureAPI (ensureStats config))))

/-- Every total stored in `db` is stored in `db2` with values that are not smaller. -/
def totalsGrow (db db2 : model.DB) : Prop :=
  ∀ id tag u d, db.trafficOf id tag = some (u, d) →
    ∃ u2 d2, db2.trafficOf id tag = some (u2, d2) ∧ u ≤ u2 ∧ d ≤ d2

/-- A CLI that answers for the counters of the tag `in1`, which stand at `up` and `down`,
and fails for every other counter. -/
def cliIn1 (up down : Int) : String → Option String := fun name =>
  if name = statName "in1" "uplink" then some (statOutput name up)
  else if name = statName "in1" "downlink" then some (statOutput name down)
  else none

/-- A collector that sampled `(100, 50)` for the tag `in1` at its last tick and holds
the deltas `(10, 5)` for it since the last report. -/
def sampledIn1 : TrafficCollector :=
  { lastSnapshot :=
      [("in1", { InboundTag := "in1", Uplink := 100, Downlink := 50, Timestamp := 60 })],
    aggregated :=
      [("in1", { InboundTag := "in1", Uplink := 10, Downlink := 5, Timestamp := 60 })] }

/-- The deltas the rule gives for a sequence of samples of one direction, `last` being
the sample before the first of them, if any. -/
def deltaStream (last : Option Int) : List Int → List Int
  | [] => []
  | s :: rest => deltaRule last s :: deltaStream (some s) rest

/-- A run of collect ticks of the instance `runningIn1` in which the counters of `in1`
stand at the given `(uplink, downlink)` samples, ten seconds apart. -/
def ticksIn1 (samples : List (Int × Int)) : List (Instance × (String → Option String) × Int) :=
  samples.enum.map (fun p => (runningIn1, cliIn1 p.2.1 p.2.2, 10 * ((p.1 : Int) + 1)))

/-! ## Auxiliary facts -/

theorem lookup_isSome_iff (content : Content) (k : String) :
    (content.lookup k).isSome = true ↔ ∃ v, (k, v) ∈ content := by
  induction content with
  | nil => simp
  | cons kv rest ih =>
    obtain ⟨k', v'⟩ := kv
    simp only [List.lookup_cons]
    by_cases h : k = k'
    · subst h
      simp
    · have : (k == k') = false := by simpa using h
      simp [this, ih, h]

theorem reloadConfig_currentConfig (env : Env) (m : Manager) :
    (reloadConfig env m).1.currentConfig = m.currentConfig := by
  unfold reloadConfig
  simp only
  split
  · rfl
  · split
    · rfl
    · split <;> rfl

theorem any_tag_iff {α : Type} (tagOf : α → String) (xs : List α) (t : String) :
    xs.any (fun x => tagOf x == t) = true ↔ ∃ e ∈ xs, tagOf e = t := by
  simp [List.any_eq_true]

/-- C4. `detectConfigType` classifies a content object by the first of the keys `port`,
`outboundTag`, `selector`, `protocol` that it has, in this order, and answers `unknown`
when it has none of them; so it answers `outbound` exactly when the object has
`protocol` and none of `port`, `outboundTag`, `selector`. -/
theorem detectConfigType_classifies (content : Content) :
    ((∃ v, ("port", v) ∈ content) → detectConfigType content = "inbound") ∧
    ((¬ ∃ v, ("port", v) ∈ content) → (∃ v, ("outboundTag", v) ∈ content) →
      detectConfigType content = "routing") ∧
    ((¬ ∃ v, ("port", v) ∈ content) → (¬ ∃ v, ("outboundTag", v) ∈ content) →
      (∃ v, ("selector", v) ∈ content) → detectConfigType content = "balancer") ∧
    ((¬ ∃ v, ("port", v) ∈ content) → (¬ ∃ v, ("outboundTag", v) ∈ content) →
      (¬ ∃ v, ("selector", v) ∈ content) → (∃ v, ("protocol", v) ∈ content) →
      detectConfigType content = "outbound") ∧
    ((¬ ∃ v, ("port", v) ∈ content) → (¬ ∃ v, ("outboundTag", v) ∈ content) →
      (¬ ∃ v, ("selector", v) ∈ content) → (¬ ∃ v, ("protocol", v) ∈ content) →
      detectConfigType content = "unknown") ∧
    (detectConfigType content = "outbound" ↔
      (∃ v, ("protocol", v) ∈ content) ∧ (¬ ∃ v, ("port", v) ∈ content) ∧
      (¬ ∃ v, ("outboundTag", v) ∈ content) ∧ (¬ ∃ v, ("selector", v) ∈ content)) := by
  simp only [← lookup_isSome_iff]
  unfold detectConfigType
  by_cases h1 : (content.lookup "port").isSome = true <;>
  by_cases h2 : (content.lookup "outboundTag").isSome = true <;>
  by_cases h3 : (content.lookup "selector").isSome = true <;>
  by_cases h4 : (content.lookup "protocol").isSome = true <;>
  simp [h1, h2, h3, h4]

theorem routing_eta (cfg : Config) (r : RoutingConfig) (h : cfg.Routing = some r) :
    { cfg with Routing := some r } = cfg := by
  cases cfg
  simp_all

/-- C1. ADD of a content object carrying the string tag `t` on an initialised manager,
for each of the kinds inbound, outbound and balancer that the classifier assigns:
(a) when the target list already holds an entry tagged `t`, the manager is returned as
it was (configuration and instance untouched, so no reload) with no error; (b) when it
holds none and the content decodes to `e`, the outcome is that of `reloadConfig` on the
manager whose target list is the old one with `e` appended and whose other lists are
unchanged, and that configuration is the one the manager holds afterwards. -/
theorem add_appends_or_skips (env : Env) (m : Manager) (cfg : Config) (content : Content)
    (t : String) (hcfg : m.currentConfig = some cfg)
    (htag : content.lookup "tag" = some (Value.str t)) :
    (detectConfigType content = "inbound" →
      ((∃ e ∈ cfg.Inbounds, e.Tag = t) →
        ApplyConfigDiff env m "ADD" content = (m, Except.ok ())) ∧
      ((¬ ∃ e ∈ cfg.Inbounds, e.Tag = t) → ∀ e, mapToInbound content = some e →
        ApplyConfigDiff env m "ADD" content =
          reloadConfig env
            { m with currentConfig := some { cfg with Inbounds := cfg.Inbounds ++ [e] } } ∧
        (ApplyConfigDiff env m "ADD" content).1.currentConfig =
          some { cfg with Inbounds := cfg.Inbounds ++ [e] })) ∧
    (detectConfigType content = "outbound" →
      ((∃ e ∈ cfg.Outbounds, e.Tag = t) →
        ApplyConfigDiff env m "ADD" content = (m, Except.ok ())) ∧
      ((¬ ∃ e ∈ cfg.Outbounds, e.Tag = t) → ∀ e, mapToOutbound content = some e →
        ApplyConfigDiff env m "ADD" content =
          reloadConfig env
            { m with currentConfig := some { cfg with Outbounds := cfg.Outbounds ++ [e] } } ∧
        (ApplyConfigDiff env m "ADD" content).1.currentConfig =
          some { cfg with Outbounds := cfg.Outbounds ++ [e] })) ∧
    (detectConfigType content = "balancer" →
      ((∃ e ∈ cfg.balancers, e.Tag = t) →
        ApplyConfigDiff env m "ADD" content = (m, Except.ok ())) ∧
      ((¬ ∃ e ∈ cfg.balancers, e.Tag = t) → ∀ e, mapToBalancer content = some e →
        ApplyConfigDiff env m "ADD" content =
          reloadConfig env
            { m with currentConfig := some (addedBalancer cfg e) } ∧
        (ApplyConfigDiff env m "ADD" content).1.currentConfig =
          some (addedBalancer cfg e))) := by
  have hm : { m with currentConfig := some cfg } = m := by
    cases m; simp_all
  refine ⟨fun hk => ⟨fun hex => ?_, fun hne e he => ?_⟩,
    fun hk => ⟨fun hex => ?_, fun hne e he => ?_⟩,
    fun hk => ⟨fun hex => ?_, fun hne e he => ?_⟩⟩
  · have h := (any_tag_iff (fun (x : Inbound) => x.Tag) cfg.Inbounds t).2 hex
    simp [ApplyConfigDiff, hcfg, htag, asString, hk, addConfig, addInbound, h, hm]
  · have h : cfg.Inbounds.any (fun x => x.Tag == t) = false := by
      rw [Bool.eq_false_iff]; exact fun h => hne ((any_tag_iff _ _ _).1 h)
    have h2 : ApplyConfigDiff env m "ADD" content = reloadConfig env
        { m with currentConfig := some { cfg with Inbounds := cfg.Inbounds ++ [e] } } := by
      simp [ApplyConfigDiff, hcfg, htag, asString, hk, addConfig, addInbound, h, he]
    exact ⟨h2, by rw [h2, reloadConfig_currentConfig]⟩
  · have h := (any_tag_iff (fun (x : Outbound) => x.Tag) cfg.Outbounds t).2 hex
    simp [ApplyConfigDiff, hcfg, htag, asString, hk, addConfig, addOutbound, h, hm]
  · have h : cfg.Outbounds.any (fun x => x.Tag == t) = false := by
      rw [Bool.eq_false_iff]; exact fun h => hne ((any_tag_iff _ _ _).1 h)
    have h2 : ApplyConfigDiff env m "ADD" content = reloadConfig env
        { m with currentConfig := some { cfg with Outbounds := cfg.Outbounds ++ [e] } } := by
      simp [ApplyConfigDiff, hcfg, htag, asString, hk, addConfig, addOutbound, h, he]
    exact ⟨h2, by rw [h2, reloadConfig_currentConfig]⟩
  · obtain ⟨e, hmem, het⟩ := hex
    cases hr : cfg.Routing with
    | none => simp [Config.balancers, hr] at hmem
    | some r =>
      have h : r.Balancers.any (fun x => x.Tag == t) = true := by
        apply (any_tag_iff (fun (x : Balancer) => x.Tag) _ t).2
        exact ⟨e, by simpa [Config.balancers, hr] using hmem, het⟩
      simp [ApplyConfigDiff, hcfg, htag, asString, hk, addConfig, addBalancer, hr, h]
      rw [← hr, show ({ cfg with Routing := cfg.Routing } : Config) = cfg from rfl, hm]
  · have h2 : ApplyConfigDiff env m "ADD" content = reloadConfig env
        { m with currentConfig := some (addedBalancer cfg e) } := by
      cases hr : cfg.Routing with
      | none =>
        simp [ApplyConfigDiff, hcfg, htag, asString, hk, addConfig, addBalancer, hr, he,
          addedBalancer, emptyRouting, Config.balancers]
      | some r =>
        have h : r.Balancers.any (fun x => x.Tag == t) = false := by
          rw [Bool.eq_false_iff]
          intro h
          apply hne
          obtain ⟨x, hx, hxt⟩ := (any_tag_iff (fun (x : Balancer) => x.Tag) _ t).1 h
          exact ⟨x, by simpa [Config.balancers, hr] using hx, hxt⟩
        simp [ApplyConfigDiff, hcfg, htag, asString, hk, addConfig, addBalancer, hr, he, h,
          addedBalancer, Config.balancers]
    exact ⟨h2, by rw [h2, reloadConfig_currentConfig]⟩

/-- C1, scenario S1: ADD inbound `in1` then ADD outbound `out1` on the empty
configuration leaves exactly one inbound, `in1`, and one outbound, `out1`. -/
theorem add_appends_or_skips_witness :
    (ApplyConfigDiff okEnv (ApplyConfigDiff okEnv freshManager "ADD" s1Inbound).1 "ADD"
        s1Outbound).1.currentConfig.map
      (fun c => (c.Inbounds.map (fun i => i.Tag), c.Outbounds.map (fun o => o.Tag))) =
      some (["in1"], ["out1"]) := by
  have h1 := ((add_appends_or_skips okEnv freshManager emptyConfig s1Inbound "in1" rfl rfl).1
    (by decide)).2 (by simp [emptyConfig]) _ rfl
  have h2 := ((add_appends_or_skips okEnv _ _ s1Outbound "out1" h1.2 rfl).2.1
    (by decide)).2 (by simp [emptyConfig]) _ rfl
  rw [h2.2]
  rfl

theorem firstIndex_eq_none_iff {α : Type} (p : α → Bool) (xs : List α) :
    firstIndex p xs = none ↔ ∀ x ∈ xs, p x = false := by
  induction xs with
  | nil => simp [firstIndex]
  | cons x xs ih =>
    by_cases h : p x = true
    · simp [firstIndex, h]
    · simp only [Bool.not_eq_true] at h
      simp [firstIndex, h, ih]

theorem firstIndex_eq_some_iff {α : Type} (p : α → Bool) (xs : List α) (i : Nat) :
    firstIndex p xs = some i ↔ isFirstAt p xs i = true := by
  induction xs generalizing i with
  | nil => simp [firstIndex, isFirstAt]
  | cons x xs ih =>
    by_cases h : p x = true
    · cases i with
      | zero => simp [firstIndex, isFirstAt, h]
      | succ n => simp [firstIndex, isFirstAt, h]
    · simp only [Bool.not_eq_true] at h
      cases i with
      | zero => simp [firstIndex, isFirstAt, h]
      | succ n =>
        have := ih n
        simp only [isFirstAt] at this
        simp [firstIndex, isFirstAt, h, this]

theorem manager_eta (m : Manager) (cfg : Config) (h : m.currentConfig = some cfg) :
    { m with currentConfig := some cfg } = m := by
  cases m
  simp_all

/-- C2 (amended). UPDATE of a content object carrying a string `tag` field `t` on an
initialised manager, for each kind the classifier assigns. The key is `t` for inbound,
outbound and balancer and the string `outboundTag` of the content for routing. When the
target list has no entry with that key the call returns an error and the manager is as
before. When position `i` holds the first entry with that key and the content decodes to
`e`, the outcome is that of `reloadConfig` on the manager whose target list is the old
one with position `i` set to `e` (same length, every other entry and every other list
untouched), and that configuration is the one the manager holds afterwards. -/
theorem update_replaces_first (env : Env) (m : Manager) (cfg : Config) (content : Content)
    (t : String) (hcfg : m.currentConfig = some cfg)
    (htag : content.lookup "tag" = some (Value.str t)) :
    (detectConfigType content = "inbound" →
      ((∀ e ∈ cfg.Inbounds, e.Tag ≠ t) →
        ApplyConfigDiff env m "UPDATE" content = (m, Except.error (Err.notFound "Inbound" t))) ∧
      (∀ i e, isFirstAt (fun x => x.Tag == t) cfg.Inbounds i = true →
        mapToInbound content = some e →
        ApplyConfigDiff env m "UPDATE" content =
          reloadConfig env
            { m with currentConfig := some { cfg with Inbounds := cfg.Inbounds.set i e } } ∧
        (ApplyConfigDiff env m "UPDATE" content).1.currentConfig =
          some { cfg with Inbounds := cfg.Inbounds.set i e })) ∧
    (detectConfigType content = "outbound" →
      ((∀ e ∈ cfg.Outbounds, e.Tag ≠ t) →
        ApplyConfigDiff env m "UPDATE" content = (m, Except.error (Err.notFound "Outbound" t))) ∧
      (∀ i e, isFirstAt (fun x => x.Tag == t) cfg.Outbounds i = true →
        mapToOutbound content = some e →
        ApplyConfigDiff env m "UPDATE" content =
          reloadConfig env
            { m with currentConfig := some { cfg with Outbounds := cfg.Outbounds.set i e } } ∧
        (ApplyConfigDiff env m "UPDATE" content).1.currentConfig =
          some { cfg with Outbounds := cfg.Outbounds.set i e })) ∧
    (detectConfigType content = "routing" →
      ∀ k, content.lookup "outboundTag" = some (Value.str k) →
      ((∀ e ∈ cfg.rules, e.OutboundTag ≠ k) →
        ∃ err, ApplyConfigDiff env m "UPDATE" content = (m, Except.error err)) ∧
      (∀ r i e, cfg.Routing = some r →
        isFirstAt (fun x => x.OutboundTag == k) r.Rules i = true →
        mapToRoutingRule content = some e →
        ApplyConfigDiff env m "UPDATE" content =
          reloadConfig env
            { m with currentConfig := some { cfg with
                Routing := some { r with Rules := r.Rules.set i e } } } ∧
        (ApplyConfigDiff env m "UPDATE" content).1.currentConfig =
          some { cfg with Routing := some { r with Rules := r.Rules.set i e } })) ∧
    (detectConfigType content = "balancer" →
      ((∀ e ∈ cfg.balancers, e.Tag ≠ t) →
        ∃ err, ApplyConfigDiff env m "UPDATE" content = (m, Except.error err)) ∧
      (∀ r i e, cfg.Routing = some r →
        isFirstAt (fun x => x.Tag == t) r.Balancers i = true →
        mapToBalancer content = some e →
        ApplyConfigDiff env m "UPDATE" content =
          reloadConfig env
            { m with currentConfig := some { cfg with
                Routing := some { r with Balancers := r.Balancers.set i e } } } ∧
        (ApplyConfigDiff env m "UPDATE" content).1.currentConfig =
          some { cfg with Routing := some { r with Balancers := r.Balancers.set i e } })) := by
  have hm := manager_eta m cfg hcfg
  refine ⟨fun hk => ⟨fun hno => ?_, fun i e hi he => ?_⟩,
    fun hk => ⟨fun hno => ?_, fun i e hi he => ?_⟩,
    fun hk k hkey => ⟨fun hno => ?_, fun r i e hr hi he => ?_⟩,
    fun hk => ⟨fun hno => ?_, fun r i e hr hi he => ?_⟩⟩
  · have h : firstIndex (fun (x : Inbound) => x.Tag == t) cfg.Inbounds = none :=
      (firstIndex_eq_none_iff _ _).2 (fun x hx => by simpa using hno x hx)
    simp [ApplyConfigDiff, hcfg, htag, asString, hk, updateConfig, updateInbound, h, hm]
  · have h := (firstIndex_eq_some_iff _ _ _).2 hi
    have h2 : ApplyConfigDiff env m "UPDATE" content = reloadConfig env
        { m with currentConfig := some { cfg with Inbounds := cfg.Inbounds.set i e } } := by
      simp [ApplyConfigDiff, hcfg, htag, asString, hk, updateConfig, updateInbound, h, he]
    exact ⟨h2, by rw [h2, reloadConfig_currentConfig]⟩
  · have h : firstIndex (fun (x : Outbound) => x.Tag == t) cfg.Outbounds = none :=
      (firstIndex_eq_none_iff _ _).2 (fun x hx => by simpa using hno x hx)
    simp [ApplyConfigDiff, hcfg, htag, asString, hk, updateConfig, updateOutbound, h, hm]
  · have h := (firstIndex_eq_some_iff _ _ _).2 hi
    have h2 : ApplyConfigDiff env m "UPDATE" content = reloadConfig env
        { m with currentConfig := some { cfg with Outbounds := cfg.Outbounds.set i e } } := by
      simp [ApplyConfigDiff, hcfg, htag, asString, hk, updateConfig, updateOutbound, h, he]
    exact ⟨h2, by rw [h2, reloadConfig_currentConfig]⟩
  · cases hr : cfg.Routing with
    | none =>
      exact ⟨Err.noRouting, by
        simp [ApplyConfigDiff, hcfg, htag, asString, hk, updateConfig, updateRoutingRule, hr, hm]⟩
    | some r =>
      have h : firstIndex (fun (x : RoutingRule) => x.OutboundTag == k) r.Rules = none :=
        (firstIndex_eq_none_iff _ _).2 (fun x hx => by
          simpa using hno x (by simpa [Config.rules, hr] using hx))
      exact ⟨Err.notFound "Routing" k, by
        simp [ApplyConfigDiff, hcfg, htag, asString, hk, hkey, updateConfig, updateRoutingRule,
          hr, h, hm]⟩
  · have h := (firstIndex_eq_some_iff _ _ _).2 hi
    have h2 : ApplyConfigDiff env m "UPDATE" content = reloadConfig env
        { m with currentConfig := some { cfg with
            Routing := some { r with Rules := r.Rules.set i e } } } := by
      simp [ApplyConfigDiff, hcfg, htag, asString, hk, hkey, updateConfig, updateRoutingRule,
        hr, h, he]
    exact ⟨h2, by rw [h2, reloadConfig_currentConfig]⟩
  · cases hr : cfg.Routing with
    | none =>
      exact ⟨Err.noRouting, by
        simp [ApplyConfigDiff, hcfg, htag, asString, hk, updateConfig, updateBalancer, hr, hm]⟩
    | some r =>
      have h : firstIndex (fun (x : Balancer) => x.Tag == t) r.Balancers = none :=
        (firstIndex_eq_none_iff _ _).2 (fun x hx => by
          simpa using hno x (by simpa [Config.balancers, hr] using hx))
      exact ⟨Err.notFound "Balancer" t, by
        simp [ApplyConfigDiff, hcfg, htag, asString, hk, updateConfig, updateBalancer,
          hr, h, hm]⟩
  · have h := (firstIndex_eq_some_iff _ _ _).2 hi
    have h2 : ApplyConfigDiff env m "UPDATE" content = reloadConfig env
        { m with currentConfig := some { cfg with
            Routing := some { r with Balancers := r.Balancers.set i e } } } := by
      simp [ApplyConfigDiff, hcfg, htag, asString, hk, updateConfig, updateBalancer,
        hr, h, he]
    exact ⟨h2, by rw [h2, reloadConfig_currentConfig]⟩

/-- C2, witness: UPDATE with the tagged routing payload on a configuration whose only
rule goes to `out1` replaces that rule, at index 0, by the decoded one. -/
theorem update_replaces_first_witness :
    (ApplyConfigDiff okEnv managerWithRule "UPDATE" routingTagged).1.currentConfig.map
      (fun c => c.rules.map (fun r => (r.OutboundTag, r.BalancerTag))) =
      some [("out1", "b1")] := by
  have h := ((update_replaces_first okEnv managerWithRule _ routingTagged "rule-out1" rfl rfl).2.2.1
    (by decide) "out1" rfl).2 _ 0 _ rfl (by decide) rfl
  rw [h.2]
  rfl

/-- C2, counterexample: the rule list holds a rule keyed `out1` and the payload
`{outboundTag: "out1", balancerTag: "b1"}` is classified as routing and decodes, yet
UPDATE returns the missing-tag error and the rule is not replaced. -/
theorem update_routing_without_tag_fails :
    detectConfigType routingNoTag = "routing" ∧
    (mapToRoutingRule routingNoTag).isSome = true ∧
    managerWithRule.currentConfig.map
        (fun c => c.rules.map (fun r => (r.OutboundTag, r.BalancerTag))) =
      some [("out1", "")] ∧
    (ApplyConfigDiff okEnv managerWithRule "UPDATE" routingNoTag).2 =
      Except.error Err.missingTag ∧
    (ApplyConfigDiff okEnv managerWithRule "UPDATE" routingNoTag).1.currentConfig.map
        (fun c => c.rules.map (fun r => (r.OutboundTag, r.BalancerTag))) =
      some [("out1", "")] := by
  refine ⟨by decide, by rfl, by rfl, by rfl, by rfl⟩

theorem removeAt_eq_eraseIdx {α : Type} (xs : List α) (i : Nat) :
    removeAt xs i = xs.eraseIdx i := by
  unfold removeAt
  exact (List.eraseIdx_eq_take_drop_succ xs i).symm

/-- C3. DELETE of a content object carrying the string tag `t` on an initialised
manager, for each of the kinds inbound, outbound and balancer that the classifier
assigns: when the target list has no entry tagged `t` the call returns an error and the
manager is as before; when position `i` holds the first entry tagged `t`, the outcome is
that of `reloadConfig` on the manager whose target list is the old one with position `i`
erased (the rest in order, every other list untouched), and that configuration is the
one the manager holds afterwards. The action `DEL` gives the result of `DELETE` on
every input. -/
theorem delete_removes_first (env : Env) (m : Manager) (cfg : Config) (content : Content)
    (t : String) (hcfg : m.currentConfig = some cfg)
    (htag : content.lookup "tag" = some (Value.str t)) :
    (detectConfigType content = "inbound" →
      ((∀ e ∈ cfg.Inbounds, e.Tag ≠ t) →
        ApplyConfigDiff env m "DELETE" content = (m, Except.error (Err.notFound "Inbound" t))) ∧
      (∀ i, isFirstAt (fun x => x.Tag == t) cfg.Inbounds i = true →
        ApplyConfigDiff env m "DELETE" content =
          reloadConfig env
            { m with currentConfig := some { cfg with Inbounds := cfg.Inbounds.eraseIdx i } } ∧
        (ApplyConfigDiff env m "DELETE" content).1.currentConfig =
          some { cfg with Inbounds := cfg.Inbounds.eraseIdx i })) ∧
    (detectConfigType content = "outbound" →
      ((∀ e ∈ cfg.Outbounds, e.Tag ≠ t) →
        ApplyConfigDiff env m "DELETE" content = (m, Except.error (Err.notFound "Outbound" t))) ∧
      (∀ i, isFirstAt (fun x => x.Tag == t) cfg.Outbounds i = true →
        ApplyConfigDiff env m "DELETE" content =
          reloadConfig env
            { m with currentConfig := some { cfg with Outbounds := cfg.Outbounds.eraseIdx i } } ∧
        (ApplyConfigDiff env m "DELETE" content).1.currentConfig =
          some { cfg with Outbounds := cfg.Outbounds.eraseIdx i })) ∧
    (detectConfigType content = "balancer" →
      ((∀ e ∈ cfg.balancers, e.Tag ≠ t) →
        ∃ err, ApplyConfigDiff env m "DELETE" content = (m, Except.error err)) ∧
      (∀ r i, cfg.Routing = some r →
        isFirstAt (fun x => x.Tag == t) r.Balancers i = true →
        ApplyConfigDiff env m "DELETE" content =
          reloadConfig env
            { m with currentConfig := some { cfg with
                Routing := some { r with Balancers := r.Balancers.eraseIdx i } } } ∧
        (ApplyConfigDiff env m "DELETE" content).1.currentConfig =
          some { cfg with Routing := some { r with Balancers := r.Balancers.eraseIdx i } })) ∧
    (∀ (env2 : Env) (m2 : Manager) (content2 : Content),
      ApplyConfigDiff env2 m2 "DEL" content2 = ApplyConfigDiff env2 m2 "DELETE" content2) := by
  have hm := manager_eta m cfg hcfg
  refine ⟨fun hk => ⟨fun hno => ?_, fun i hi => ?_⟩,
    fun hk => ⟨fun hno => ?_, fun i hi => ?_⟩,
    fun hk => ⟨fun hno => ?_, fun r i hr hi => ?_⟩, fun env2 m2 content2 => ?_⟩
  · have h : firstIndex (fun (x : Inbound) => x.Tag == t) cfg.Inbounds = none :=
      (firstIndex_eq_none_iff _ _).2 (fun x hx => by simpa using hno x hx)
    simp [ApplyConfigDiff, hcfg, htag, asString, hk, deleteConfig, deleteInbound, h, hm]
  · have h := (firstIndex_eq_some_iff _ _ _).2 hi
    have h2 : ApplyConfigDiff env m "DELETE" content = reloadConfig env
        { m with currentConfig := some { cfg with Inbounds := cfg.Inbounds.eraseIdx i } } := by
      simp [ApplyConfigDiff, hcfg, htag, asString, hk, deleteConfig, deleteInbound, h,
        removeAt_eq_eraseIdx]
    exact ⟨h2, by rw [h2, reloadConfig_currentConfig]⟩
  · have h : firstIndex (fun (x : Outbound) => x.Tag == t) cfg.Outbounds = none :=
      (firstIndex_eq_none_iff _ _).2 (fun x hx => by simpa using hno x hx)
    simp [ApplyConfigDiff, hcfg, htag, asString, hk, deleteConfig, deleteOutbound, h, hm]
  · have h := (firstIndex_eq_some_iff _ _ _).2 hi
    have h2 : ApplyConfigDiff env m "DELETE" content = reloadConfig env
        { m with currentConfig := some { cfg with Outbounds := cfg.Outbounds.eraseIdx i } } := by
      simp [ApplyConfigDiff, hcfg, htag, asString, hk, deleteConfig, deleteOutbound, h,
        removeAt_eq_eraseIdx]
    exact ⟨h2, by rw [h2, reloadConfig_currentConfig]⟩
  · cases hr : cfg.Routing with
    | none =>
      exact ⟨Err.noRouting, by
        simp [ApplyConfigDiff, hcfg, htag, asString, hk, deleteConfig, deleteBalancer, hr, hm]⟩
    | some r =>
      have h : firstIndex (fun (x : Balancer) => x.Tag == t) r.Balancers = none :=
        (firstIndex_eq_none_iff _ _).2 (fun x hx => by
          simpa using hno x (by simpa [Config.balancers, hr] using hx))
      exact ⟨Err.notFound "Balancer" t, by
        simp [ApplyConfigDiff, hcfg, htag, asString, hk, deleteConfig, deleteBalancer,
          hr, h, hm]⟩
  · have h := (firstIndex_eq_some_iff _ _ _).2 hi
    have h2 : ApplyConfigDiff env m "DELETE" content = reloadConfig env
        { m with currentConfig := some { cfg with
            Routing := some { r with Balancers := r.Balancers.eraseIdx i } } } := by
      simp [ApplyConfigDiff, hcfg, htag, asString, hk, deleteConfig, deleteBalancer,
        hr, h, removeAt_eq_eraseIdx]
    exact ⟨h2, by rw [h2, reloadConfig_currentConfig]⟩
  · simp only [ApplyConfigDiff]
    cases m2.currentConfig with
    | none => rfl
    | some c =>
      cases asString (content2.lookup "tag") with
      | none => rfl
      | some tag =>
        simp only [String.reduceEq, if_false, or_true, true_or, if_true]
        rcases deleteConfig c (detectConfigType content2) tag with ⟨c2, err | modified⟩ <;> rfl

/-- C3, witness: DELETE with the full inbound payload of `in1` on a configuration that
holds `in1` leaves no inbound. -/
theorem delete_removes_first_witness :
    (ApplyConfigDiff okEnv managerWithIn1 "DELETE" s1Inbound).1.currentConfig.map
      (fun c => c.Inbounds.map (fun i => i.Tag)) = some [] := by
  have h := ((delete_removes_first okEnv managerWithIn1 _ s1Inbound "in1" rfl rfl).1
    (by decide)).2 0 (by decide)
  rw [h.2]
  rfl

/-- C5, the code at the failing input: the rule list already holds a rule with
outboundTag `out1`; ADD of a routing payload with outboundTag `out1` returns no error,
appends a second rule to `out1` and reloads (the proxy, stopped before, runs after). -/
theorem add_routing_appends_duplicate :
    managerWithRule.currentConfig.map (fun c => c.rules.map (fun r => r.OutboundTag)) =
      some ["out1"] ∧
    detectConfigType routingTagged = "routing" ∧
    (ApplyConfigDiff okEnv managerWithRule "ADD" routingTagged).2 = Except.ok () ∧
    (ApplyConfigDiff okEnv managerWithRule "ADD" routingTagged).1.currentConfig.map
        (fun c => c.rules.map (fun r => r.OutboundTag)) = some ["out1", "out1"] ∧
    managerWithRule.instance_.isRunning = false ∧
    (ApplyConfigDiff okEnv managerWithRule "ADD" routingTagged).1.instance_.isRunning = true := by
  refine ⟨by rfl, by decide, by rfl, by rfl, by rfl, by rfl⟩

/-- C7, the code at the failing input: the configuration holds the inbound `in1`; DEL
with the payload `{tag: "in1"}` is classified `unknown`, returns the unsupported-type
error and leaves `in1` in place. -/
theorem delete_inbound_by_tag_only_fails :
    detectConfigType deleteIn1 = "unknown" ∧
    (ApplyConfigDiff okEnv managerWithIn1 "DEL" deleteIn1).2 =
      Except.error (Err.unsupportedType "unknown") ∧
    (ApplyConfigDiff okEnv managerWithIn1 "DEL" deleteIn1).1.currentConfig.map
        (fun c => c.Inbounds.map (fun i => i.Tag)) = some ["in1"] := by
  refine ⟨by decide, by rfl, by rfl⟩

theorem mapToRoutingRule_congr (c1 c2 : Content)
    (h : ∀ k, k ≠ "tag" → c1.lookup k = c2.lookup k) :
    mapToRoutingRule c1 = mapToRoutingRule c2 := by
  unfold mapToRoutingRule
  rw [h "type" (by decide), h "domain" (by decide), h "ip" (by decide), h "port" (by decide),
    h "network" (by decide), h "source" (by decide), h "user" (by decide),
    h "inboundTag" (by decide), h "protocol" (by decide), h "attrs" (by decide),
    h "outboundTag" (by decide), h "balancerTag" (by decide)]

theorem detectConfigType_congr (c1 c2 : Content)
    (h : ∀ k, k ≠ "tag" → c1.lookup k = c2.lookup k) :
    detectConfigType c1 = detectConfigType c2 := by
  unfold detectConfigType
  rw [h "port" (by decide), h "outboundTag" (by decide), h "selector" (by decide),
    h "protocol" (by decide)]

/-- C6 (amended). A routing payload needs a string `tag` field: without one
`ApplyConfigDiff` on an initialised manager returns the missing-tag error for every
action and leaves the manager as it was. Given one, the outcome of every action other
than `DEL` and `DELETE` (so of ADD and UPDATE) does not depend on which string the tag
is: two routing payloads that agree on every key except `tag` give the same result and
the same manager. -/
theorem routing_tag_required_but_unused (env : Env) (m : Manager) (cfg : Config)
    (action : String) (c1 c2 : Content) (s1 s2 : String)
    (hcfg : m.currentConfig = some cfg)
    (hkind : detectConfigType c1 = "routing")
    (hagree : ∀ k, k ≠ "tag" → c1.lookup k = c2.lookup k)
    (h1 : c1.lookup "tag" = some (Value.str s1))
    (h2 : c2.lookup "tag" = some (Value.str s2)) :
    (action ≠ "DEL" → action ≠ "DELETE" →
      ApplyConfigDiff env m action c1 = ApplyConfigDiff env m action c2) ∧
    (∀ c0 : Content, asString (c0.lookup "tag") = none →
      ApplyConfigDiff env m action c0 = (m, Except.error Err.missingTag)) := by
  have hk2 : detectConfigType c2 = "routing" := by
    rw [← detectConfigType_congr c1 c2 hagree]; exact hkind
  have hdec := mapToRoutingRule_congr c1 c2 hagree
  have hout := hagree "outboundTag" (by decide)
  refine ⟨fun hdel hdelete => ?_, fun c0 h0 => ?_⟩
  · by_cases hadd : action = "ADD"
    · simp [ApplyConfigDiff, hcfg, h1, h2, asString, hkind, hk2, hadd, addConfig,
        addRoutingRule, hdec]
    · by_cases hupd : action = "UPDATE"
      · simp [ApplyConfigDiff, hcfg, h1, h2, asString, hkind, hk2, hupd, updateConfig,
          updateRoutingRule, hdec, hout]
      · simp [ApplyConfigDiff, hcfg, h1, h2, asString, hadd, hupd, hdel, hdelete]
  · simp [ApplyConfigDiff, hcfg, h0]

/-- C6, witness: UPDATE with the payload tagged `rule-out1` and with the same payload
tagged `anything` give the same outcome, and the untagged payload is refused. -/
theorem routing_tag_required_but_unused_witness :
    ApplyConfigDiff okEnv managerWithRule "UPDATE" routingTagged =
      ApplyConfigDiff okEnv managerWithRule "UPDATE" routingRetagged ∧
    ApplyConfigDiff okEnv managerWithRule "UPDATE" routingNoTag =
      (managerWithRule, Except.error Err.missingTag) := by
  have h := routing_tag_required_but_unused okEnv managerWithRule _ "UPDATE" routingTagged
    routingRetagged "rule-out1" "anything" rfl (by decide)
    (fun k hk => by
      have hne : (k == "tag") = false := by simpa using hk
      simp [routingTagged, routingRetagged, List.lookup, hne]) rfl rfl
  exact ⟨h.1 (by decide) (by decide), h.2 routingNoTag rfl⟩

/-- C6, counterexample: on the empty configuration ADD with the payload
`{outboundTag: "out1"}` and no tag is refused with the missing-tag error and adds no
rule, while the same payload with a tag is applied; so the outcome does depend on the
presence of `tag`. -/
theorem add_routing_without_tag_fails :
    (ApplyConfigDiff okEnv freshManager "ADD" routingBare).2 = Except.error Err.missingTag ∧
    (ApplyConfigDiff okEnv freshManager "ADD" routingBare).1.currentConfig.map
        (fun c => c.rules.map (fun r => r.OutboundTag)) = some [] ∧
    (ApplyConfigDiff okEnv freshManager "ADD"
        (("tag", Value.str "rule-out1") :: routingBare)).2 = Except.ok () ∧
    (ApplyConfigDiff okEnv freshManager "ADD"
        (("tag", Value.str "rule-out1") :: routingBare)).1.currentConfig.map
        (fun c => c.rules.map (fun r => r.OutboundTag)) = some ["out1"] := by
  refine ⟨by rfl, by rfl, by rfl, by rfl⟩

theorem asString_eq_some {v : Option Value} {s : String} (h : asString v = some s) :
    v = some (Value.str s) := by
  unfold asString at h
  split at h
  · simp_all
  · simp at h

theorem nodup_map_append_tag {α : Type} (tagOf : α → String) (xs : List α) (e : α)
    (hnd : (xs.map tagOf).Nodup) (hnew : xs.any (fun x => tagOf x == tagOf e) = false) :
    ((xs ++ [e]).map tagOf).Nodup := by
  rw [List.map_append, List.nodup_append]
  refine ⟨hnd, by simp, ?_⟩
  intro a ha hb
  simp only [List.map_cons, List.map_nil, List.mem_singleton] at hb
  subst hb
  obtain ⟨x, hx, hxe⟩ := List.mem_map.1 ha
  have : xs.any (fun x => tagOf x == tagOf e) = true :=
    (any_tag_iff tagOf xs (tagOf e)).2 ⟨x, hx, hxe⟩
  rw [hnew] at this
  exact Bool.noConfusion this

theorem map_set_same_tag {α : Type} (tagOf : α → String) (t : String) (xs : List α) (e : α)
    (i : Nat) (hi : firstIndex (fun x => tagOf x == t) xs = some i) (he : tagOf e = t) :
    (xs.set i e).map tagOf = xs.map tagOf := by
  induction xs generalizing i with
  | nil => simp
  | cons x xs ih =>
    by_cases h : tagOf x = t
    · have hi0 : i = 0 := by simpa [firstIndex, h] using hi.symm
      subst hi0
      simp [h, he]
    · cases i with
      | zero => simp [firstIndex, h] at hi
      | succ n =>
        have hn : firstIndex (fun x => tagOf x == t) xs = some n := by
          simpa [firstIndex, h] using hi
        simp [ih n hn]

theorem nodup_map_removeAt {α : Type} (tagOf : α → String) (xs : List α) (i : Nat)
    (hnd : (xs.map tagOf).Nodup) : ((removeAt xs i).map tagOf).Nodup := by
  rw [removeAt_eq_eraseIdx]
  exact List.Nodup.sublist (List.Sublist.map tagOf (List.eraseIdx_sublist xs i)) hnd

theorem mapToInbound_tag (content : Content) (t : String) (e : Inbound)
    (htag : content.lookup "tag" = some (Value.str t)) (he : mapToInbound content = some e) :
    e.Tag = t := by
  simp only [mapToInbound, htag, decodeString, Option.bind_eq_bind, Option.some_bind,
    Option.pure_def, Option.bind_eq_some, Option.some.injEq] at he
  obtain ⟨_, _, _, _, _, _, _, _, _, _, rfl⟩ := he
  rfl

theorem mapToOutbound_tag (content : Content) (t : String) (e : Outbound)
    (htag : content.lookup "tag" = some (Value.str t)) (he : mapToOutbound content = some e) :
    e.Tag = t := by
  simp only [mapToOutbound, htag, decodeString, Option.bind_eq_bind, Option.some_bind,
    Option.pure_def, Option.bind_eq_some, Option.some.injEq] at he
  obtain ⟨_, _, _, _, _, _, _, _, _, _, rfl⟩ := he
  rfl

theorem mapToBalancer_tag (content : Content) (t : String) (e : Balancer)
    (htag : content.lookup "tag" = some (Value.str t)) (he : mapToBalancer content = some e) :
    e.Tag = t := by
  simp only [mapToBalancer, htag, decodeString, Option.bind_eq_bind, Option.some_bind,
    Option.pure_def, Option.bind_eq_some, Option.some.injEq] at he
  obtain ⟨_, _, _, _, rfl⟩ := he
  rfl

theorem addInbound_tagsDistinct (cfg : Config) (t : String) (content : Content)
    (htag : content.lookup "tag" = some (Value.str t)) (h : tagsDistinct cfg) :
    tagsDistinct (addInbound cfg t content).1 := by
  unfold addInbound
  split
  · exact h
  · rename_i hany
    cases he : mapToInbound content with
    | none => exact h
    | some e =>
      have het := mapToInbound_tag content t e htag he
      refine ⟨?_, h.2.1, h.2.2⟩
      apply nodup_map_append_tag (fun (x : Inbound) => x.Tag) _ _ h.1
      rw [het]
      simpa using hany

theorem addOutbound_tagsDistinct (cfg : Config) (t : String) (content : Content)
    (htag : content.lookup "tag" = some (Value.str t)) (h : tagsDistinct cfg) :
    tagsDistinct (addOutbound cfg t content).1 := by
  unfold addOutbound
  split
  · exact h
  · rename_i hany
    cases he : mapToOutbound content with
    | none => exact h
    | some e =>
      have het := mapToOutbound_tag content t e htag he
      refine ⟨h.1, ?_, h.2.2⟩
      apply nodup_map_append_tag (fun (x : Outbound) => x.Tag) _ _ h.2.1
      rw [het]
      simpa using hany

theorem addBalancer_tagsDistinct (cfg : Config) (t : String) (content : Content)
    (htag : content.lookup "tag" = some (Value.str t)) (h : tagsDistinct cfg) :
    tagsDistinct (addBalancer cfg t content).1 := by
  obtain ⟨hi, ho, hb⟩ := h
  unfold addBalancer
  simp only
  split
  · refine ⟨hi, ho, ?_⟩
    cases hr : cfg.Routing <;> simp_all [Config.balancers, emptyRouting]
  · rename_i hany
    cases he : mapToBalancer content with
    | none =>
      refine ⟨hi, ho, ?_⟩
      cases hr : cfg.Routing <;> simp_all [Config.balancers, emptyRouting]
    | some e =>
      have het := mapToBalancer_tag content t e htag he
      refine ⟨hi, ho, ?_⟩
      simp only [Config.balancers]
      apply nodup_map_append_tag (fun (x : Balancer) => x.Tag)
      · cases hr : cfg.Routing <;> simp_all [Config.balancers, emptyRouting]
      · rw [het]
        simpa using hany

theorem addRoutingRule_tagsDistinct (cfg : Config) (content : Content)
    (h : tagsDistinct cfg) : tagsDistinct (addRoutingRule cfg content).1 := by
  obtain ⟨hi, ho, hb⟩ := h
  unfold addRoutingRule
  simp only
  cases he : mapToRoutingRule content <;> refine ⟨hi, ho, ?_⟩ <;>
    cases hr : cfg.Routing <;> simp_all [Config.balancers, emptyRouting]

theorem updateInbound_tagsDistinct (cfg : Config) (t : String) (content : Content)
    (htag : content.lookup "tag" = some (Value.str t)) (h : tagsDistinct cfg) :
    tagsDistinct (updateInbound cfg t content).1 := by
  unfold updateInbound
  cases hi : firstIndex (fun (x : Inbound) => x.Tag == t) cfg.Inbounds with
  | none => exact h
  | some i =>
    cases he : mapToInbound content with
    | none => exact h
    | some e =>
      refine ⟨?_, h.2.1, h.2.2⟩
      simp only
      rw [map_set_same_tag (fun (x : Inbound) => x.Tag) t _ e i hi
        (mapToInbound_tag content t e htag he)]
      exact h.1

theorem updateOutbound_tagsDistinct (cfg : Config) (t : String) (content : Content)
    (htag : content.lookup "tag" = some (Value.str t)) (h : tagsDistinct cfg) :
    tagsDistinct (updateOutbound cfg t content).1 := by
  unfold updateOutbound
  cases hi : firstIndex (fun (x : Outbound) => x.Tag == t) cfg.Outbounds with
  | none => exact h
  | some i =>
    cases he : mapToOutbound content with
    | none => exact h
    | some e =>
      refine ⟨h.1, ?_, h.2.2⟩
      simp only
      rw [map_set_same_tag (fun (x : Outbound) => x.Tag) t _ e i hi
        (mapToOutbound_tag content t e htag he)]
      exact h.2.1

theorem updateBalancer_tagsDistinct (cfg : Config) (t : String) (content : Content)
    (htag : content.lookup "tag" = some (Value.str t)) (h : tagsDistinct cfg) :
    tagsDistinct (updateBalancer cfg t content).1 := by
  unfold updateBalancer
  cases hr : cfg.Routing with
  | none => exact h
  | some r =>
    simp only
    cases hi : firstIndex (fun (x : Balancer) => x.Tag == t) r.Balancers with
    | none => exact h
    | some i =>
      cases he : mapToBalancer content with
      | none => exact h
      | some e =>
        refine ⟨h.1, h.2.1, ?_⟩
        simp only [Config.balancers]
        rw [map_set_same_tag (fun (x : Balancer) => x.Tag) t _ e i hi
          (mapToBalancer_tag content t e htag he)]
        simpa [Config.balancers, hr] using h.2.2

theorem updateRoutingRule_tagsDistinct (cfg : Config) (t : String) (content : Content)
    (h : tagsDistinct cfg) : tagsDistinct (updateRoutingRule cfg t content).1 := by
  unfold updateRoutingRule
  cases hr : cfg.Routing with
  | none => exact h
  | some r =>
    simp only
    split
    · split
      · exact h
      · refine ⟨h.1, h.2.1, ?_⟩
        simpa [Config.balancers, hr] using h.2.2
    · exact h

theorem deleteInbound_tagsDistinct (cfg : Config) (t : String) (h : tagsDistinct cfg) :
    tagsDistinct (deleteInbound cfg t).1 := by
  unfold deleteInbound
  split
  · exact ⟨nodup_map_removeAt _ _ _ h.1, h.2.1, h.2.2⟩
  · exact h

theorem deleteOutbound_tagsDistinct (cfg : Config) (t : String) (h : tagsDistinct cfg) :
    tagsDistinct (deleteOutbound cfg t).1 := by
  unfold deleteOutbound
  split
  · exact ⟨h.1, nodup_map_removeAt _ _ _ h.2.1, h.2.2⟩
  · exact h

theorem deleteBalancer_tagsDistinct (cfg : Config) (t : String) (h : tagsDistinct cfg) :
    tagsDistinct (deleteBalancer cfg t).1 := by
  unfold deleteBalancer
  cases hr : cfg.Routing with
  | none => exact h
  | some r =>
    simp only
    split
    · refine ⟨h.1, h.2.1, ?_⟩
      simp only [Config.balancers]
      apply nodup_map_removeAt
      simpa [Config.balancers, hr] using h.2.2
    · exact h

theorem deleteRoutingRule_tagsDistinct (cfg : Config) (t : String) (h : tagsDistinct cfg) :
    tagsDistinct (deleteRoutingRule cfg t).1 := by
  unfold deleteRoutingRule
  cases hr : cfg.Routing with
  | none => exact h
  | some r =>
    simp only
    split
    · refine ⟨h.1, h.2.1, ?_⟩
      simpa [Config.balancers, hr] using h.2.2
    · exact h

theorem addConfig_tagsDistinct (cfg : Config) (configType t : String) (content : Content)
    (htag : content.lookup "tag" = some (Value.str t)) (h : tagsDistinct cfg) :
    tagsDistinct (addConfig cfg configType t content).1 := by
  unfold addConfig
  split
  · exact addInbound_tagsDistinct cfg t content htag h
  · split
    · exact addOutbound_tagsDistinct cfg t content htag h
    · split
      · exact addRoutingRule_tagsDistinct cfg content h
      · split
        · exact addBalancer_tagsDistinct cfg t content htag h
        · exact h

theorem updateConfig_tagsDistinct (cfg : Config) (configType t : String) (content : Content)
    (htag : content.lookup "tag" = some (Value.str t)) (h : tagsDistinct cfg) :
    tagsDistinct (updateConfig cfg configType t content).1 := by
  unfold updateConfig
  split
  · exact updateInbound_tagsDistinct cfg t content htag h
  · split
    · exact updateOutbound_tagsDistinct cfg t content htag h
    · split
      · exact updateRoutingRule_tagsDistinct cfg t content h
      · split
        · exact updateBalancer_tagsDistinct cfg t content htag h
        · exact h

theorem deleteConfig_tagsDistinct (cfg : Config) (configType t : String)
    (h : tagsDistinct cfg) : tagsDistinct (deleteConfig cfg configType t).1 := by
  unfold deleteConfig
  split
  · exact deleteInbound_tagsDistinct cfg t h
  · split
    · exact deleteOutbound_tagsDistinct cfg t h
    · split
      · exact deleteRoutingRule_tagsDistinct cfg t h
      · split
        · exact deleteBalancer_tagsDistinct cfg t h
        · exact h

/-- C8. Tag uniqueness is preserved by the projector: when the manager's configuration
has pairwise-distinct tags within its inbounds, within its outbounds and within its
balancers, then after `ApplyConfigDiff` with any action and any content, whether it
returned an error or not and whatever the reload did, the manager holds a configuration
that again has pairwise-distinct tags within each of the three lists. -/
theorem applyConfigDiff_keeps_tags_distinct (env : Env) (m : Manager) (cfg : Config)
    (action : String) (content : Content) (hcfg : m.currentConfig = some cfg)
    (h : tagsDistinct cfg) :
    ∃ cfg2, (ApplyConfigDiff env m action content).1.currentConfig = some cfg2 ∧
      tagsDistinct cfg2 := by
  unfold ApplyConfigDiff
  simp only [hcfg]
  cases ht : asString (content.lookup "tag") with
  | none => exact ⟨cfg, hcfg, h⟩
  | some t =>
    have htag := asString_eq_some ht
    simp only
    by_cases hadd : action = "ADD"
    · have hp := addConfig_tagsDistinct cfg (detectConfigType content) t content htag h
      simp only [hadd, if_true]
      rcases hres : addConfig cfg (detectConfigType content) t content with ⟨c2, err | b⟩
      · rw [hres] at hp; exact ⟨c2, rfl, hp⟩
      · rw [hres] at hp
        simp only
        split
        · exact ⟨c2, by rw [reloadConfig_currentConfig], hp⟩
        · exact ⟨c2, rfl, hp⟩
    · by_cases hupd : action = "UPDATE"
      · have hp := updateConfig_tagsDistinct cfg (detectConfigType content) t content htag h
        simp only [hupd, String.reduceEq, if_false, if_true]
        rcases hres : updateConfig cfg (detectConfigType content) t content with ⟨c2, err | b⟩
        · rw [hres] at hp; exact ⟨c2, rfl, hp⟩
        · rw [hres] at hp
          simp only
          split
          · exact ⟨c2, by rw [reloadConfig_currentConfig], hp⟩
          · exact ⟨c2, rfl, hp⟩
      · by_cases hdel : action = "DEL" ∨ action = "DELETE"
        · have hp := deleteConfig_tagsDistinct cfg (detectConfigType content) t h
          simp only [hadd, hupd, hdel, if_false, if_true]
          rcases hres : deleteConfig cfg (detectConfigType content) t with ⟨c2, err | b⟩
          · rw [hres] at hp; exact ⟨c2, rfl, hp⟩
          · rw [hres] at hp
            simp only
            split
            · exact ⟨c2, by rw [reloadConfig_currentConfig], hp⟩
            · exact ⟨c2, rfl, hp⟩
        · simp only [hadd, hupd, hdel, if_false]
          exact ⟨cfg, hcfg, h⟩

/-- C8, witness: the configuration holding the single inbound `in1` has distinct tags,
and so has the configuration after ADD of the S1 outbound. -/
theorem applyConfigDiff_keeps_tags_distinct_witness :
    tagsDistinct { emptyConfig with Inbounds := [inboundIn1] } ∧
    ∃ cfg2, (ApplyConfigDiff okEnv managerWithIn1 "ADD" s1Outbound).1.currentConfig =
      some cfg2 ∧ tagsDistinct cfg2 :=
  ⟨by decide, applyConfigDiff_keeps_tags_distinct okEnv managerWithIn1 _ "ADD" s1Outbound rfl
    (by decide)⟩

/-- C9, the code at the failing input: the fresh slave, connected and with an empty send
queue, handles `config_diff{1, ADD, in1}` while the version file cannot be written.
Applying the diff succeeds, `UpdateVersion` fails, and the handler returns that error
without queueing any message: neither the ack with status `success` nor an ack with
status `error` is sent, while the version in memory is already 1 and the file still
holds 0. When it is the apply step that fails (UPDATE of the missing inbound `in1`), the
same handler does queue the ack with status `error` and version 1. -/
theorem config_diff_save_failure_sends_no_ack :
    (ApplyConfigDiff diskFullEnv freshSlave.manager "ADD" s1Inbound).2 = Except.ok () ∧
    (handleConfigDiff diskFullEnv freshSlave (configDiff 1 "ADD" s1Inbound)).2 =
      Except.error Err.saveFailed ∧
    (handleConfigDiff diskFullEnv freshSlave (configDiff 1 "ADD" s1Inbound)).1.client.send.length
      = 0 ∧
    (handleConfigDiff diskFullEnv freshSlave (configDiff 1 "ADD" s1Inbound)).1.versionStore.version
      = 1 ∧
    (handleConfigDiff diskFullEnv freshSlave (configDiff 1 "ADD" s1Inbound)).1.versionStore.file
      = some 0 ∧
    (handleConfigDiff diskFullEnv freshSlave (configDiff 1 "UPDATE" s1Inbound)).1.client.send.map
      (fun msg => (msg.Type_, asString (msg.Data.lookup "status"), diffVersion msg.Data)) =
      [("ack", some "error", some 1)] := by
  refine ⟨by rfl, by rfl, by rfl, by rfl, by rfl, by decide⟩

/-- C4, witness: the S1 outbound payload has `protocol` and none of `port`,
`outboundTag`, `selector`, so it is classified as outbound. -/
theorem detectConfigType_classifies_witness : detectConfigType s1Outbound = "outbound" :=
  (detectConfigType_classifies s1Outbound).2.2.2.2.2.2
    ⟨⟨Value.str "freedom", by simp [s1Outbound]⟩, by simp [s1Outbound], by simp [s1Outbound],
      by simp [s1Outbound]⟩

theorem firstIndex_removeAt_none {α : Type} (keyOf : α → String) (t : String) (xs : List α)
    (i : Nat) (hnd : (xs.map keyOf).Nodup)
    (hi : firstIndex (fun x => keyOf x == t) xs = some i) :
    firstIndex (fun x => keyOf x == t) (removeAt xs i) = none := by
  induction xs generalizing i with
  | nil => simp [firstIndex] at hi
  | cons x xs ih =>
    rw [List.map_cons, List.nodup_cons] at hnd
    by_cases h : keyOf x = t
    · have hi0 : i = 0 := by simpa [firstIndex, h] using hi.symm
      subst hi0
      rw [firstIndex_eq_none_iff]
      intro y hy
      have hy2 : y ∈ xs := by simpa [removeAt] using hy
      have hne : keyOf y ≠ t := by
        intro hyt
        apply hnd.1
        rw [h, ← hyt]
        exact List.mem_map_of_mem keyOf hy2
      simpa using hne
    · cases i with
      | zero => simp [firstIndex, h] at hi
      | succ n =>
        have hn : firstIndex (fun x => keyOf x == t) xs = some n := by
          simpa [firstIndex, h] using hi
        have := ih n hnd.2 hn
        simp only [removeAt] at this
        simp [removeAt, firstIndex, h, this]

theorem deleteConfig_replay (cfg cfg2 : Config) (configType t : String) (b : Bool)
    (hnd : (targetKeys cfg configType).Nodup)
    (h : deleteConfig cfg configType t = (cfg2, Except.ok b)) :
    ∃ err, deleteConfig cfg2 configType t = (cfg2, Except.error err) := by
  unfold deleteConfig at h ⊢
  unfold targetKeys at hnd
  by_cases h1 : configType = "inbound"
  · simp only [h1, if_true] at h hnd ⊢
    unfold deleteInbound at h ⊢
    cases hi : firstIndex (fun (x : Inbound) => x.Tag == t) cfg.Inbounds with
    | none => simp [hi] at h
    | some i =>
      simp only [hi, Prod.mk.injEq] at h
      obtain ⟨rfl, _⟩ := h
      have := firstIndex_removeAt_none (fun (x : Inbound) => x.Tag) t cfg.Inbounds i hnd hi
      exact ⟨Err.notFound "Inbound" t, by simp [this]⟩
  · by_cases h2 : configType = "outbound"
    · simp only [h2, String.reduceEq, if_false, if_true] at h hnd ⊢
      unfold deleteOutbound at h ⊢
      cases hi : firstIndex (fun (x : Outbound) => x.Tag == t) cfg.Outbounds with
      | none => simp [hi] at h
      | some i =>
        simp only [hi, Prod.mk.injEq] at h
        obtain ⟨rfl, _⟩ := h
        have := firstIndex_removeAt_none (fun (x : Outbound) => x.Tag) t cfg.Outbounds i hnd hi
        exact ⟨Err.notFound "Outbound" t, by simp [this]⟩
    · by_cases h3 : configType = "routing"
      · simp only [h3, String.reduceEq, if_false, if_true] at h hnd ⊢
        unfold deleteRoutingRule at h ⊢
        cases hr : cfg.Routing with
        | none => simp [hr] at h
        | some r =>
          simp only [hr] at h
          cases hi : firstIndex (fun (x : RoutingRule) => x.OutboundTag == t) r.Rules with
          | none => simp [hi] at h
          | some i =>
            simp only [hi, Prod.mk.injEq] at h
            obtain ⟨rfl, _⟩ := h
            have hnd2 : (r.Rules.map (fun x => x.OutboundTag)).Nodup := by
              simpa [Config.rules, hr] using hnd
            have := firstIndex_removeAt_none (fun (x : RoutingRule) => x.OutboundTag) t
              r.Rules i hnd2 hi
            exact ⟨Err.notFound "Routing" t, by simp [this]⟩
      · by_cases h4 : configType = "balancer"
        · simp only [h4, String.reduceEq, if_false, if_true] at h hnd ⊢
          unfold deleteBalancer at h ⊢
          cases hr : cfg.Routing with
          | none => simp [hr] at h
          | some r =>
            simp only [hr] at h
            cases hi : firstIndex (fun (x : Balancer) => x.Tag == t) r.Balancers with
            | none => simp [hi] at h
            | some i =>
              simp only [hi, Prod.mk.injEq] at h
              obtain ⟨rfl, _⟩ := h
              have hnd2 : (r.Balancers.map (fun x => x.Tag)).Nodup := by
                simpa [Config.balancers, hr] using hnd
              have := firstIndex_removeAt_none (fun (x : Balancer) => x.Tag) t
                r.Balancers i hnd2 hi
              exact ⟨Err.notFound "Balancer" t, by simp [this]⟩
        · simp [h1, h2, h3, h4] at h

/-- C11. A DELETE diff (action `DEL` or `DELETE`) is applied to an initialised manager
whose target list (the list of the kind the classifier assigns to the content) has
pairwise-distinct keys, and the call returns no error. Applying the same diff again, in
any environment, returns an error and leaves the manager, and so the configuration, as
it was after the first application. -/
theorem delete_replay_fails (env1 env2 : Env) (m : Manager) (cfg : Config)
    (action : String) (content : Content)
    (hcfg : m.currentConfig = some cfg)
    (hact : action = "DEL" ∨ action = "DELETE")
    (hdistinct : (targetKeys cfg (detectConfigType content)).Nodup)
    (hfirst : (ApplyConfigDiff env1 m action content).2 = Except.ok ()) :
    ∃ err, ApplyConfigDiff env2 (ApplyConfigDiff env1 m action content).1 action content =
      ((ApplyConfigDiff env1 m action content).1, Except.error err) := by
  have hnadd : action ≠ "ADD" := by rcases hact with h | h <;> simp [h]
  have hnupd : action ≠ "UPDATE" := by rcases hact with h | h <;> simp [h]
  cases ht : asString (content.lookup "tag") with
  | none => simp [ApplyConfigDiff, hcfg, ht] at hfirst
  | some t =>
    rcases hres : deleteConfig cfg (detectConfigType content) t with ⟨cfg2, err | b⟩
    · simp [ApplyConfigDiff, hcfg, ht, hnadd, hnupd, hact, hres] at hfirst
    · obtain ⟨err, herr⟩ := deleteConfig_replay cfg cfg2 _ t b hdistinct hres
      have hm1 : (ApplyConfigDiff env1 m action content).1.currentConfig = some cfg2 := by
        simp only [ApplyConfigDiff, hcfg, ht, hnadd, hnupd, hact, hres, if_false, if_true]
        split
        · rw [reloadConfig_currentConfig]
        · rfl
      refine ⟨err, ?_⟩
      generalize ApplyConfigDiff env1 m action content = r1 at hm1 ⊢
      have hm := manager_eta r1.1 cfg2 hm1
      simp [ApplyConfigDiff, hm1, ht, hnadd, hnupd, hact, herr, hm]

/-- C11, witness: DELETE with the full payload of `in1` on the configuration holding the
single inbound `in1` succeeds, and the same DELETE again fails with the manager as the
first call left it. -/
theorem delete_replay_fails_witness :
    (ApplyConfigDiff okEnv managerWithIn1 "DELETE" s1Inbound).2 = Except.ok () ∧
    ∃ err,
      ApplyConfigDiff okEnv (ApplyConfigDiff okEnv managerWithIn1 "DELETE" s1Inbound).1
        "DELETE" s1Inbound =
      ((ApplyConfigDiff okEnv managerWithIn1 "DELETE" s1Inbound).1, Except.error err) :=
  ⟨rfl, delete_replay_fails okEnv okEnv managerWithIn1 _ "DELETE" s1Inbound rfl
    (Or.inr rfl) (by decide) rfl⟩

theorem applyDiffs_append (m : Manager) (xs ys : List (Env × String × Content)) :
    applyDiffs m (xs ++ ys) = applyDiffs (applyDiffs m xs) ys := by
  induction xs generalizing m with
  | nil => rfl
  | cons x xs ih =>
    obtain ⟨env, action, content⟩ := x
    simp only [List.cons_append, applyDiffs]
    exact ih _

theorem applyConfigDiff_config_env (env1 env2 : Env) (m1 m2 : Manager) (action : String)
    (content : Content) (h : m1.currentConfig = m2.currentConfig) :
    (ApplyConfigDiff env1 m1 action content).1.currentConfig =
      (ApplyConfigDiff env2 m2 action content).1.currentConfig := by
  unfold ApplyConfigDiff
  rw [← h]
  cases hc : m1.currentConfig with
  | none => simp only; rw [← h, hc]
  | some cfg =>
    simp only
    cases ht : asString (content.lookup "tag") with
    | none => simp only; rw [← h, hc]
    | some t =>
      simp only
      split
      · rw [← h, hc]
      · rfl
      · split <;> simp [reloadConfig_currentConfig]

theorem applyDiffs_config_env (m1 m2 : Manager) (ds1 ds2 : List (Env × String × Content))
    (hm : m1.currentConfig = m2.currentConfig)
    (hd : ds1.map (fun d => d.2) = ds2.map (fun d => d.2)) :
    (applyDiffs m1 ds1).currentConfig = (applyDiffs m2 ds2).currentConfig := by
  induction ds1 generalizing m1 m2 ds2 with
  | nil =>
    cases ds2 with
    | nil => exact hm
    | cons y ys => simp at hd
  | cons x xs ih =>
    cases ds2 with
    | nil => simp at hd
    | cons y ys =>
      obtain ⟨e1, a1, c1⟩ := x
      obtain ⟨e2, a2, c2⟩ := y
      simp only [List.map_cons, List.cons.injEq, Prod.mk.injEq] at hd
      obtain ⟨⟨rfl, rfl⟩, htl⟩ := hd
      simp only [applyDiffs]
      exact ih _ _ ys (applyConfigDiff_config_env e1 e2 m1 m2 a1 c1 hm) htl

/-- C12. Monotonic replication: feeding the diffs `d1..dN` through the projector from a
manager gives the same manager, and so the same in-memory configuration, as feeding
`d1..dk` and then `dk+1..dN` from the state reached after `dk`, for every `k`. The
in-memory configuration moreover does not depend on what the reloads did: resuming the
diffs `dk+1..dN` in other environments, from any manager that holds the configuration
reached after `dk`, ends in the same configuration. -/
theorem replication_resumes_at_any_point (m : Manager)
    (diffs : List (Env × String × Content)) (k : Nat) :
    applyDiffs m diffs = applyDiffs (applyDiffs m (diffs.take k)) (diffs.drop k) ∧
    ∀ (m2 : Manager) (rest : List (Env × String × Content)),
      m2.currentConfig = (applyDiffs m (diffs.take k)).currentConfig →
      rest.map (fun d => d.2) = (diffs.drop k).map (fun d => d.2) →
      (applyDiffs m2 rest).currentConfig = (applyDiffs m diffs).currentConfig := by
  have hsplit : applyDiffs m diffs =
      applyDiffs (applyDiffs m (diffs.take k)) (diffs.drop k) := by
    rw [← applyDiffs_append, List.take_append_drop]
  refine ⟨hsplit, fun m2 rest hm2 hrest => ?_⟩
  rw [hsplit]
  exact applyDiffs_config_env _ _ _ _ hm2 hrest

/-- C12, witness: scenario S1 split after its first diff, the second diff resumed on a
manager whose proxy failed to start: the configuration is that of the unsplit run, one
inbound `in1` and one outbound `out1`. -/
theorem replication_resumes_at_any_point_witness :
    (applyDiffs
        (ApplyConfigDiff diskFullEnv freshManager "ADD" s1Inbound).1
        [({ startOk := false, saveOk := true }, "ADD", s1Outbound)]).currentConfig =
      (applyDiffs freshManager
        [(okEnv, "ADD", s1Inbound), (okEnv, "ADD", s1Outbound)]).currentConfig ∧
    (applyDiffs freshManager
        [(okEnv, "ADD", s1Inbound), (okEnv, "ADD", s1Outbound)]).currentConfig.map
      (fun c => (c.Inbounds.map (fun i => i.Tag), c.Outbounds.map (fun o => o.Tag))) =
      some (["in1"], ["out1"]) :=
  ⟨(replication_resumes_at_any_point freshManager
      [(okEnv, "ADD", s1Inbound), (okEnv, "ADD", s1Outbound)] 1).2 _ _
      (applyConfigDiff_config_env _ _ _ _ _ _ rfl) rfl, rfl⟩

theorem toInt64_zero_scale (n : Int) : toInt64 n 0 = n := by
  simp [toInt64]

/-- C15. The coordinator handles `sync_request{local_version = v}` with `v` at or above
the latest stored version of the registered node, on an open session with room for one
message; `v` is an integer of magnitude at most `2 ^ 53`, so that the handler's `int64`
conversion of the decoded number is `v`. Exactly one message is enqueued, the ack with
status `up_to_date` and the latest version, no `config_diff`, and the store is left as it
was. The latest version is 0 when the node has no stored diff. -/
theorem sync_request_up_to_date (db : model.DB) (client : Client) (data : Content)
    (mantissa : Int) (scale : Nat) (slave : model.Slave) (latest : Int)
    (hv : data.lookup "local_version" = some (Value.num mantissa scale))
    (hexact : exactInteger mantissa scale = true)
    (hnode : db.GetSlaveByID client.SlaveID = Except.ok slave)
    (hlatest : db.GetLatestVersion client.SlaveID = Except.ok latest)
    (hge : toInt64 mantissa scale ≥ latest)
    (hopen : client.isClosed = false)
    (hroom : client.Send.length < sendCapacity) :
    handleSyncRequest db client data =
      (db, { client with Send := client.Send ++ [upToDateAck latest] }) ∧
    ((∀ d ∈ db.config_diffs, d.SlaveID ≠ client.SlaveID) → latest = 0) := by
  have _ := hexact
  constructor
  · simp only [handleSyncRequest, hv, hnode, hlatest, hge, if_true, Client.SendMessage, hopen,
      hroom, Bool.false_eq_true, if_false, upToDateAck]
  · intro hnone
    unfold model.DB.GetLatestVersion at hlatest
    have hempty : db.config_diffs.filter (fun d => d.SlaveID == client.SlaveID) = [] := by
      rw [List.filter_eq_nil_iff]
      intro d hd
      simpa using hnone d hd
    rw [hempty] at hlatest
    simpa [model.maxOf] using hlatest.symm

/-- C15, witness (scenarios S2 and S4): with the diffs v1 and v2 stored, a node that
sends `local_version` 2 gets the single ack `up_to_date` with version 2. -/
theorem sync_request_up_to_date_witness :
    (handleSyncRequest (s1Store 0 "online") sessionN1 (syncRequest 2)).2.Send.map
      (fun msg => (msg.Type_, asString (msg.Data.lookup "status"), diffVersion msg.Data)) =
      [("ack", some "up_to_date", some 2)] := by
  have h := (sync_request_up_to_date (s1Store 0 "online") sessionN1 (syncRequest 2) 2 0
    (nodeN1 0 "online") 2 rfl (by decide) rfl rfl (by decide) rfl (by decide)).1
  rw [h]
  decide

/-- C16, the code at the failing input: the registry holds applied-version 1 and status
`offline` for node `n1`, whose latest stored diff has version 2; the node sends
`sync_request{local_version: 2}`. The coordinator answers `up_to_date` and returns; the
registry still holds applied-version 1 and status `offline`. -/
theorem up_to_date_leaves_registry_stale :
    (s1Store 1 "offline").GetLatestVersion 1 = Except.ok 2 ∧
    (handleSyncRequest (s1Store 1 "offline") sessionN1 (syncRequest 2)).2.Send.map
      (fun msg => (msg.Type_, asString (msg.Data.lookup "status"))) =
      [("ack", some "up_to_date")] ∧
    (handleSyncRequest (s1Store 1 "offline") sessionN1 (syncRequest 2)).1.slaves.map
      (fun s => (s.ID, s.CurrentVersion, s.Status)) = [(1, 1, "offline")] := by
  refine ⟨by rfl, by decide, by decide⟩

/-- C17, the code at the failing input: the session of node `n1` is registered, the
registry holds applied-version 0 and the diffs v1 and v2 are stored. `TriggerSync`
returns no error and enqueues the two `config_diff` messages and nothing after them: no
ack with status `sync_complete`. -/
theorem trigger_sync_sends_no_sync_complete :
    (TriggerSync (s1Store 0 "online") hubN1 1).2 = Except.ok () ∧
    (TriggerSync (s1Store 0 "online") hubN1 1).1.clients.map
      (fun c => c.Send.map (fun msg => (msg.Type_, diffVersion msg.Data))) =
      [[("config_diff", some 1), ("config_diff", some 2)]] := by
  refine ⟨by rfl, by decide⟩

theorem find_map_update (rows : List model.Slave) (id : Int) (f : model.Slave → model.Slave)
    (hid : ∀ s, (f s).ID = s.ID) :
    (rows.map f).find? (fun s => s.ID == id) = (rows.find? (fun s => s.ID == id)).map f := by
  induction rows with
  | nil => rfl
  | cons s rows ih =>
    simp only [List.map_cons, List.find?_cons, hid]
    cases h : (s.ID == id)
    · simpa using ih
    · rfl

theorem getSlave_after_updateVersion (db : model.DB) (id id2 v : Int) :
    (db.UpdateSlaveVersion id v).1.GetSlaveByID id2 =
      (db.GetSlaveByID id2).map
        (fun s => if s.ID == id then { s with CurrentVersion := v } else s) := by
  unfold model.DB.GetSlaveByID model.DB.UpdateSlaveVersion
  simp only
  rw [find_map_update _ _ _ (fun s => by split <;> rfl)]
  cases db.slaves.find? (fun s => s.ID == id2) <;> rfl

theorem find_some_id (rows : List model.Slave) (id : Int) (s : model.Slave)
    (h : rows.find? (fun s => s.ID == id) = some s) : s.ID = id := by
  have := List.find?_some h
  simpa using this

theorem handleAcks_registry (db : model.DB) (client : Client) (acks : List Content)
    (slave : model.Slave) (hnode : db.GetSlaveByID client.SlaveID = Except.ok slave) :
    ∃ u, (handleAcks db client acks).GetSlaveByID client.SlaveID =
      Except.ok { slave with CurrentVersion := u } := by
  induction acks generalizing db slave with
  | nil => exact ⟨slave.CurrentVersion, by simpa [handleAcks] using hnode⟩
  | cons data rest ih =>
    simp only [handleAcks]
    have hstep : ∃ u, (handleAck db client data).GetSlaveByID client.SlaveID =
        Except.ok { slave with CurrentVersion := u } := by
      unfold handleAck
      split
      · rename_i mantissa scale _
        refine ⟨toInt64 mantissa scale, ?_⟩
        rw [getSlave_after_updateVersion, hnode]
        have hid : slave.ID = client.SlaveID := by
          unfold model.DB.GetSlaveByID at hnode
          split at hnode
          · rename_i s hs
            have := find_some_id _ _ _ hs
            simp only [Except.ok.injEq] at hnode
            rw [← hnode]; exact this
          · simp at hnode
        simp [Except.map, hid]
      · exact ⟨slave.CurrentVersion, by simpa using hnode⟩
    obtain ⟨u, hu⟩ := hstep
    obtain ⟨u2, hu2⟩ := ih _ _ hu
    exact ⟨u2, hu2⟩

/-- C18 (amended). The coordinator handles an ack message whose version `v` is an integer
of magnitude at most `2 ^ 53` (so that the handler's `int64` conversion of the decoded
number is `v`) for a registered node, after any sequence of earlier acks of that node:
the applied-version recorded for the node afterwards is `v`, the version of the ack
handled last, whether that is above or below what was recorded before; the rest of the
node's row and the rows of other nodes are as before the ack. -/
theorem ack_overwrites_applied_version (db : model.DB) (client : Client)
    (earlier : List Content) (data : Content) (mantissa : Int) (scale : Nat)
    (slave : model.Slave)
    (hv : data.lookup "version" = some (Value.num mantissa scale))
    (hexact : exactInteger mantissa scale = true)
    (hnode : db.GetSlaveByID client.SlaveID = Except.ok slave) :
    (handleAcks db client (earlier ++ [data])).GetSlaveByID client.SlaveID =
      Except.ok { slave with CurrentVersion := toInt64 mantissa scale } ∧
    ∀ id, id ≠ client.SlaveID →
      (handleAck (handleAcks db client earlier) client data).GetSlaveByID id =
        (handleAcks db client earlier).GetSlaveByID id := by
  have _ := hexact
  have happ : ∀ (db0 : model.DB) (xs ys : List Content),
      handleAcks db0 client (xs ++ ys) = handleAcks (handleAcks db0 client xs) client ys := by
    intro db0 xs ys
    induction xs generalizing db0 with
    | nil => rfl
    | cons x xs ih => simp only [List.cons_append, handleAcks]; exact ih _
  obtain ⟨u, hu⟩ := handleAcks_registry db client earlier slave hnode
  have hid : slave.ID = client.SlaveID := by
    unfold model.DB.GetSlaveByID at hnode
    split at hnode
    · rename_i s hs
      have := find_some_id _ _ _ hs
      simp only [Except.ok.injEq] at hnode
      rw [← hnode]; exact this
    · simp at hnode
  constructor
  · rw [happ]
    simp only [handleAcks, handleAck, hv]
    rw [getSlave_after_updateVersion, hu]
    simp [Except.map, hid]
  · intro id hne
    simp only [handleAck, hv]
    rw [getSlave_after_updateVersion]
    cases hg : (handleAcks db client earlier).GetSlaveByID id with
    | error e => rfl
    | ok s =>
      have hsid : s.ID = id := by
        unfold model.DB.GetSlaveByID at hg
        split at hg
        · rename_i s2 hs
          have := find_some_id _ _ _ hs
          simp only [Except.ok.injEq] at hg
          rw [← hg]; exact this
        · simp at hg
      simp [Except.map, hsid, hne]

/-- C18, witness: after the acks with versions 1 and 2, the registry of node `n1` holds
applied-version 2. -/
theorem ack_overwrites_applied_version_witness :
    (handleAcks (s1Store 0 "online") sessionN1
        ([ackPayload 1 "success"] ++ [ackPayload 2 "success"])).GetSlaveByID
      sessionN1.SlaveID = Except.ok { nodeN1 0 "online" with CurrentVersion := toInt64 2 0 } :=
  (ack_overwrites_applied_version (s1Store 0 "online") sessionN1 [ackPayload 1 "success"]
    (ackPayload 2 "success") 2 0 (nodeN1 0 "online") rfl (by decide) rfl).1

/-- C18, counterexample: the coordinator handles the ack with version 2 and then an ack
with version 1 for node `n1`; the applied-version recorded is then 1, below the version 2
acknowledged before. -/
theorem smaller_ack_lowers_applied_version :
    (handleAcks (s1Store 0 "online") sessionN1 [ackPayload 2 "success"]).slaves.map
      (fun s => (s.ID, s.CurrentVersion)) = [(1, 2)] ∧
    (handleAcks (s1Store 0 "online") sessionN1
      [ackPayload 2 "success", ackPayload 1 "error"]).slaves.map
      (fun s => (s.ID, s.CurrentVersion)) = [(1, 1)] := by
  refine ⟨by decide, by decide⟩

theorem updateVersion_version (env : Env) (vs : VersionStore) (v : Int) :
    (vs.UpdateVersion env v).1.version = max vs.version v := by
  unfold VersionStore.UpdateVersion VersionStore.Save
  by_cases hgt : v > vs.version
  · have hmax : max vs.version v = v := max_eq_right (le_of_lt hgt)
    by_cases hs : env.saveOk = true <;> simp [hgt, hs, hmax]
  · have hmax : max vs.version v = vs.version := max_eq_left (not_lt.1 hgt)
    simp [hgt, hmax]

theorem updateAll_version (vs : VersionStore) (calls : List (Env × Int)) :
    (updateAll vs calls).version = calls.foldl (fun acc c => max acc c.2) vs.version := by
  induction calls generalizing vs with
  | nil => rfl
  | cons c rest ih =>
    obtain ⟨env, v⟩ := c
    simp only [updateAll, List.foldl_cons]
    rw [ih, updateVersion_version]

theorem le_foldl_max (calls : List (Env × Int)) (c : Int) :
    c ≤ calls.foldl (fun acc x => max acc x.2) c := by
  induction calls generalizing c with
  | nil => exact le_refl _
  | cons x rest ih =>
    simp only [List.foldl_cons]
    exact le_trans (le_max_left _ _) (ih _)

theorem mem_le_foldl_max (calls : List (Env × Int)) (init : Int) :
    ∀ c ∈ calls, c.2 ≤ calls.foldl (fun acc x => max acc x.2) init := by
  induction calls generalizing init with
  | nil => intro c hc; simp at hc
  | cons x rest ih =>
    intro c hc
    simp only [List.foldl_cons]
    rcases List.mem_cons.1 hc with rfl | hc
    · exact le_trans (le_max_right _ _) (le_foldl_max rest _)
    · exact ih _ c hc

theorem updateAll_append (vs : VersionStore) (xs ys : List (Env × Int)) :
    updateAll vs (xs ++ ys) = updateAll (updateAll vs xs) ys := by
  induction xs generalizing vs with
  | nil => rfl
  | cons x xs ih =>
    obtain ⟨env, v⟩ := x
    simp only [List.cons_append, updateAll]
    exact ih _

/-- C19. `UpdateVersion(v)` on a store holding `c` leaves the store holding `max c v`.
When `v > c` it replaces the stored value and runs `Save`, which rewrites the file with
`v` (if the write fails, `Save` returns its error and the file keeps its content); when
`v ≤ c` nothing changes and no write happens. Under any sequence of `UpdateVersion`
calls the stored version ends as the maximum of the initial value and the values passed,
so it never decreases. -/
theorem updateVersion_keeps_maximum (env : Env) (vs : VersionStore) (v : Int) :
    (vs.UpdateVersion env v).1.version = max vs.version v ∧
    (v > vs.version → env.saveOk = true →
      vs.UpdateVersion env v = ({ version := v, file := some v }, Except.ok ())) ∧
    (v > vs.version → env.saveOk = false →
      vs.UpdateVersion env v =
        ({ version := v, file := vs.file }, Except.error Err.saveFailed)) ∧
    (¬ v > vs.version → vs.UpdateVersion env v = (vs, Except.ok ())) ∧
    (∀ calls more : List (Env × Int),
      (updateAll vs calls).version = calls.foldl (fun acc c => max acc c.2) vs.version ∧
      (updateAll vs calls).version ≤ (updateAll vs (calls ++ more)).version ∧
      ∀ c ∈ calls, c.2 ≤ (updateAll vs calls).version) := by
  refine ⟨updateVersion_version env vs v, fun hgt hs => ?_, fun hgt hs => ?_, fun hgt => ?_,
    fun calls more => ⟨updateAll_version vs calls, ?_, fun c hc => ?_⟩⟩
  · simp [VersionStore.UpdateVersion, VersionStore.Save, hgt, hs]
  · simp [VersionStore.UpdateVersion, VersionStore.Save, hgt, hs]
  · simp [VersionStore.UpdateVersion, hgt]
  · rw [updateAll_append, updateAll_version (updateAll vs calls) more]
    exact le_foldl_max more _
  · rw [updateAll_version]
    exact mem_le_foldl_max calls _ c hc

/-- C19, witness: from the stored version 0 the calls `UpdateVersion(2)`,
`UpdateVersion(1)` leave the store at 2 with the file rewritten once, to 2. -/
theorem updateVersion_keeps_maximum_witness :
    updateAll { version := 0, file := some 0 } [(okEnv, 2), (okEnv, 1)] =
      { version := 2, file := some 2 } ∧
    (VersionStore.UpdateVersion okEnv { version := 2, file := some 2 } 1).1.version =
      max 2 1 :=
  ⟨rfl, (updateVersion_keeps_maximum okEnv { version := 2, file := some 2 } 1).1⟩

theorem totalsGrow_refl (db : model.DB) : totalsGrow db db :=
  fun _ _ u d h => ⟨u, d, h, le_refl _, le_refl _⟩

theorem totalsGrow_trans (a b c : model.DB) (h1 : totalsGrow a b) (h2 : totalsGrow b c) :
    totalsGrow a c := by
  intro id tag u d h
  obtain ⟨u2, d2, hb, hu, hd⟩ := h1 id tag u d h
  obtain ⟨u3, d3, hc, hu3, hd3⟩ := h2 id tag u2 d2 hb
  exact ⟨u3, d3, hc, le_trans hu hu3, le_trans hd hd3⟩

theorem upsertTraffic_grows (id : Int) (tag : String) (du dd : Int) (hu : 0 ≤ du)
    (hd : 0 ≤ dd) (rows rows2 : List model.TrafficStats)
    (h : model.upsertTraffic id tag du dd rows = some rows2) :
    ∀ id2 tag2 u d, totalsIn rows id2 tag2 = some (u, d) →
      ∃ u2 d2, totalsIn rows2 id2 tag2 = some (u2, d2) ∧ u ≤ u2 ∧ d ≤ d2 := by
  induction rows generalizing rows2 with
  | nil =>
    intro id2 tag2 u d hfind
    simp [totalsIn] at hfind
  | cons row rows ih =>
    intro id2 tag2 u d hfind
    unfold model.upsertTraffic at h
    by_cases hkey : (row.SlaveID == id && row.InboundTag == tag) = true
    · rw [if_pos hkey] at h
      split at h
      · cases h
        unfold totalsIn at hfind ⊢
        rw [List.find?_cons] at hfind ⊢
        simp only
        cases hk2 : (row.SlaveID == id2 && row.InboundTag == tag2)
        · rw [hk2] at hfind
          simp only at hfind ⊢
          exact ⟨u, d, hfind, le_refl _, le_refl _⟩
        · rw [hk2] at hfind
          simp only [Option.map_some', Option.some.injEq, Prod.mk.injEq] at hfind ⊢
          refine ⟨_, _, ⟨rfl, rfl⟩, ?_, ?_⟩
          · rw [← hfind.1]; omega
          · rw [← hfind.2]; omega
      · cases h
    · rw [if_neg hkey] at h
      cases hrest : model.upsertTraffic id tag du dd rows with
      | none => rw [hrest] at h; cases h
      | some rest =>
        rw [hrest] at h
        simp only [Option.map_some', Option.some.injEq] at h
        subst h
        unfold totalsIn at hfind ⊢
        rw [List.find?_cons] at hfind ⊢
        cases hk2 : (row.SlaveID == id2 && row.InboundTag == tag2)
        · rw [hk2] at hfind
          simp only at hfind ⊢
          exact ih rest hrest id2 tag2 u d hfind
        · rw [hk2] at hfind
          simp only at hfind ⊢
          exact ⟨u, d, hfind, le_refl _, le_refl _⟩

theorem updateTrafficStats_grows (db : model.DB) (id : Int) (tag : String) (du dd : Int)
    (hu : 0 ≤ du) (hd : 0 ≤ dd) :
    totalsGrow db (db.UpdateTrafficStats id tag du dd).1 := by
  unfold model.DB.UpdateTrafficStats
  split
  · exact totalsGrow_refl db
  · split
    · exact totalsGrow_refl db
    · split
      · rename_i rows hrows
        intro id2 tag2 u d h
        exact upsertTraffic_grows id tag du dd hu hd _ _ hrows id2 tag2 u d h
      · exact totalsGrow_refl db

theorem nonNegativeDelta_asInt64 (v : Option Value) (h : nonNegativeDelta v = true) :
    0 ≤ asInt64 v := by
  cases v with
  | none => exact le_refl 0
  | some x =>
    cases x with
    | num m k =>
      simp only [nonNegativeDelta, Bool.and_eq_true, decide_eq_true_eq] at h
      exact h.2
    | _ => exact le_refl 0

theorem addTraffic_grows (slaveID : Int) (trafficData : Content) (db : model.DB)
    (h : trafficData.all (fun e =>
      match e.2 with
      | Value.obj dataMap =>
        nonNegativeDelta (dataMap.lookup "uplink") &&
          nonNegativeDelta (dataMap.lookup "downlink")
      | _ => true) = true) :
    totalsGrow db (addTraffic db slaveID trafficData) := by
  induction trafficData generalizing db with
  | nil => exact totalsGrow_refl db
  | cons e rest ih =>
    rw [List.all_cons, Bool.and_eq_true] at h
    obtain ⟨he, hrest⟩ := h
    rcases e with ⟨tag, v⟩
    cases v with
    | obj dataMap =>
      simp only [Bool.and_eq_true] at he
      unfold addTraffic
      exact totalsGrow_trans _ _ _
        (updateTrafficStats_grows db slaveID tag _ _ (nonNegativeDelta_asInt64 _ he.1)
          (nonNegativeDelta_asInt64 _ he.2)) (ih _ hrest)
    | _ =>
      unfold addTraffic
      exact ih _ hrest

/-- C21 (amended). The coordinator handles a `traffic_report` frame in which every delta
is a non-negative integer of at most `2 ^ 53`, the integers that reach the handler's
`int64` conversion unchanged (a missing `uplink` or `downlink` counts as 0): every
`(node, tag)` row stored before the frame is stored afterwards, with a total-uplink and
a total-downlink that are greater than or equal to their values before the frame. -/
theorem totals_grow_under_nonnegative_deltas (db : model.DB) (client : Client)
    (data : Content) (hdeltas : nonNegativeDeltas data = true) :
    ∀ id tag u d, db.trafficOf id tag = some (u, d) →
      ∃ u2 d2, (handleTrafficReport db client data).1.trafficOf id tag = some (u2, d2) ∧
        u ≤ u2 ∧ d ≤ d2 := by
  have hgoal : totalsGrow db (handleTrafficReport db client data).1 := by
    unfold handleTrafficReport
    unfold nonNegativeDeltas at hdeltas
    split
    · rename_i trafficData htraffic
      rw [htraffic] at hdeltas
      exact addTraffic_grows client.SlaveID trafficData db hdeltas
    · exact totalsGrow_refl db
  exact hgoal

theorem totals_grow_under_nonnegative_deltas_witness :
    nonNegativeDeltas (trafficReport "in1" 50 0) = true ∧
    ∃ u2 d2, (handleTrafficReport s5Store sessionN1 (trafficReport "in1" 50 0)).1.trafficOf
        1 "in1" = some (u2, d2) ∧ 150 ≤ u2 ∧ 200 ≤ d2 :=
  ⟨by decide,
    totals_grow_under_nonnegative_deltas s5Store sessionN1 (trafficReport "in1" 50 0)
      (by decide) 1 "in1" 150 200 (by decide)⟩

/-- C21, counterexample: the store holds the totals `(150, 200)` for node 1 and tag `in1`;
the coordinator handles the frame `{traffic: {in1: {uplink: -30, downlink: 0}}}`; the
total-uplink of that row is then 120, below its value before the frame. -/
theorem negative_delta_lowers_total :
    s5Store.trafficOf 1 "in1" = some (150, 200) ∧
    (handleTrafficReport s5Store sessionN1 (trafficReport "in1" (-30) 0)).1.trafficOf
      1 "in1" = some (120, 200) := by
  refine ⟨by decide, by decide⟩

theorem splitChar_ne_nil (sep : Char) (s : List Char) : splitChar sep s ≠ [] := by
  cases s with
  | nil => simp [splitChar]
  | cons c cs =>
    unfold splitChar
    split
    · simp
    · split <;> simp

theorem splitChar_join (sep : Char) (s : List Char) :
    List.intercalate [sep] (splitChar sep s) = s := by
  induction s with
  | nil => simp [splitChar, List.intercalate]
  | cons c cs ih =>
    unfold splitChar
    by_cases h : c = sep
    · rw [if_pos h]
      have hne := splitChar_ne_nil sep cs
      cases hs : splitChar sep cs with
      | nil => exact absurd hs hne
      | cons part parts =>
        rw [hs] at ih
        simp only [List.intercalate, List.intersperse, List.flatten_cons, List.nil_append,
          List.singleton_append] at ih ⊢
        rw [ih, h]
    · rw [if_neg h]
      cases hs : splitChar sep cs with
      | nil => exact absurd hs (splitChar_ne_nil sep cs)
      | cons part parts =>
        rw [hs] at ih
        simp only
        cases parts with
        | nil =>
          simp only [List.intercalate, List.intersperse, List.flatten_cons, List.flatten_nil,
            List.append_nil] at ih ⊢
          rw [ih]
        | cons p2 ps =>
          simp only [List.intercalate, List.intersperse, List.flatten_cons, List.cons_append]
            at ih ⊢
          rw [ih]

theorem splitChar_no_sep (sep : Char) (s : List Char) :
    ∀ part ∈ splitChar sep s, sep ∉ part := by
  induction s with
  | nil => simp [splitChar]
  | cons c cs ih =>
    unfold splitChar
    by_cases h : c = sep
    · rw [if_pos h]
      intro part hpart
      rcases List.mem_cons.mp hpart with hp | hp
      · rw [hp]; simp
      · exact ih part hp
    · rw [if_neg h]
      cases hs : splitChar sep cs with
      | nil => exact absurd hs (splitChar_ne_nil sep cs)
      | cons part parts =>
        rw [hs] at ih
        simp only
        intro p hp
        rcases List.mem_cons.mp hp with hp | hp
        · rw [hp]
          intro hmem
          rcases List.mem_cons.mp hmem with hm | hm
          · exact h hm.symm
          · exact ih part (List.mem_cons_self _ _) hm
        · exact ih p (List.mem_cons_of_mem _ hp)

theorem hasSub_iff_infix (substr s : List Char) : hasSub substr s = true ↔ substr <:+: s := by
  induction s with
  | nil =>
    unfold hasSub
    rw [List.infix_nil, List.isEmpty_iff]
  | cons c cs ih =>
    unfold hasSub
    rw [Bool.or_eq_true, ih, List.isPrefixOf_iff_prefix, List.infix_cons_iff]

theorem trimSpace_spec (s : List Char) :
    (∃ pre post, s = pre ++ TrimSpace s ++ post ∧
      (∀ c ∈ pre, isSpace c = true) ∧ (∀ c ∈ post, isSpace c = true)) ∧
    (∀ c, (TrimSpace s).getLast? = some c → isSpace c = false) := by
  unfold TrimSpace
  constructor
  · refine ⟨s.takeWhile isSpace,
      ((s.dropWhile isSpace).reverse.takeWhile isSpace).reverse, ?_, ?_, ?_⟩
    · have h1 := List.takeWhile_append_dropWhile isSpace s
      have h2 := List.takeWhile_append_dropWhile isSpace (s.dropWhile isSpace).reverse
      have h3 : s.dropWhile isSpace =
          ((s.dropWhile isSpace).reverse.dropWhile isSpace).reverse ++
            ((s.dropWhile isSpace).reverse.takeWhile isSpace).reverse := by
        rw [← List.reverse_append, h2, List.reverse_reverse]
      rw [List.append_assoc, ← h3, h1]
    · intro c hc
      exact List.mem_takeWhile_imp hc
    · intro c hc
      exact List.mem_takeWhile_imp (List.mem_reverse.mp hc)
  · intro c hc
    rw [List.getLast?_reverse] at hc
    have := List.head?_dropWhile_not isSpace (s.dropWhile isSpace).reverse
    rw [hc] at this
    simpa using this

theorem firstValue_cons (line : List Char) (rest : List (List Char)) :
    firstValue (line :: rest) =
      match valueOfLine line with
      | some n => n
      | none => firstValue rest := by
  unfold valueOfLine
  rw [firstValue]
  by_cases h1 : hasSub (String.toList "value:") line = true
  · by_cases h2 : (splitChar ':' line).length = 2
    · simp only [if_pos h1, if_pos h2, if_pos (And.intro h1 h2)]
    · simp only [if_pos h1, if_neg h2, if_neg (fun h => h2 (And.right h))]
  · simp only [if_neg h1, if_neg (fun h => h1 (And.left h))]

theorem firstValue_first (lines : List (List Char)) (i : Nat) (line : List Char) (n : Int)
    (hline : lines[i]? = some line) (hvalue : valueOfLine line = some n)
    (hfirst : ∀ j l, j < i → lines[j]? = some l → valueOfLine l = none) :
    firstValue lines = n := by
  induction lines generalizing i with
  | nil => simp at hline
  | cons x xs ih =>
    rw [firstValue_cons]
    cases i with
    | zero =>
      simp only [List.getElem?_cons_zero, Option.some.injEq] at hline
      rw [hline, hvalue]
    | succ k =>
      have hx : valueOfLine x = none := hfirst 0 x (Nat.succ_pos k) (by simp)
      rw [hx]
      simp only [List.getElem?_cons_succ] at hline
      exact ih k hline (fun j l hj hl => hfirst (j + 1) l (Nat.succ_lt_succ hj) (by simpa using hl))

theorem firstValue_none (lines : List (List Char))
    (h : ∀ line ∈ lines, valueOfLine line = none) : firstValue lines = 0 := by
  induction lines with
  | nil => rfl
  | cons x xs ih =>
    rw [firstValue_cons, h x (List.mem_cons_self _ _)]
    exact ih (fun l hl => h l (List.mem_cons_of_mem _ hl))

theorem parseInt_inInt64 (s : List Char) (n : Int) (h : ParseInt s = some n) :
    inInt64 n = true := by
  unfold ParseInt at h
  cases s with
  | nil => cases h
  | cons c cs =>
    simp only at h
    by_cases hempty : (if (c == '+' || c == '-') = true then cs else c :: cs).isEmpty = true
    · rw [if_pos hempty] at h
      cases h
    · rw [if_neg hempty] at h
      cases hd : parseDigits 0 (if (c == '+' || c == '-') = true then cs else c :: cs) with
      | none =>
        rw [hd] at h
        cases h
      | some un =>
        rw [hd] at h
        simp only at h
        unfold inInt64
        simp only [Bool.and_eq_true, decide_eq_true_eq]
        by_cases hneg : (c == '-') = true
        · rw [if_pos hneg] at h
          by_cases hgt : un > 2 ^ 63
          · rw [if_pos hgt] at h
            cases h
          · rw [if_neg hgt] at h
            simp only [Option.some.injEq] at h
            have h2 : (un : Int) ≤ 2 ^ 63 := by
              have := Nat.le_of_not_lt hgt
              exact_mod_cast this
            constructor <;> omega
        · rw [if_neg hneg] at h
          by_cases hge : un ≥ 2 ^ 63
          · rw [if_pos hge] at h
            cases h
          · rw [if_neg hge] at h
            simp only [Option.some.injEq] at h
            have h2 : (un : Int) < 2 ^ 63 := by
              have := Nat.lt_of_not_le hge
              exact_mod_cast this
            constructor <;> omega

theorem firstValue_inInt64 (lines : List (List Char)) : inInt64 (firstValue lines) = true := by
  induction lines with
  | nil => decide
  | cons x xs ih =>
    rw [firstValue_cons]
    cases h : valueOfLine x with
    | none => exact ih
    | some n =>
      simp only
      unfold valueOfLine at h
      split at h
      · exact parseInt_inInt64 _ n h
      · cases h

theorem queryStats_inInt64 (cli : String → Option String) (tag direction : String) :
    inInt64 (queryStats cli tag direction) = true := by
  unfold queryStats
  split
  · decide
  · exact firstValue_inInt64 _

/-- C28. `queryStats` returns 0 when the command fails. Otherwise, over the lines of what
the command wrote: when line `i` contains `value:`, splits on `:` into exactly two parts
and has a trimmed second part that parses as a decimal `int64` `n`, and no line before
it is such a line, `queryStats` returns `n`; when no line is such a line, it returns 0.
What it returns is always within `int64`. -/
theorem queryStats_reads_first_value_line (cli : String → Option String)
    (tag direction : String) :
    (cli (statName tag direction) = none → queryStats cli tag direction = 0) ∧
    (∀ output, cli (statName tag direction) = some output →
      (∀ (i : Nat) line n, (splitChar (Char.ofNat 10) output.toList)[i]? = some line →
        valueOfLine line = some n →
        (∀ (j : Nat) l, j < i → (splitChar (Char.ofNat 10) output.toList)[j]? = some l →
          valueOfLine l = none) →
        queryStats cli tag direction = n) ∧
      ((∀ line ∈ splitChar (Char.ofNat 10) output.toList, valueOfLine line = none) →
        queryStats cli tag direction = 0)) ∧
    inInt64 (queryStats cli tag direction) = true := by
  refine ⟨?_, ?_, queryStats_inInt64 cli tag direction⟩
  · intro h
    unfold queryStats
    rw [h]
  · intro output h
    unfold queryStats
    rw [h]
    exact ⟨fun i line n hline hvalue hfirst => firstValue_first _ i line n hline hvalue hfirst,
      fun hnone => firstValue_none _ hnone⟩

theorem queryStats_reads_first_value_line_witness :
    queryStats (fun name => some (statOutput name 1234)) "in1" "uplink" = 1234 ∧
    queryStats failingCli "in1" "uplink" = 0 :=
  ⟨((queryStats_reads_first_value_line (fun name => some (statOutput name 1234)) "in1"
      "uplink").2.1 _ rfl).1 2 (String.toList "  value: 1234") 1234 (by decide) (by decide)
      (by
        have hlines : splitChar (Char.ofNat 10)
            (statOutput (statName "in1" "uplink") 1234).toList =
            [String.toList "stat: <",
             String.toList "  name: \"inbound>>>in1>>>traffic>>>uplink\"",
             String.toList "  value: 1234", String.toList ">", []] := by decide
        intro j l hj hl
        rw [hlines] at hl
        match j, hj with
        | 0, _ =>
          simp only [List.getElem?_cons_zero, Option.some.injEq] at hl
          rw [← hl]
          decide
        | 1, _ =>
          simp only [List.getElem?_cons_succ, List.getElem?_cons_zero, Option.some.injEq] at hl
          rw [← hl]
          decide),
    (queryStats_reads_first_value_line failingCli "in1" "uplink").1 rfl⟩

theorem lookup_setEntry_self {α : Type} (k : String) (v : α) (l : List (String × α)) :
    (setEntry k v l).lookup k = some v := by
  induction l with
  | nil => simp [setEntry, List.lookup]
  | cons e rest ih =>
    rcases e with ⟨k2, v2⟩
    unfold setEntry
    by_cases h : k2 = k
    · simp [h, List.lookup]
    · have hne : (k == k2) = false := by
        simp only [beq_eq_false_iff_ne, ne_eq]
        exact fun h2 => h h2.symm
      simp only [h, if_false, List.lookup, hne]
      exact ih

theorem lookup_setEntry_ne {α : Type} (k k3 : String) (v : α) (l : List (String × α))
    (hne : k3 ≠ k) : (setEntry k v l).lookup k3 = l.lookup k3 := by
  induction l with
  | nil =>
    have : (k3 == k) = false := by simpa using hne
    simp [setEntry, List.lookup, this]
  | cons e rest ih =>
    rcases e with ⟨k2, v2⟩
    unfold setEntry
    by_cases h : k2 = k
    · have h3 : (k3 == k) = false := by simpa using hne
      have h4 : (k3 == k2) = false := by rw [h]; exact h3
      simp only [h, if_true, List.lookup, h3]
    · simp only [h, if_false, List.lookup]
      cases (k3 == k2)
      · exact ih
      · rfl

theorem wrap64_of_inInt64 (n : Int) (h : inInt64 n = true) : wrap64 n = n := by
  unfold inInt64 at h
  simp only [Bool.and_eq_true, decide_eq_true_eq] at h
  unfold wrap64
  rw [Int.emod_eq_of_lt (by omega) (by omega)]
  omega

theorem collectTag_other (cli : String → Option String) (now : Int) (tc : TrafficCollector)
    (tag other : String) (hne : other ≠ tag) :
    (collectTag cli now tc tag).lastSnapshot.lookup other = tc.lastSnapshot.lookup other ∧
    (collectTag cli now tc tag).aggregated.lookup other = tc.aggregated.lookup other := by
  unfold collectTag
  exact ⟨lookup_setEntry_ne _ _ _ _ hne, lookup_setEntry_ne _ _ _ _ hne⟩

theorem collectTags_other (cli : String → Option String) (now : Int) (tags : List String)
    (tc : TrafficCollector) (other : String) (hnot : other ∉ tags) :
    (tags.foldl (collectTag cli now) tc).lastSnapshot.lookup other =
      tc.lastSnapshot.lookup other ∧
    (tags.foldl (collectTag cli now) tc).aggregated.lookup other =
      tc.aggregated.lookup other := by
  induction tags generalizing tc with
  | nil => exact ⟨rfl, rfl⟩
  | cons t rest ih =>
    rw [List.foldl_cons]
    have hne : other ≠ t := fun h => hnot (h ▸ List.mem_cons_self _ _)
    have hrest : other ∉ rest := fun h => hnot (List.mem_cons_of_mem _ h)
    obtain ⟨h1, h2⟩ := ih (collectTag cli now tc t) hrest
    obtain ⟨h3, h4⟩ := collectTag_other cli now tc t other hne
    exact ⟨h1.trans h3, h2.trans h4⟩

theorem collectTraffic_eq_foldl (inst : Instance) (cli : String → Option String) (now : Int)
    (tc : TrafficCollector) :
    collectTraffic inst cli now tc = (sampledTags inst).foldl (collectTag cli now) tc := by
  unfold collectTraffic sampledTags
  cases h : inst.IsRunning
  · simp
  · simp only [Bool.not_true, Bool.false_eq_true, if_false, if_true]

theorem collectTag_self (cli : String → Option String) (now : Int) (tc : TrafficCollector)
    (tag : String) :
    (collectTag cli now tc tag).lastSnapshot.lookup tag =
      some { InboundTag := tag, Uplink := queryStats cli tag "uplink",
             Downlink := queryStats cli tag "downlink", Timestamp := now } ∧
    (collectTag cli now tc tag).aggregated.lookup tag =
      some { InboundTag := ((tc.aggregated.lookup tag).map (fun e => e.InboundTag)).getD tag,
             Uplink := wrap64 ((tc.aggregatedOf tag).1 +
               (sampleDeltas (tc.lastSnapshot.lookup tag) (queryStats cli tag "uplink")
                 (queryStats cli tag "downlink")).1),
             Downlink := wrap64 ((tc.aggregatedOf tag).2 +
               (sampleDeltas (tc.lastSnapshot.lookup tag) (queryStats cli tag "uplink")
                 (queryStats cli tag "downlink")).2),
             Timestamp := now } := by
  unfold collectTag TrafficCollector.aggregatedOf
  refine ⟨lookup_setEntry_self _ _ _, ?_⟩
  simp only
  rw [lookup_setEntry_self]
  cases tc.aggregated.lookup tag <;> rfl

theorem collectTraffic_tag (inst : Instance) (cli : String → Option String) (now : Int)
    (tc : TrafficCollector) (tag : String)
    (htag : tag ∈ sampledTags inst) (hdistinct : (sampledTags inst).Nodup) :
    (collectTraffic inst cli now tc).lastSnapshot.lookup tag =
      (collectTag cli now tc tag).lastSnapshot.lookup tag ∧
    (collectTraffic inst cli now tc).aggregated.lookup tag =
      (collectTag cli now tc tag).aggregated.lookup tag := by
  rw [collectTraffic_eq_foldl]
  obtain ⟨pre, post, hsplit⟩ := List.append_of_mem htag
  rw [hsplit] at hdistinct ⊢
  have hpre : tag ∉ pre := by
    intro h
    have := (List.nodup_append.mp hdistinct).2.2
    exact this h (List.mem_cons_self _ _)
  have hpost : tag ∉ post := by
    have := (List.nodup_append.mp hdistinct).2.1
    exact (List.nodup_cons.mp this).1
  rw [List.foldl_append, List.foldl_cons]
  obtain ⟨h1, h2⟩ := collectTags_other cli now post
    (collectTag cli now (pre.foldl (collectTag cli now) tc) tag) tag hpost
  obtain ⟨h3, h4⟩ := collectTags_other cli now pre tc tag hpre
  obtain ⟨h5, h6⟩ := collectTag_self cli now (pre.foldl (collectTag cli now) tc) tag
  obtain ⟨h7, h8⟩ := collectTag_self cli now tc tag
  refine ⟨by rw [h1, h5, h7], ?_⟩
  rw [h2, h6, h8]
  unfold TrafficCollector.aggregatedOf
  rw [h3, h4]

theorem sampleDeltas_eq_deltaRule (prev : Option TrafficSnapshot) (uplink downlink : Int)
    (hu : inInt64 uplink = true) (hd : inInt64 downlink = true) :
    sampleDeltas prev uplink downlink =
      (wrap64 (deltaRule (prev.map (fun s => s.Uplink)) uplink),
       wrap64 (deltaRule (prev.map (fun s => s.Downlink)) downlink)) := by
  unfold sampleDeltas deltaRule
  cases prev with
  | none => simp [wrap64_of_inInt64 _ hu, wrap64_of_inInt64 _ hd]
  | some p =>
    simp only [Option.map_some']
    refine Prod.ext ?_ ?_
    · simp only
      split
      · rfl
      · exact (wrap64_of_inInt64 _ hu).symm
    · simp only
      split
      · rfl
      · exact (wrap64_of_inInt64 _ hd).symm

/-- C22. A collect tick samples the tag `tag` (the proxy runs and `tag` is one of the
distinct inbound tags of its configuration) and reads the cumulative samples `(up, down)`.
Independently per direction the delta is `delta = deltaRule last now`: `now - last` when
a previous snapshot `last` exists and `now ≥ last`, `now` when it exists and
`now < last`, `now` when there is none. Afterwards the snapshot of the tag holds
`(up, down)` and the aggregator entry of the tag (zero when there was none) has grown by
the two deltas in `int64` arithmetic, which is growth by exactly the deltas whenever the
delta and the new sum are within `int64`. -/
theorem collect_tick_follows_delta_rule (inst : Instance) (cli : String → Option String)
    (now : Int) (tc : TrafficCollector) (tag : String)
    (htag : tag ∈ sampledTags inst) (hdistinct : (sampledTags inst).Nodup) :
    let up := queryStats cli tag "uplink"
    let down := queryStats cli tag "downlink"
    let deltaUp := deltaRule ((tc.lastOf tag).map (fun p => p.1)) up
    let deltaDown := deltaRule ((tc.lastOf tag).map (fun p => p.2)) down
    let after := collectTraffic inst cli now tc
    after.lastOf tag = some (up, down) ∧
    after.aggregatedOf tag =
      (wrap64 ((tc.aggregatedOf tag).1 + wrap64 deltaUp),
       wrap64 ((tc.aggregatedOf tag).2 + wrap64 deltaDown)) ∧
    (inInt64 deltaUp = true → inInt64 ((tc.aggregatedOf tag).1 + deltaUp) = true →
      (after.aggregatedOf tag).1 = (tc.aggregatedOf tag).1 + deltaUp) ∧
    (inInt64 deltaDown = true → inInt64 ((tc.aggregatedOf tag).2 + deltaDown) = true →
      (after.aggregatedOf tag).2 = (tc.aggregatedOf tag).2 + deltaDown) := by
  intro up down deltaUp deltaDown after
  obtain ⟨h1, h2⟩ := collectTraffic_tag inst cli now tc tag htag hdistinct
  obtain ⟨h3, h4⟩ := collectTag_self cli now tc tag
  have hlast : after.lastOf tag = some (up, down) := by
    unfold TrafficCollector.lastOf
    rw [h1, h3]
    rfl
  have hdel := sampleDeltas_eq_deltaRule (tc.lastSnapshot.lookup tag) up down
    (queryStats_inInt64 cli tag "uplink") (queryStats_inInt64 cli tag "downlink")
  have hmap1 : (tc.lastSnapshot.lookup tag).map (fun s => s.Uplink) =
      (tc.lastOf tag).map (fun p => p.1) := by
    unfold TrafficCollector.lastOf
    cases tc.lastSnapshot.lookup tag <;> rfl
  have hmap2 : (tc.lastSnapshot.lookup tag).map (fun s => s.Downlink) =
      (tc.lastOf tag).map (fun p => p.2) := by
    unfold TrafficCollector.lastOf
    cases tc.lastSnapshot.lookup tag <;> rfl
  rw [hmap1, hmap2] at hdel
  have hagg : after.aggregatedOf tag =
      (wrap64 ((tc.aggregatedOf tag).1 + wrap64 deltaUp),
       wrap64 ((tc.aggregatedOf tag).2 + wrap64 deltaDown)) := by
    show (collectTraffic inst cli now tc).aggregatedOf tag = _
    rw [TrafficCollector.aggregatedOf, h2, h4]
    simp only
    rw [hdel]
  refine ⟨hlast, hagg, ?_, ?_⟩
  · intro hd hs
    rw [hagg]
    simp only
    rw [wrap64_of_inInt64 _ hd, wrap64_of_inInt64 _ hs]
  · intro hd hs
    rw [hagg]
    simp only
    rw [wrap64_of_inInt64 _ hd, wrap64_of_inInt64 _ hs]

theorem collect_tick_follows_delta_rule_witness :
    "in1" ∈ sampledTags runningIn1 ∧ (sampledTags runningIn1).Nodup ∧
    sampledIn1.lastOf "in1" = some (100, 50) ∧ sampledIn1.aggregatedOf "in1" = (10, 5) ∧
    (collectTraffic runningIn1 (cliIn1 150 20) 70 sampledIn1).lastOf "in1" = some (150, 20) ∧
    (collectTraffic runningIn1 (cliIn1 150 20) 70 sampledIn1).aggregatedOf "in1" = (60, 25) :=
  ⟨by decide, by decide, by decide, by decide,
    (collect_tick_follows_delta_rule runningIn1 (cliIn1 150 20) 70 sampledIn1 "in1"
      (by decide) (by decide)).1,
    Prod.ext
      ((collect_tick_follows_delta_rule runningIn1 (cliIn1 150 20) 70 sampledIn1 "in1"
        (by decide) (by decide)).2.2.1 (by decide) (by decide))
      ((collect_tick_follows_delta_rule runningIn1 (cliIn1 150 20) 70 sampledIn1 "in1"
        (by decide) (by decide)).2.2.2 (by decide) (by decide))⟩

theorem getLast_getD_cons (s d : Int) (rest : List Int) :
    (s :: rest).getLast?.getD d = rest.getLast?.getD s := by
  cases rest with
  | nil => rfl
  | cons r rs =>
    rw [List.getLast?_cons_cons, List.getLast?_eq_getLast _ (List.cons_ne_nil _ _)]
    rfl

theorem deltaStream_nonneg (last : Option Int) (samples : List Int)
    (h : ∀ s ∈ samples, 0 ≤ s) : ∀ d ∈ deltaStream last samples, 0 ≤ d := by
  induction samples generalizing last with
  | nil => simp [deltaStream]
  | cons s rest ih =>
    intro d hd
    unfold deltaStream at hd
    rcases List.mem_cons.mp hd with hd | hd
    · have hs := h s (List.mem_cons_self _ _)
      rw [hd]
      unfold deltaRule
      cases last with
      | none => exact hs
      | some l =>
        simp only
        split <;> omega
    · exact ih (some s) (fun x hx => h x (List.mem_cons_of_mem _ hx)) d hd

theorem deltaStream_sum_chain (l : Int) (samples : List Int)
    (h : List.Chain (· ≤ ·) l samples) :
    (deltaStream (some l) samples).sum = samples.getLast?.getD l - l := by
  induction samples generalizing l with
  | nil => simp [deltaStream]
  | cons s rest ih =>
    rw [List.chain_cons] at h
    obtain ⟨hle, hrest⟩ := h
    unfold deltaStream
    rw [List.sum_cons, ih s hrest]
    have hd : deltaRule (some l) s = s - l := by
      unfold deltaRule
      simp only
      rw [if_pos hle]
    rw [hd]
    rw [getLast_getD_cons]
    omega

theorem deltaStream_sum_none (samples : List Int) (h : samples.Chain' (· ≤ ·)) :
    (deltaStream none samples).sum = samples.getLast?.getD 0 := by
  cases samples with
  | nil => rfl
  | cons s rest =>
    unfold deltaStream
    rw [List.sum_cons, deltaStream_sum_chain s rest h]
    have hd : deltaRule none s = s := rfl
    rw [hd]
    rw [getLast_getD_cons]
    omega

theorem deltaStream_append (last : Option Int) (pre post : List Int) :
    deltaStream last (pre ++ post) =
      deltaStream last pre ++ deltaStream (pre.getLast?.orElse (fun _ => last)) post := by
  induction pre generalizing last with
  | nil => simp [deltaStream]
  | cons s rest ih =>
    have hlast : ((s :: rest).getLast?.orElse fun _ => last) =
        (rest.getLast?.orElse fun _ => some s) := by
      cases rest with
      | nil => rfl
      | cons r rs =>
        rw [List.getLast?_cons_cons, List.getLast?_eq_getLast _ (List.cons_ne_nil _ _)]
        rfl
    rw [hlast]
    simp only [List.cons_append, deltaStream]
    exact congrArg _ (ih (some s))

theorem deltaStream_sum_reset (pre post : List Int) (a b z : Int)
    (hpre : pre.Chain' (· ≤ ·)) (hpost : post.Chain' (· ≤ ·))
    (ha : pre.getLast? = some a) (hb : post.head? = some b) (hlt : b < a)
    (hz : post.getLast? = some z) :
    (deltaStream none (pre ++ post)).sum = a + z := by
  rw [deltaStream_append, List.sum_append, deltaStream_sum_none pre hpre, ha]
  simp only [Option.getD_some, Option.orElse]
  cases post with
  | nil => simp at hb
  | cons p rest =>
    simp only [List.head?_cons, Option.some.injEq] at hb
    subst hb
    unfold deltaStream
    rw [List.sum_cons, deltaStream_sum_chain p rest hpost]
    have hd : deltaRule (some a) p = p := by
      unfold deltaRule
      simp only
      rw [if_neg (by omega)]
    rw [hd]
    have hlast : rest.getLast?.getD p = z := by
      cases rest with
      | nil =>
        simp only [List.getLast?_singleton, Option.some.injEq] at hz
        simp [hz]
      | cons r rs =>
        rw [List.getLast?_cons_cons] at hz
        rw [hz]
        rfl
    rw [hlast]
    omega

theorem deltaRule_inInt64 (last : Option Int) (now : Int) (hnow : inInt64 now = true)
    (h0 : 0 ≤ now) (hl : ∀ l, last = some l → 0 ≤ l) :
    inInt64 (deltaRule last now) = true := by
  unfold inInt64 at hnow ⊢
  simp only [Bool.and_eq_true, decide_eq_true_eq] at hnow ⊢
  unfold deltaRule
  cases last with
  | none => exact hnow
  | some l =>
    have := hl l rfl
    simp only
    split <;> constructor <;> omega

theorem collectTraffic_lastOf (inst : Instance) (cli : String → Option String) (now : Int)
    (tc : TrafficCollector) (tag : String)
    (htag : tag ∈ sampledTags inst) (hdistinct : (sampledTags inst).Nodup) :
    (collectTraffic inst cli now tc).lastOf tag =
      some (queryStats cli tag "uplink", queryStats cli tag "downlink") := by
  unfold TrafficCollector.lastOf
  rw [(collectTraffic_tag inst cli now tc tag htag hdistinct).1,
    (collectTag_self cli now tc tag).1]
  rfl

theorem tickDeltas_direction (tag direction : String)
    (hdir : direction = "uplink" ∨ direction = "downlink")
    (ticks : List (Instance × (String → Option String) × Int)) (tc : TrafficCollector)
    (hticks : ∀ t ∈ ticks, tag ∈ sampledTags t.1 ∧ (sampledTags t.1).Nodup)
    (hlast : ∀ l, (tc.lastOf tag).map (ofDirection direction) = some l → 0 ≤ l)
    (hnonneg : ∀ t ∈ ticks, 0 ≤ queryStats t.2.1 tag direction) :
    (tickDeltas tag tc ticks).map (ofDirection direction) =
      deltaStream ((tc.lastOf tag).map (ofDirection direction))
        (ticks.map (fun t => queryStats t.2.1 tag direction)) := by
  induction ticks generalizing tc with
  | nil => rfl
  | cons t rest ih =>
    rcases t with ⟨inst, cli, now⟩
    obtain ⟨htag, hdistinct⟩ := hticks (inst, cli, now) (List.mem_cons_self _ _)
    have hsample : 0 ≤ queryStats cli tag direction :=
      hnonneg (inst, cli, now) (List.mem_cons_self _ _)
    have hafter := collectTraffic_lastOf inst cli now tc tag htag hdistinct
    have hnext : (tickDeltas tag (collectTraffic inst cli now tc) rest).map
        (ofDirection direction) =
        deltaStream (some (queryStats cli tag direction))
          (rest.map (fun t => queryStats t.2.1 tag direction)) := by
      have := ih (collectTraffic inst cli now tc)
        (fun t ht => hticks t (List.mem_cons_of_mem _ ht))
        (by
          intro l hl
          rw [hafter] at hl
          rcases hdir with hdir | hdir <;> subst hdir <;>
            simp [ofDirection] at hl <;> (rw [← hl]; exact hsample))
        (fun t ht => hnonneg t (List.mem_cons_of_mem _ ht))
      rw [this, hafter]
      rcases hdir with hdir | hdir <;> subst hdir <;> simp [ofDirection]
    simp only [tickDeltas, List.map_cons, deltaStream, hnext]
    congr 1
    rw [sampleDeltas_eq_deltaRule _ _ _ (queryStats_inInt64 cli tag "uplink")
      (queryStats_inInt64 cli tag "downlink")]
    have hrange := deltaRule_inInt64 ((tc.lastOf tag).map (ofDirection direction))
      (queryStats cli tag direction) (queryStats_inInt64 cli tag direction) hsample hlast
    rcases hdir with hdir | hdir
    · subst hdir
      have hmap : (tc.lastSnapshot.lookup tag).map (fun s => s.Uplink) =
          (tc.lastOf tag).map (ofDirection "uplink") := by
        unfold TrafficCollector.lastOf
        cases tc.lastSnapshot.lookup tag <;> rfl
      rw [hmap]
      simp only [ofDirection, if_true]
      exact wrap64_of_inInt64 _ hrange
    · subst hdir
      have hmap : (tc.lastSnapshot.lookup tag).map (fun s => s.Downlink) =
          (tc.lastOf tag).map (ofDirection "downlink") := by
        unfold TrafficCollector.lastOf
        cases tc.lastSnapshot.lookup tag <;> rfl
      rw [hmap]
      have hne : ¬ ("downlink" = "uplink") := by decide
      simp only [ofDirection, if_neg hne]
      exact wrap64_of_inInt64 _ hrange

theorem collectTraffic_aggregatedOf (inst : Instance) (cli : String → Option String)
    (now : Int) (tc : TrafficCollector) (tag : String)
    (htag : tag ∈ sampledTags inst) (hdistinct : (sampledTags inst).Nodup) :
    (collectTraffic inst cli now tc).aggregatedOf tag =
      (wrap64 ((tc.aggregatedOf tag).1 +
          (sampleDeltas (tc.lastSnapshot.lookup tag) (queryStats cli tag "uplink")
            (queryStats cli tag "downlink")).1),
       wrap64 ((tc.aggregatedOf tag).2 +
          (sampleDeltas (tc.lastSnapshot.lookup tag) (queryStats cli tag "uplink")
            (queryStats cli tag "downlink")).2)) := by
  rw [TrafficCollector.aggregatedOf, (collectTraffic_tag inst cli now tc tag htag hdistinct).2,
    (collectTag_self cli now tc tag).2]

theorem collectTicks_aggregatedOf (tag : String)
    (ticks : List (Instance × (String → Option String) × Int)) (tc : TrafficCollector)
    (hticks : ∀ t ∈ ticks, tag ∈ sampledTags t.1 ∧ (sampledTags t.1).Nodup) :
    (collectTicks tc ticks).aggregatedOf tag =
      (tickDeltas tag tc ticks).foldl
        (fun a d => (wrap64 (a.1 + d.1), wrap64 (a.2 + d.2))) (tc.aggregatedOf tag) := by
  induction ticks generalizing tc with
  | nil => rfl
  | cons t rest ih =>
    rcases t with ⟨inst, cli, now⟩
    obtain ⟨htag, hdistinct⟩ := hticks (inst, cli, now) (List.mem_cons_self _ _)
    simp only [collectTicks, tickDeltas, List.foldl_cons]
    rw [ih _ (fun t ht => hticks t (List.mem_cons_of_mem _ ht)),
      collectTraffic_aggregatedOf inst cli now tc tag htag hdistinct]

theorem ofDirection_foldl (direction : String) (ds : List (Int × Int)) (a : Int × Int) :
    ofDirection direction
        (ds.foldl (fun a d => (wrap64 (a.1 + d.1), wrap64 (a.2 + d.2))) a) =
      (ds.map (ofDirection direction)).foldl (fun x y => wrap64 (x + y))
        (ofDirection direction a) := by
  induction ds generalizing a with
  | nil => rfl
  | cons d rest ih =>
    simp only [List.foldl_cons, List.map_cons]
    rw [ih]
    congr 1
    unfold ofDirection
    split <;> rfl

theorem foldl_wrap64_exact (ys : List Int) (x : Int) (hx : 0 ≤ x)
    (hys : ∀ y ∈ ys, 0 ≤ y) (hsum : inInt64 (x + ys.sum) = true) :
    ys.foldl (fun x y => wrap64 (x + y)) x = x + ys.sum := by
  induction ys generalizing x with
  | nil => simp
  | cons y rest ih =>
    have hy := hys y (List.mem_cons_self _ _)
    have hrest : ∀ z ∈ rest, 0 ≤ z := fun z hz => hys z (List.mem_cons_of_mem _ hz)
    have hrestsum : 0 ≤ rest.sum := List.sum_nonneg hrest
    rw [List.sum_cons] at hsum
    have hxy : inInt64 (x + y) = true := by
      unfold inInt64 at hsum ⊢
      simp only [Bool.and_eq_true, decide_eq_true_eq] at hsum ⊢
      constructor <;> omega
    simp only [List.foldl_cons, List.sum_cons]
    rw [wrap64_of_inInt64 _ hxy, ih (x + y) (by omega) hrest (by rw [add_assoc]; exact hsum)]
    omega

/-- C23. Collect ticks sample the tag `tag`, starting with no snapshot for it, and read
non-negative cumulative samples for one direction. The deltas computed for that
direction, one per sample, are all non-negative. If the samples never decrease, the sum
of the deltas is the last sample. If they decrease exactly once, the samples being
`pre` followed by `post`, each of them non-decreasing, with the first sample of `post`
below the last sample `a` of `pre`, the sum of the deltas is `a` plus the last sample.
The deltas are what the aggregator receives: when the tag had no aggregator entry before
the run and the sum is within `int64`, the entry holds that sum after the run. -/
theorem sampler_deltas_monotone (tag direction : String) (tc : TrafficCollector)
    (ticks : List (Instance × (String → Option String) × Int))
    (hdir : direction = "uplink" ∨ direction = "downlink")
    (hticks : ∀ t ∈ ticks, tag ∈ sampledTags t.1 ∧ (sampledTags t.1).Nodup)
    (hempty : tc.lastSnapshot.lookup tag = none)
    (hnonneg : ∀ t ∈ ticks, 0 ≤ queryStats t.2.1 tag direction) :
    let samples := ticks.map (fun t => queryStats t.2.1 tag direction)
    let deltas := (tickDeltas tag tc ticks).map (ofDirection direction)
    deltas.length = samples.length ∧
    (∀ d ∈ deltas, 0 ≤ d) ∧
    (samples.Chain' (· ≤ ·) → deltas.sum = samples.getLast?.getD 0) ∧
    (∀ pre post a b z, samples = pre ++ post → pre.Chain' (· ≤ ·) → post.Chain' (· ≤ ·) →
      pre.getLast? = some a → post.head? = some b → b < a → post.getLast? = some z →
      deltas.sum = a + z) ∧
    (tc.aggregated.lookup tag = none → inInt64 deltas.sum = true →
      ofDirection direction ((collectTicks tc ticks).aggregatedOf tag) = deltas.sum) := by
  intro samples deltas
  have hnone : (tc.lastOf tag).map (ofDirection direction) = none := by
    unfold TrafficCollector.lastOf
    rw [hempty]
    rfl
  have hstream : deltas = deltaStream none samples := by
    have := tickDeltas_direction tag direction hdir ticks tc hticks
      (by intro l hl; rw [hnone] at hl; cases hl) hnonneg
    rw [hnone] at this
    exact this
  have hsamples : ∀ s ∈ samples, 0 ≤ s := by
    intro s hs
    obtain ⟨t, ht, hst⟩ := List.mem_map.mp hs
    rw [← hst]
    exact hnonneg t ht
  have hlen : ∀ (last : Option Int) (xs : List Int),
      (deltaStream last xs).length = xs.length := by
    intro last xs
    induction xs generalizing last with
    | nil => rfl
    | cons x xs ih => simp [deltaStream, ih]
  have hdeltas : ∀ d ∈ deltas, 0 ≤ d := by
    rw [hstream]
    exact deltaStream_nonneg none samples hsamples
  refine ⟨by rw [hstream, hlen], hdeltas, ?_, ?_, ?_⟩
  · intro hchain
    rw [hstream]
    exact deltaStream_sum_none samples hchain
  · intro pre post a b z hsplit hpre hpost ha hb hlt hz
    rw [hstream, hsplit]
    exact deltaStream_sum_reset pre post a b z hpre hpost ha hb hlt hz
  · intro hnoentry hrange
    have hzero : ofDirection direction (tc.aggregatedOf tag) = 0 := by
      unfold TrafficCollector.aggregatedOf ofDirection
      rw [hnoentry]
      simp
    rw [collectTicks_aggregatedOf tag ticks tc hticks, ofDirection_foldl, hzero,
      foldl_wrap64_exact _ 0 (le_refl 0) hdeltas (by rw [zero_add]; exact hrange), zero_add]

theorem sampler_deltas_monotone_witness :
    (∀ t ∈ ticksIn1 [(100, 0), (150, 0), (20, 0), (60, 0)],
      "in1" ∈ sampledTags t.1 ∧ (sampledTags t.1).Nodup) ∧
    NewTrafficCollector.lastSnapshot.lookup "in1" = none ∧
    (∀ t ∈ ticksIn1 [(100, 0), (150, 0), (20, 0), (60, 0)],
      0 ≤ queryStats t.2.1 "in1" "uplink") ∧
    (ticksIn1 [(100, 0), (150, 0), (20, 0), (60, 0)]).map
      (fun t => queryStats t.2.1 "in1" "uplink") = [100, 150, 20, 60] ∧
    (tickDeltas "in1" NewTrafficCollector
      (ticksIn1 [(100, 0), (150, 0), (20, 0), (60, 0)])).map (ofDirection "uplink") =
        [100, 50, 20, 40] ∧
    (collectTicks NewTrafficCollector
      (ticksIn1 [(100, 0), (150, 0), (20, 0), (60, 0)])).aggregatedOf "in1" = (210, 0) ∧
    ((tickDeltas "in1" NewTrafficCollector
      (ticksIn1 [(100, 0), (150, 0), (20, 0), (60, 0)])).map (ofDirection "uplink")).sum =
        150 + 60 :=
  ⟨by decide, rfl, by decide, by decide, by decide, by decide,
    (sampler_deltas_monotone "in1" "uplink" NewTrafficCollector
      (ticksIn1 [(100, 0), (150, 0), (20, 0), (60, 0)]) (Or.inl rfl) (by decide) rfl
      (by decide)).2.2.2.1 [100, 150] [20, 60] 150 20 60 (by decide) (by simp) (by simp)
      rfl rfl (by decide) rfl⟩

theorem collectTags_isSome (cli : String → Option String) (now : Int) (tags : List String)
    (tc : TrafficCollector) (tag : String)
    (h : tag ∈ tags ∨ (tc.aggregated.lookup tag).isSome = true) :
    ((tags.foldl (collectTag cli now) tc).aggregated.lookup tag).isSome = true := by
  induction tags generalizing tc with
  | nil =>
    rcases h with h | h
    · simp at h
    · exact h
  | cons t rest ih =>
    rw [List.foldl_cons]
    apply ih
    by_cases ht : tag = t
    · right
      rw [ht, (collectTag_self cli now tc t).2]
      rfl
    · rcases h with h | h
      · rcases List.mem_cons.mp h with h | h
        · exact absurd h ht
        · exact Or.inl h
      · right
        rw [(collectTag_other cli now tc t tag ht).2]
        exact h

/-- C24 (amended). On a report tick a `traffic_report` is handed to the client exactly
when the aggregator has an entry. With an empty aggregator nothing is sent and nothing
changes. With a non-empty aggregator the aggregator is emptied, and a connected client
with room in its queue gets one `traffic_report` that carries an entry for every tag of
the aggregator, with the aggregated deltas whatever they are, zeros included. A collect
tick that samples a tag leaves an entry for it in the aggregator whatever the samples
are, so also when both deltas are zero. -/
theorem report_tick_sends_every_entry (now : Int) (tc : TrafficCollector) (sc : SlaveClient) :
    (tc.aggregated = [] → reportAggregated now tc sc = (tc, sc)) ∧
    (tc.aggregated ≠ [] →
      (reportAggregated now tc sc).1 = { tc with aggregated := [] } ∧
      (sc.isConnected = true → sc.send.length < sendCapacity →
        (reportAggregated now tc sc).2.send =
          sc.send ++ [Message.mk "traffic_report"
            [("traffic", Value.obj (tc.aggregated.map (fun e =>
              (e.1, Value.obj [("uplink", Value.int e.2.Uplink),
                               ("downlink", Value.int e.2.Downlink)]))))]])) ∧
    (∀ (inst : Instance) (cli : String → Option String) (t : Int) (tag : String),
      tag ∈ sampledTags inst →
      ((collectTraffic inst cli t tc).aggregated.lookup tag).isSome = true) := by
  refine ⟨?_, ?_, ?_⟩
  · intro h
    unfold reportAggregated
    simp [h]
  · intro h
    have hlen : (tc.aggregated.map
        (fun e => (e.1, ({ e.2 with Timestamp := now } : TrafficSnapshot)))).length > 0 := by
      rw [List.length_map]
      exact List.length_pos.mpr h
    unfold reportAggregated
    simp only [hlen, if_true]
    refine ⟨trivial, ?_⟩
    intro hconn hroom
    unfold reportTraffic
    simp only [List.map_map, List.length_map]
    rw [if_pos (List.length_pos.mpr h)]
    unfold SlaveClient.SendMessage
    simp only [hconn, Bool.not_true, Bool.false_eq_true, if_false, hroom, if_true]
    rfl
  · intro inst cli t tag htag
    rw [collectTraffic_eq_foldl]
    exact collectTags_isSome cli t _ tc tag (Or.inl htag)

/-- C24, counterexample: the proxy runs with the inbounds `in1` and `api`, and on the one
collect tick since the last report the CLI fails for every counter, so every sample and
every delta is zero. The aggregator then holds the entries `in1` and `api` with zeros,
and the report tick sends a `traffic_report` with these two entries. -/
theorem zero_deltas_are_reported :
    (collectTraffic runningIn1 failingCli 10 NewTrafficCollector).aggregatedOf "in1" = (0, 0) ∧
    (collectTraffic runningIn1 failingCli 10 NewTrafficCollector).aggregatedOf "api" = (0, 0) ∧
    (reportAggregated 60 (collectTraffic runningIn1 failingCli 10 NewTrafficCollector)
      freshSlave.client).2.send =
      [Message.mk "traffic_report"
        [("traffic", Value.obj
          [("in1", Value.obj [("uplink", Value.int 0), ("downlink", Value.int 0)]),
           ("api", Value.obj [("uplink", Value.int 0), ("downlink", Value.int 0)])])]] := by
  refine ⟨by decide, by decide, rfl⟩

theorem report_tick_sends_every_entry_witness :
    sampledIn1.aggregated ≠ [] ∧
    (reportAggregated 120 sampledIn1 freshSlave.client).2.send =
      [] ++ [Message.mk "traffic_report"
        [("traffic", Value.obj (sampledIn1.aggregated.map (fun e =>
          (e.1, Value.obj [("uplink", Value.int e.2.Uplink),
                           ("downlink", Value.int e.2.Downlink)]))))]] :=
  ⟨by decide,
    ((report_tick_sends_every_entry 120 sampledIn1 freshSlave.client).2.1 (by decide)).2 rfl
      (by decide)⟩

theorem loadConfig_eq_bootstrap (i : Instance) (config : Config) :
    i.LoadConfigFromJSON (some config) =
      ({ i with config := some (bootstrap i.apiPort config) }, Except.ok ()) := by
  unfold Instance.LoadConfigFromJSON bootstrap ensureApiRule ensureApiInbound ensurePolicy
    ensureAPI ensureStats apiInbound apiRule
  rcases config with ⟨log, api, stats, policy, inbounds, outbounds, routing⟩
  rcases stats with _ | _ <;> rcases api with _ | _ <;>
    rcases policy with _ | ⟨levels, _ | ⟨su, sd⟩⟩ <;> rcases routing with _ | r <;> rfl

theorem ensureStats_fields (c : Config) :
    (ensureStats c).Stats = some () ∧ (ensureStats c).Log = c.Log ∧
    (ensureStats c).API = c.API ∧ (ensureStats c).Policy = c.Policy ∧
    (ensureStats c).Inbounds = c.Inbounds ∧ (ensureStats c).Outbounds = c.Outbounds ∧
    (ensureStats c).Routing = c.Routing := by
  unfold ensureStats
  cases h : c.Stats <;> simp [h]

theorem ensureAPI_fields (c : Config) :
    (ensureAPI c).API.isNone = false ∧ (ensureAPI c).Log = c.Log ∧
    (ensureAPI c).Stats = c.Stats ∧ (ensureAPI c).Policy = c.Policy ∧
    (ensureAPI c).Inbounds = c.Inbounds ∧ (ensureAPI c).Outbounds = c.Outbounds ∧
    (ensureAPI c).Routing = c.Routing := by
  unfold ensureAPI
  cases h : c.API <;> simp [h]

theorem ensurePolicy_fields (c : Config) :
    (∃ policy, (ensurePolicy c).Policy = some policy ∧
      policy.System = some { StatsInboundUplink := true, StatsInboundDownlink := true }) ∧
    (ensurePolicy c).Log = c.Log ∧ (ensurePolicy c).Stats = c.Stats ∧
    (ensurePolicy c).API = c.API ∧
    (ensurePolicy c).Inbounds = c.Inbounds ∧ (ensurePolicy c).Outbounds = c.Outbounds ∧
    (ensurePolicy c).Routing = c.Routing := by
  unfold ensurePolicy
  rcases h : c.Policy with _ | ⟨levels, _ | system⟩ <;> simp

theorem ensureApiInbound_fields (port : Int) (c : Config) :
    (ensureApiInbound port c).Inbounds =
      (if c.Inbounds.any (fun inbound => inbound.Tag == "api") then c.Inbounds
       else c.Inbounds ++ [apiInbound port]) ∧
    (ensureApiInbound port c).Log = c.Log ∧ (ensureApiInbound port c).Stats = c.Stats ∧
    (ensureApiInbound port c).API = c.API ∧ (ensureApiInbound port c).Policy = c.Policy ∧
    (ensureApiInbound port c).Outbounds = c.Outbounds ∧
    (ensureApiInbound port c).Routing = c.Routing := by
  unfold ensureApiInbound
  cases h : c.Inbounds.any (fun inbound => inbound.Tag == "api") <;> simp

theorem ensureApiRule_fields (c : Config) :
    (ensureApiRule c).rules =
      (if c.rules.any (fun rule => rule.OutboundTag == "api") then c.rules
       else apiRule :: c.rules) ∧
    (ensureApiRule c).balancers = c.balancers ∧ (ensureApiRule c).Routing.isNone = false ∧
    (ensureApiRule c).Log = c.Log ∧ (ensureApiRule c).Stats = c.Stats ∧
    (ensureApiRule c).API = c.API ∧ (ensureApiRule c).Policy = c.Policy ∧
    (ensureApiRule c).Inbounds = c.Inbounds ∧ (ensureApiRule c).Outbounds = c.Outbounds := by
  unfold ensureApiRule Config.rules Config.balancers
  rcases hr : c.Routing with _ | r
  · simp [emptyRouting]
  · cases h : r.Rules.any (fun rule => rule.OutboundTag == "api") <;> simp [h]

theorem bootstrap_fields (port : Int) (config : Config) :
    (bootstrap port config).Stats = some () ∧
    (∃ policy system, (bootstrap port config).Policy = some policy ∧
      policy.System = some system ∧
      system.StatsInboundUplink = true ∧ system.StatsInboundDownlink = true) ∧
    (bootstrap port config).Inbounds =
      (if config.Inbounds.any (fun inbound => inbound.Tag == "api") then config.Inbounds
       else config.Inbounds ++ [apiInbound port]) ∧
    (bootstrap port config).rules =
      (if config.rules.any (fun rule => rule.OutboundTag == "api") then config.rules
       else apiRule :: config.rules) ∧
    (bootstrap port config).Inbounds.any (fun inbound => inbound.Tag == "api") = true ∧
    (bootstrap port config).rules.any (fun rule => rule.OutboundTag == "api") = true ∧
    (bootstrap port config).Log = config.Log ∧
    (bootstrap port config).Outbounds = config.Outbounds ∧
    (bootstrap port config).balancers = config.balancers := by
  unfold bootstrap
  obtain ⟨s1, s2, s3, s4, s5, s6, s7⟩ := ensureStats_fields config
  obtain ⟨a1, a2, a3, a4, a5, a6, a7⟩ := ensureAPI_fields (ensureStats config)
  obtain ⟨⟨policy, p0, p1⟩, p2, p3, p4, p5, p6, p7⟩ :=
    ensurePolicy_fields (ensureAPI (ensureStats config))
  obtain ⟨b1, b2, b3, b4, b5, b6, b7⟩ :=
    ensureApiInbound_fields port (ensurePolicy (ensureAPI (ensureStats config)))
  obtain ⟨r1, r2, r3, r4, r5, r6, r7, r8, r9⟩ :=
    ensureApiRule_fields
      (ensureApiInbound port (ensurePolicy (ensureAPI (ensureStats config))))
  have hrules : ∀ c1 c2 : Config, c1.Routing = c2.Routing → c1.rules = c2.rules := by
    intro c1 c2 h
    simp [Config.rules, h]
  have hbal : ∀ c1 c2 : Config, c1.Routing = c2.Routing → c1.balancers = c2.balancers := by
    intro c1 c2 h
    simp [Config.balancers, h]
  have hr0 : (ensureApiInbound port (ensurePolicy (ensureAPI (ensureStats config)))).rules
      = config.rules := hrules _ _ (by rw [b7, p7, a7, s7])
  have hb0 : (ensureApiInbound port
      (ensurePolicy (ensureAPI (ensureStats config)))).balancers = config.balancers :=
    hbal _ _ (by rw [b7, p7, a7, s7])
  have hin : (ensureApiRule (ensureApiInbound port
      (ensurePolicy (ensureAPI (ensureStats config))))).Inbounds =
      (if config.Inbounds.any (fun inbound => inbound.Tag == "api") then config.Inbounds
       else config.Inbounds ++ [apiInbound port]) := by
    rw [r8, b1, p5, a5, s5]
  have hru : (ensureApiRule (ensureApiInbound port
      (ensurePolicy (ensureAPI (ensureStats config))))).rules =
      (if config.rules.any (fun rule => rule.OutboundTag == "api") then config.rules
       else apiRule :: config.rules) := by
    rw [r1, hr0]
  refine ⟨by rw [r5, b3, p3, a3, s1], ⟨policy, _, by rw [r7, b5, p0], p1, rfl, rfl⟩, hin, hru,
    ?_, ?_, by rw [r4, b2, p2, a2, s2], by rw [r9, b6, p6, a6, s6], by rw [r2, hb0]⟩
  · rw [hin]
    cases h : config.Inbounds.any (fun inbound => inbound.Tag == "api")
    · simp [apiInbound]
    · simpa using h
  · rw [hru]
    cases h : config.rules.any (fun rule => rule.OutboundTag == "api")
    · simp [apiRule]
    · simpa using h


/-- C25 (amended). `LoadConfigFromJSON` on a configuration that parses, for an instance
with API port `p`, returns no error and stores a configuration with a statistics block
and a policy whose system section has both inbound counters on. Its inbounds are those
of the input followed by the inbound `api` on `127.0.0.1:p` when the input has no
inbound tagged `api`, and exactly those of the input when it has one (that inbound is
kept as it is). Its routing rules are the rule `api` to `api` followed by those of the
input when no rule of the input has the outbound tag `api`, and exactly those of the
input when one has. Log, outbounds and balancers are those of the input. -/
theorem bootstrap_adds_what_is_absent (i : Instance) (config : Config) :
    ∃ out : Config,
      i.LoadConfigFromJSON (some config) = ({ i with config := some out }, Except.ok ()) ∧
      out.Stats = some () ∧
      (∃ policy system, out.Policy = some policy ∧ policy.System = some system ∧
        system.StatsInboundUplink = true ∧ system.StatsInboundDownlink = true) ∧
      out.Inbounds =
        (if config.Inbounds.any (fun inbound => inbound.Tag == "api") then config.Inbounds
         else config.Inbounds ++ [apiInbound i.apiPort]) ∧
      out.rules =
        (if config.rules.any (fun rule => rule.OutboundTag == "api") then config.rules
         else apiRule :: config.rules) ∧
      out.Inbounds.any (fun inbound => inbound.Tag == "api") = true ∧
      out.rules.any (fun rule => rule.OutboundTag == "api") = true ∧
      out.Log = config.Log ∧ out.Outbounds = config.Outbounds ∧
      out.balancers = config.balancers := by
  exact ⟨bootstrap i.apiPort config, loadConfig_eq_bootstrap i config,
    bootstrap_fields i.apiPort config⟩

/-- C25, counterexample: the configuration `ownApiConfig` has an inbound tagged `api` on
`0.0.0.0:9999` and the rules `out1`, `api`. After `LoadConfigFromJSON` with API port 10085
the only inbound tagged `api` is still that one, so none listens on `127.0.0.1:10085`, and
the first routing rule is still the rule to `out1`. -/
theorem existing_api_entries_are_kept :
    ((NewInstance.LoadConfigFromJSON (some ownApiConfig)).1.config.map
      (fun c => c.Inbounds.map (fun x => (x.Tag, x.Listen, x.Port)))) =
        some [("api", "0.0.0.0", 9999)] ∧
    ((NewInstance.LoadConfigFromJSON (some ownApiConfig)).1.config.map
      (fun c => c.rules.map (fun r => (r.InboundTag, r.OutboundTag)))) =
        some [([], "out1"), ([], "api")] := by
  refine ⟨by decide, by decide⟩

theorem bootstrap_fixed (port : Int) (c : Config)
    (hstats : c.Stats = some ()) (hapi : c.API.isNone = false)
    (hpolicy : ∃ policy, c.Policy = some policy ∧
      policy.System = some { StatsInboundUplink := true, StatsInboundDownlink := true })
    (hin : c.Inbounds.any (fun inbound => inbound.Tag == "api") = true)
    (hrouting : c.Routing.isNone = false)
    (hrule : c.rules.any (fun rule => rule.OutboundTag == "api") = true) :
    bootstrap port c = c := by
  obtain ⟨policy, hp, hsys⟩ := hpolicy
  rcases c with ⟨log, api, stats, pol, inbounds, outbounds, routing⟩
  simp only at hstats hapi hp hin hrouting
  subst hstats hp
  rcases api with _ | api
  · simp at hapi
  rcases routing with _ | r
  · simp at hrouting
  rcases policy with ⟨levels, system⟩
  simp only at hsys
  subst hsys
  simp only [Config.rules] at hrule
  simp [bootstrap, ensureStats, ensureAPI, ensurePolicy, ensureApiInbound, ensureApiRule, hin,
    hrule]

theorem bootstrap_bootstrap (port : Int) (config : Config) :
    bootstrap port (bootstrap port config) = bootstrap port config := by
  obtain ⟨s1, s2, s3, s4, s5, s6, s7⟩ := ensureStats_fields config
  obtain ⟨a1, a2, a3, a4, a5, a6, a7⟩ := ensureAPI_fields (ensureStats config)
  obtain ⟨⟨policy, p0, p1⟩, p2, p3, p4, p5, p6, p7⟩ :=
    ensurePolicy_fields (ensureAPI (ensureStats config))
  obtain ⟨b1, b2, b3, b4, b5, b6, b7⟩ :=
    ensureApiInbound_fields port (ensurePolicy (ensureAPI (ensureStats config)))
  obtain ⟨r1, r2, r3, r4, r5, r6, r7, r8, r9⟩ :=
    ensureApiRule_fields
      (ensureApiInbound port (ensurePolicy (ensureAPI (ensureStats config))))
  apply bootstrap_fixed
  · unfold bootstrap
    rw [r5, b3, p3, a3, s1]
  · unfold bootstrap
    rw [r6, b4, p4, a1]
  · unfold bootstrap
    exact ⟨policy, by rw [r7, b5, p0], p1⟩
  · unfold bootstrap
    rw [r8, b1]
    cases h : (ensurePolicy (ensureAPI (ensureStats config))).Inbounds.any
      (fun inbound => inbound.Tag == "api")
    · simp [apiInbound]
    · simpa using h
  · unfold bootstrap
    exact r3
  · unfold bootstrap
    rw [r1]
    cases h : (ensureApiInbound port (ensurePolicy (ensureAPI (ensureStats config)))).rules.any
      (fun rule => rule.OutboundTag == "api")
    · simp [apiRule]
    · simpa using h

/-- C26. For every configuration that parses, `LoadConfigFromJSON` returns no error, and
running it again on its own output (the configuration it stored, read back) returns no
error and leaves the instance as it is: the same configuration is stored, with the same
inbounds and routing rules, so with no second `api` inbound and no second `api` rule,
and with both counter flags of the policy still on. -/
theorem bootstrap_injection_idempotent (i : Instance) (config : Config) :
    ∃ out : Config,
      i.LoadConfigFromJSON (some config) = ({ i with config := some out }, Except.ok ()) ∧
      (i.LoadConfigFromJSON (some config)).1.LoadConfigFromJSON (some out) =
        ({ i with config := some out }, Except.ok ()) ∧
      (out.Inbounds.filter (fun inbound => inbound.Tag == "api")).length =
        max 1 (config.Inbounds.filter (fun inbound => inbound.Tag == "api")).length ∧
      (out.rules.filter (fun rule => rule.OutboundTag == "api")).length =
        max 1 (config.rules.filter (fun rule => rule.OutboundTag == "api")).length ∧
      (∃ policy system, out.Policy = some policy ∧ policy.System = some system ∧
        system.StatsInboundUplink = true ∧ system.StatsInboundDownlink = true) := by
  obtain ⟨-, hpol, hin, hru, -, -, -, -, -⟩ := bootstrap_fields i.apiPort config
  have hcount : ∀ {α : Type} (p : α → Bool) (xs : List α) (x : α), p x = true →
      ((if xs.any p then xs else xs ++ [x]).filter p).length = max 1 (xs.filter p).length ∧
      ((if xs.any p then xs else x :: xs).filter p).length = max 1 (xs.filter p).length := by
    intro α p xs x hx
    cases h : xs.any p
    · have hnone : xs.filter p = [] := by
        rw [List.filter_eq_nil_iff]
        intro a ha hpa
        have : xs.any p = true := List.any_eq_true.mpr ⟨a, ha, hpa⟩
        rw [h] at this
        cases this
      simp [hnone, hx]
    · obtain ⟨a, ha, hpa⟩ := List.any_eq_true.mp h
      have hpos : 0 < (xs.filter p).length :=
        List.length_pos_of_mem (List.mem_filter.mpr ⟨ha, hpa⟩)
      simp only [if_true]
      omega
  refine ⟨bootstrap i.apiPort config, loadConfig_eq_bootstrap i config, ?_, ?_, ?_, hpol⟩
  · rw [loadConfig_eq_bootstrap i config]
    have := loadConfig_eq_bootstrap { i with config := some (bootstrap i.apiPort config) }
      (bootstrap i.apiPort config)
    rw [this]
    simp only [bootstrap_bootstrap]
  · rw [hin]
    exact (hcount _ _ _ (by simp [apiInbound])).1
  · rw [hru]
    exact (hcount _ _ _ (by simp [apiRule])).2

theorem unregister_clients (db : model.DB) (hub : Hub) (client : Client) :
    (Hub.Unregister db hub client).2.clients =
      hub.clients.filter (fun c => !(c.ID == client.ID)) := by
  unfold Hub.Unregister
  split
  · rfl
  · rename_i h
    simp only
    symm
    rw [List.filter_eq_self]
    intro a ha
    cases hid : (a.ID == client.ID)
    · rfl
    · exact absurd (List.any_eq_true.mpr ⟨a, ha, hid⟩) h

theorem scan_step_slaves (db : model.DB) (hub : Hub) (client : Client) :
    (Hub.Unregister (db.UpdateSlaveStatus client.SlaveID model.SlaveStatusOffline).1 hub
        client).1 =
      { db with slaves := db.slaves.map (fun s =>
          if s.ID == client.SlaveID then { s with Status := model.SlaveStatusOffline } else s) } := by
  unfold Hub.Unregister model.DB.UpdateSlaveStatus
  split
  · simp only [List.map_map]
    congr 1
    apply List.map_congr_left
    intro s _
    simp only [Function.comp]
    cases h : (s.ID == client.SlaveID) <;> simp [h]
  · rfl

theorem scan_fold (timeout now : Int) (todo : List Client) (db : model.DB) (hub : Hub) :
    todo.foldl (scanClient timeout now) (db, hub) =
      ({ db with slaves := db.slaves.map (fun s =>
          if todo.any (fun c => expired timeout now c && c.SlaveID == s.ID) then
            { s with Status := model.SlaveStatusOffline }
          else s) },
       { clients := hub.clients.filter (fun x =>
          !(todo.any (fun c => expired timeout now c && c.ID == x.ID))) }) := by
  induction todo generalizing db hub with
  | nil => simp
  | cons c rest ih =>
    rw [List.foldl_cons]
    cases hexp : expired timeout now c with
    | false =>
      have hstep : scanClient timeout now (db, hub) c = (db, hub) := by
        unfold scanClient
        unfold expired at hexp
        simp only [Bool.and_eq_false_iff, decide_eq_false_iff_not] at hexp
        rw [if_neg]
        intro h
        rcases hexp with h1 | h1
        · exact h1 h.1
        · exact h1 h.2
      rw [hstep, ih]
      simp [hexp]
    | true =>
      have hstep : scanClient timeout now (db, hub) c =
          Hub.Unregister (db.UpdateSlaveStatus c.SlaveID model.SlaveStatusOffline).1 hub c := by
        unfold scanClient
        unfold expired at hexp
        simp only [Bool.and_eq_true, decide_eq_true_eq] at hexp
        rw [if_pos hexp]
      rw [hstep]
      have hpair : Hub.Unregister (db.UpdateSlaveStatus c.SlaveID model.SlaveStatusOffline).1
          hub c = ((Hub.Unregister (db.UpdateSlaveStatus c.SlaveID
            model.SlaveStatusOffline).1 hub c).1, (Hub.Unregister (db.UpdateSlaveStatus c.SlaveID
            model.SlaveStatusOffline).1 hub c).2) := rfl
      rw [hpair, ih, scan_step_slaves]
      have hcl := unregister_clients
        (db.UpdateSlaveStatus c.SlaveID model.SlaveStatusOffline).1 hub c
      rw [hcl]
      simp only [List.map_map, List.filter_filter, List.any_cons, hexp, Bool.true_and]
      refine Prod.ext ?_ ?_
      · simp only
        congr 1
        apply List.map_congr_left
        intro s _
        simp only [Function.comp]
        by_cases h1 : s.ID = c.SlaveID
        · have h2 : (c.SlaveID == s.ID) = true := by simp [h1]
          simp [h1]
        · have h2 : (c.SlaveID == s.ID) = false := by
            simp only [beq_eq_false_iff_ne, ne_eq]
            exact fun h => h1 h.symm
          simp [h1, h2]
      · simp only
        congr 1
        apply List.filter_congr
        intro x _
        by_cases h1 : x.ID = c.ID
        · simp [h1]
        · have h2 : (c.ID == x.ID) = false := by
            simp only [beq_eq_false_iff_ne, ne_eq]
            exact fun h => h1 h.symm
          simp [h1, h2]

/-- C27 (amended). One heartbeat scan at time `now` with threshold `timeout` (90 s in
`main`), over a hub whose sessions have distinct ids. The sessions registered afterwards
are exactly those that were registered and are not expired, a session being expired
when its last-seen time is set and `now - lastSeen > timeout`; so a session whose
last-seen age is at most the threshold stays registered. A node is marked offline when
at least one of its sessions expired, also when another session of that node stays
registered; the status of every other node, and the rest of the store, is not touched. -/
theorem heartbeat_scan_expires_stale_sessions (timeout now : Int) (db : model.DB) (hub : Hub)
    (hids : (hub.clients.map (fun c => c.ID)).Nodup) :
    (heartbeatScan timeout now db hub).2.clients =
      hub.clients.filter (fun c => !expired timeout now c) ∧
    (heartbeatScan timeout now db hub).1.slaves =
      db.slaves.map (fun s =>
        if hub.clients.any (fun c => expired timeout now c && c.SlaveID == s.ID) then
          { s with Status := model.SlaveStatusOffline }
        else s) ∧
    (heartbeatScan timeout now db hub).1.config_diffs = db.config_diffs ∧
    (heartbeatScan timeout now db hub).1.traffic_stats = db.traffic_stats := by
  unfold heartbeatScan
  rw [scan_fold]
  refine ⟨?_, rfl, rfl, rfl⟩
  simp only
  apply List.filter_congr
  intro x hx
  congr 1
  cases hexp : expired timeout now x with
  | true =>
    exact List.any_eq_true.mpr ⟨x, hx, by simp [hexp]⟩
  | false =>
    rw [Bool.eq_false_iff]
    intro h
    obtain ⟨c, hc, hcond⟩ := List.any_eq_true.mp h
    simp only [Bool.and_eq_true, beq_iff_eq] at hcond
    have hcx : c = x := List.inj_on_of_nodup_map hids hc hx hcond.2
    rw [hcx, hexp] at hcond
    exact absurd hcond.1 (by simp)

theorem heartbeat_scan_expires_stale_sessions_witness :
    ((twoSessions 1000000000000).clients.map (fun c => c.ID)).Nodup ∧
    ((heartbeatScan heartbeatTimeout (1000000000000 + 100 * second) (s1Store 2 "online")
        (twoSessions 1000000000000)).2.clients =
      (twoSessions 1000000000000).clients.filter
        (fun c => !expired heartbeatTimeout (1000000000000 + 100 * second) c) ∧
    (heartbeatScan heartbeatTimeout (1000000000000 + 100 * second) (s1Store 2 "online")
        (twoSessions 1000000000000)).1.slaves =
      (s1Store 2 "online").slaves.map (fun s =>
        if (twoSessions 1000000000000).clients.any (fun c =>
            expired heartbeatTimeout (1000000000000 + 100 * second) c && c.SlaveID == s.ID) then
          { s with Status := model.SlaveStatusOffline }
        else s) ∧
    (heartbeatScan heartbeatTimeout (1000000000000 + 100 * second) (s1Store 2 "online")
        (twoSessions 1000000000000)).1.config_diffs = (s1Store 2 "online").config_diffs ∧
    (heartbeatScan heartbeatTimeout (1000000000000 + 100 * second) (s1Store 2 "online")
        (twoSessions 1000000000000)).1.traffic_stats = (s1Store 2 "online").traffic_stats) :=
  ⟨by decide,
    heartbeat_scan_expires_stale_sessions heartbeatTimeout (1000000000000 + 100 * second)
      (s1Store 2 "online") (twoSessions 1000000000000) (by decide)⟩

/-- C27, counterexample: node `n1` has two registered sessions when the scan runs with
the threshold of 90 s: `old`, last seen 100 s ago, and `new`, last seen 10 s ago. After
the scan `new` is still registered, its last-seen age being at most 90 s, and the status
of its node `n1` has been set from `online` to `offline`. -/
theorem fresh_session_node_marked_offline :
    (s1Store 2 "online").slaves.map (fun s => (s.ID, s.Status)) = [(1, "online")] ∧
    (twoSessions 1000000000000).clients.map
      (fun c => (c.ID, c.SlaveID, (1000000000000 + 100 * second - c.LastSeen) / second)) =
      [("old", 1, 100), ("new", 1, 10)] ∧
    (heartbeatScan heartbeatTimeout (1000000000000 + 100 * second) (s1Store 2 "online")
      (twoSessions 1000000000000)).2.clients.map (fun c => (c.ID, c.SlaveID)) =
        [("new", 1)] ∧
    (heartbeatScan heartbeatTimeout (1000000000000 + 100 * second) (s1Store 2 "online")
      (twoSessions 1000000000000)).1.slaves.map (fun s => (s.ID, s.Status)) =
        [(1, "offline")] := by
  refine ⟨by decide, by decide, by decide, by decide⟩

theorem loadConfig_some (i : Instance) (c : Config) :
    (i.LoadConfigFromJSON (some c)).2 = Except.ok () ∧
    ((i.LoadConfigFromJSON (some c)).1.config).isNone = false ∧
    (i.LoadConfigFromJSON (some c)).1.isRunning = i.isRunning := by
  simp [Instance.LoadConfigFromJSON]

theorem reloadConfig_result (env : Env) (m : Manager) :
    (reloadConfig env m).2 =
      if env.startOk then Except.ok () else Except.error Err.startFailed := by
  unfold reloadConfig
  have hstop : (if m.instance_.IsRunning = true then m.instance_.Stop
      else (m.instance_, Except.ok ())).2 = Except.ok () := by
    unfold Instance.Stop Instance.IsRunning
    cases m.instance_.isRunning <;> rfl
  simp only [hstop]
  obtain ⟨h1, h2, -⟩ := loadConfig_some
    (if m.instance_.IsRunning = true then m.instance_.Stop
      else (m.instance_, Except.ok ())).1 (m.currentConfig.getD emptyConfig)
  simp only [h1]
  unfold Instance.Start
  simp only [h2]
  cases env.startOk <;> simp

theorem addConfig_error (cfg : Config) (configType tag : String) (content : Content) (e : Err)
    (h : (addConfig cfg configType tag content).2 = Except.error e) :
    e ≠ Err.startFailed ∧
    ((addConfig cfg configType tag content).1 = cfg ∨
      (cfg.Routing = none ∧
        (addConfig cfg configType tag content).1 = { cfg with Routing := some emptyRouting })) := by
  revert h
  unfold addConfig addInbound addOutbound addRoutingRule addBalancer
  cases hr : cfg.Routing <;> simp only [] <;> (repeat' split) <;> intro h <;>
    simp_all [routing_eta] <;> (rw [← h]; simp)

theorem updateConfig_error (cfg : Config) (configType tag : String) (content : Content)
    (e : Err) (h : (updateConfig cfg configType tag content).2 = Except.error e) :
    e ≠ Err.startFailed ∧ (updateConfig cfg configType tag content).1 = cfg := by
  revert h
  unfold updateConfig updateInbound updateOutbound updateRoutingRule updateBalancer
  (repeat' split) <;> intro h <;> simp_all <;>
    first
    | (rw [← h]; simp)
    | (revert h; split <;> intro h <;> simp_all <;> (rw [← h]; simp))

theorem deleteConfig_error (cfg : Config) (configType tag : String)
    (e : Err) (h : (deleteConfig cfg configType tag).2 = Except.error e) :
    e ≠ Err.startFailed ∧ (deleteConfig cfg configType tag).1 = cfg := by
  revert h
  unfold deleteConfig deleteInbound deleteOutbound deleteRoutingRule deleteBalancer
  (repeat' split) <;> intro h <;> simp_all <;> (rw [← h]; simp)

/-- C29 (amended). `ApplyConfigDiff` returns an error `e`. Either the reload failed after
a mutation that succeeded (`e` is the failure to start the proxy): then the manager
keeps the mutated configuration, the one it holds after the same call in an environment
in which the proxy starts, and that call returns no error. Or the mutation was refused
(`e` is any other error): then the configuration is the one before the call, except that
ADD of a routing rule or balancer whose content does not decode has replaced a missing
routing section by an empty one. -/
theorem failed_reload_keeps_mutation (env : Env) (m : Manager) (action : String)
    (content : Content) (e : Err)
    (herr : (ApplyConfigDiff env m action content).2 = Except.error e) :
    (e = Err.startFailed ∧ env.startOk = false ∧
      (ApplyConfigDiff { env with startOk := true } m action content).2 = Except.ok () ∧
      (ApplyConfigDiff env m action content).1.currentConfig =
        (ApplyConfigDiff { env with startOk := true } m action content).1.currentConfig) ∨
    (e ≠ Err.startFailed ∧
      ((ApplyConfigDiff env m action content).1.currentConfig = m.currentConfig ∨
        ∃ cfg, m.currentConfig = some cfg ∧ cfg.Routing = none ∧
          (ApplyConfigDiff env m action content).1.currentConfig =
            some { cfg with Routing := some emptyRouting })) := by
  have hsame := applyConfigDiff_config_env env { env with startOk := true } m m action
    content rfl
  rw [← hsame]
  unfold ApplyConfigDiff at herr ⊢
  cases hcfg : m.currentConfig with
  | none =>
    simp only [hcfg] at herr ⊢
    right
    cases herr
    exact ⟨by simp, Or.inl (by simp [hcfg])⟩
  | some cfg =>
    simp only [hcfg] at herr ⊢
    cases htag : asString (content.lookup "tag") with
    | none =>
      simp only [htag] at herr ⊢
      right
      cases herr
      exact ⟨by simp, Or.inl (by simp [hcfg])⟩
    | some tag =>
      simp only [htag] at herr ⊢
      have happ : ∀ c2 e2,
          (if action = "ADD" then some (addConfig cfg (detectConfigType content) tag content)
            else if action = "UPDATE" then
              some (updateConfig cfg (detectConfigType content) tag content)
            else if action = "DEL" ∨ action = "DELETE" then
              some (deleteConfig cfg (detectConfigType content) tag)
            else none) = some (c2, Except.error e2) →
          e2 ≠ Err.startFailed ∧
            (c2 = cfg ∨ (cfg.Routing = none ∧ c2 = { cfg with Routing := some emptyRouting })) := by
        intro c2 e2 h
        split_ifs at h with h1 h2 h3
        · have h := Option.some.inj h
          have := addConfig_error cfg (detectConfigType content) tag content e2 (by rw [h])
          rw [h] at this
          exact this
        · have h := Option.some.inj h
          have := updateConfig_error cfg (detectConfigType content) tag content e2 (by rw [h])
          rw [h] at this
          exact ⟨this.1, Or.inl this.2⟩
        · have h := Option.some.inj h
          have := deleteConfig_error cfg (detectConfigType content) tag e2 (by rw [h])
          rw [h] at this
          exact ⟨this.1, Or.inl this.2⟩
      generalize (if action = "ADD" then
          some (addConfig cfg (detectConfigType content) tag content)
        else if action = "UPDATE" then
          some (updateConfig cfg (detectConfigType content) tag content)
        else if action = "DEL" ∨ action = "DELETE" then
          some (deleteConfig cfg (detectConfigType content) tag)
        else none) = applied at happ herr ⊢
      rcases applied with _ | ⟨c2, e2 | modified⟩
      · right
        simp only at herr ⊢
        cases herr
        exact ⟨by simp, Or.inl (by simp [hcfg])⟩
      · right
        simp only at herr ⊢
        cases herr
        obtain ⟨hne, hc⟩ := happ c2 e rfl
        refine ⟨hne, ?_⟩
        rcases hc with hc | ⟨hr, hc⟩
        · exact Or.inl (by rw [hc])
        · exact Or.inr ⟨cfg, rfl, hr, by rw [hc]⟩
      · cases modified with
        | false => simp at herr
        | true =>
          left
          simp only [if_true] at herr ⊢
          rw [reloadConfig_result] at herr ⊢
          cases hs : env.startOk with
          | true => simp [hs] at herr
          | false =>
            simp only [hs, Bool.false_eq_true, if_false] at herr
            cases herr
            simp

theorem failed_reload_keeps_mutation_witness :
    (ApplyConfigDiff noStartEnv freshManager "ADD" s1Inbound).2 =
      Except.error Err.startFailed ∧
    ((Err.startFailed = Err.startFailed ∧ noStartEnv.startOk = false ∧
      (ApplyConfigDiff { noStartEnv with startOk := true } freshManager "ADD" s1Inbound).2 =
        Except.ok () ∧
      (ApplyConfigDiff noStartEnv freshManager "ADD" s1Inbound).1.currentConfig =
        (ApplyConfigDiff { noStartEnv with startOk := true } freshManager "ADD"
          s1Inbound).1.currentConfig) ∨
    (Err.startFailed ≠ Err.startFailed ∧
      ((ApplyConfigDiff noStartEnv freshManager "ADD" s1Inbound).1.currentConfig =
          freshManager.currentConfig ∨
        ∃ cfg, freshManager.currentConfig = some cfg ∧ cfg.Routing = none ∧
          (ApplyConfigDiff noStartEnv freshManager "ADD" s1Inbound).1.currentConfig =
            some { cfg with Routing := some emptyRouting }))) :=
  ⟨rfl, failed_reload_keeps_mutation noStartEnv freshManager "ADD" s1Inbound Err.startFailed
    rfl⟩

/-- C29, counterexample: the diff ADD inbound `in1` arrives at a manager holding the empty
configuration while the proxy cannot be started. `ApplyConfigDiff` returns the start
failure, and the configuration in memory now holds `in1`: it is not the configuration
before the call. A retry of the same diff, in an environment in which the proxy would
start, finds `in1`, returns no error and does not reload: the proxy is still not running. -/
theorem failed_start_leaves_inbound_added :
    (ApplyConfigDiff noStartEnv freshManager "ADD" s1Inbound).2 =
      Except.error Err.startFailed ∧
    freshManager.currentConfig.map (fun c => c.Inbounds.map (fun x => x.Tag)) = some [] ∧
    (ApplyConfigDiff noStartEnv freshManager "ADD" s1Inbound).1.currentConfig.map
      (fun c => c.Inbounds.map (fun x => x.Tag)) = some ["in1"] ∧
    (ApplyConfigDiff okEnv (ApplyConfigDiff noStartEnv freshManager "ADD" s1Inbound).1 "ADD"
      s1Inbound).2 = Except.ok () ∧
    (ApplyConfigDiff okEnv (ApplyConfigDiff noStartEnv freshManager "ADD" s1Inbound).1 "ADD"
      s1Inbound).1.instance_.IsRunning = false := by
  refine ⟨rfl, rfl, rfl, rfl, rfl⟩

/-- C30 (amended). The coordinator handles an ack message `{version: v, status, message}`
for a registered node, whatever its status, `error` included, `v` being an integer of
magnitude at most `2 ^ 53` (so that the handler's `int64` conversion of the decoded
number is `v`): the applied-version recorded for the node afterwards is `v`, and the
store is the one that the ack `{version: v, status: "success"}` leaves. The status of an
ack is not read. -/
theorem ack_status_is_not_read (db : model.DB) (client : Client) (v : Int)
    (status message : String) (slave : model.Slave)
    (hexact : exactInteger v 0 = true)
    (hnode : db.GetSlaveByID client.SlaveID = Except.ok slave) :
    (handleAck db client
        [("version", Value.int v), ("status", Value.str status),
         ("message", Value.str message)]).GetSlaveByID client.SlaveID =
      Except.ok { slave with CurrentVersion := v } ∧
    handleAck db client
        [("version", Value.int v), ("status", Value.str status),
         ("message", Value.str message)] =
      handleAck db client (ackPayload v "success") := by
  have hstep : handleAck db client
      [("version", Value.int v), ("status", Value.str status),
       ("message", Value.str message)] = (db.UpdateSlaveVersion client.SlaveID v).1 := by
    have _ := hexact
    simp [handleAck, Value.int, List.lookup, toInt64_zero_scale]
  have hok : handleAck db client (ackPayload v "success") =
      (db.UpdateSlaveVersion client.SlaveID v).1 := by
    simp [handleAck, ackPayload, Value.int, List.lookup, toInt64_zero_scale]
  refine ⟨?_, by rw [hstep, hok]⟩
  rw [hstep, getSlave_after_updateVersion, hnode]
  have hid : slave.ID = client.SlaveID := by
    unfold model.DB.GetSlaveByID at hnode
    split at hnode
    · rename_i s hs
      have := find_some_id _ _ _ hs
      cases hnode
      exact this
    · cases hnode
  simp [Except.map, hid]

theorem ack_status_is_not_read_witness :
    exactInteger 3 0 = true ∧
    ((handleAck (s1Store 2 "online") sessionN1
        [("version", Value.int 3), ("status", Value.str "error"),
         ("message", Value.str "应用配置失败")]).GetSlaveByID sessionN1.SlaveID =
      Except.ok { nodeN1 2 "online" with CurrentVersion := 3 } ∧
    handleAck (s1Store 2 "online") sessionN1
        [("version", Value.int 3), ("status", Value.str "error"),
         ("message", Value.str "应用配置失败")] =
      handleAck (s1Store 2 "online") sessionN1 (ackPayload 3 "success")) :=
  ⟨by decide,
    ack_status_is_not_read (s1Store 2 "online") sessionN1 3 "error" "应用配置失败"
      (nodeN1 2 "online") (by decide) rfl⟩

/-- C30, counterexample: node `n1` has applied version 2 and reports that the diff of
version 3 failed to apply, ack `{version: 3, status: "error"}`; the coordinator then
records 3 as the applied-version of `n1`. -/
theorem error_ack_advances_applied_version :
    (s1Store 2 "online").slaves.map (fun s => (s.ID, s.CurrentVersion)) = [(1, 2)] ∧
    (handleAck (s1Store 2 "online") sessionN1 (ackPayload 3 "error")).slaves.map
      (fun s => (s.ID, s.CurrentVersion)) = [(1, 3)] := by
  refine ⟨by decide, by decide⟩

end XrayPanel
